import Mathlib

/-!
# tiva-tftp: the TFTP read server of `tftp.c`

A shallow embedding of the session engine of `src/tftp.c` and theorems about it.

Modelling conventions

* Bytes and machine integers are natural numbers; 16-bit arithmetic is written
  with an explicit `% 65536`, the 8-bit `len` of the request path with `% 256`.
* Memory blocks obtained from `mmAlloc` are values of `Ptr`: `null`, `live bytes`
  or `dangling` (released by `mmFree`, the pointer itself is not cleared by the code).
  Using a block that is not live, or releasing a dangling one, is undefined behaviour
  in C; the functions that can do so return `Option`, `none` standing for it.
* Everything outside the file (the allocator, the socket layer, the registered
  provider callback `g_pfnRequest`) answers through an `Env` record, one record per
  call of `tftpProcessPacket`: every external routine is called at most once per
  call site there, so the record fixes the answer of each call site.
* The content block always has `SEGSIZE` bytes and the packet buffer `DATA_SIZE`
  bytes: what the allocator or the provider leaves in a block is cut or zero-padded to the
  size of the block (`fit`).
* The observable behaviour is the `log`: the provider calls and the datagrams handed
  to `sendto`, in program order.
-/

namespace Tftp

/-! ## Constants of `tftp.c` and `tftp.h` -/

/-- Read request opcode. -/
def RRQ : Nat := 1
/-- Write request opcode. -/
def WRQ : Nat := 2
/-- Data packet opcode. -/
def DATA : Nat := 3
/-- Acknowledgement opcode. -/
def ACK : Nat := 4
/-- Error packet opcode. -/
def ERROR : Nat := 5

/-- Data segment size (`tftp.h`). -/
def SEGSIZE : Nat := 512
/-- The well-known port (`tftp.h`). -/
def PORT_TFTP : Nat := 69
/-- Size of opcode plus block number. -/
def TFTP_HEADER : Nat := 4
/-- Size of the packet buffer. -/
def DATA_SIZE : Nat := SEGSIZE + TFTP_HEADER
/-- Max retries. -/
def MAX_SYNC_TRIES : Int := 4
/-- Packet timeout in seconds. -/
def TFTP_SOCK_TIMEOUT : Nat := 10

/-- Modelled from the spec: the return code for protocol failures is declared in a
network-stack header that is not part of the sources; the code only relies on it
being negative (every caller tests `rc < 0`), the spec calls the outcome fatal. -/
def TFTPERROR_FAILED : Int := -5
/-- Modelled from the spec: the return code for transport faults, declared in the same
absent header; negative, fatal. -/
def TFTPERROR_SOCKET : Int := -4
/-- Modelled from the spec: the provider's success code (`tTFTPError` is declared
outside the sources); every other value is a "non-success code". -/
def TFTP_ERR_NONE : Int := 0

/-- Transfer modes, `tTFTPMode`. -/
inductive tTFTPMode where
  | TFTP_MODE_NETASCII
  | TFTP_MODE_OCTET
  | TFTP_MODE_INVALID
deriving DecidableEq, Repr

/-! ## Data model -/

/-- A pointer returned by `mmAlloc`, with the contents of its block. -/
inductive Ptr where
  | null
  | live (bytes : List Nat)
  | dangling
deriving DecidableEq, Repr

/-- The part of `struct sockaddr_in` the code looks at (port in host order). -/
structure sockaddr_in where
  sin_addr : Nat
  sin_port : Nat
deriving DecidableEq, Repr

/-- The TFTP instance structure `TFTP`. The fields `BufferUsed`, `FileSize` and
`ErrorCode` are never read or written by the code and are left out. -/
structure TFTP where
  /-- Filename, a block of `len` bytes. -/
  szFileName : Ptr
  /-- Content buffer, a block of `SEGSIZE` bytes. -/
  Buffer : Ptr
  /-- Valid bytes in `Buffer` as reported by the provider (UINT32). -/
  BufferSize : Nat
  /-- Socket handle; `none` is `INVALID_SOCKET`. -/
  Sock : Option Nat
  /-- Packet buffer of `DATA_SIZE` bytes. -/
  PacketBuffer : List Nat
  /-- Length of the packet sent or received (UINT32). -/
  Length : Nat
  /-- Next expected block (UINT16). -/
  NextBlock : Nat
  /-- Max SYNC errors remaining (int). -/
  MaxSyncError : Int
  /-- Address for receiving. -/
  localaddr : sockaddr_in
  /-- Address for sending. -/
  peeraddr : sockaddr_in
deriving DecidableEq, Repr

/-- What the session does that can be seen from outside. -/
inductive Event where
  /-- A call `g_pfnRequest(fileName, buffer, &size, block)`; `fileName` is the
  content of the name block handed over. -/
  | request (fileName : List Nat) (block : Nat)
  /-- A call of `sendto` with the packet bytes and the destination. -/
  | sendto (packet : List Nat) (dest : sockaddr_in)
deriving DecidableEq, Repr

/-- Session state together with the trace of observable events. -/
structure World where
  tftp : TFTP
  log : List Event
deriving DecidableEq, Repr

/-- What the provider callback leaves behind: its return value, the content of
the buffer and the length stored through `bufferSize`. -/
structure ProviderResult where
  error : Int
  buffer : List Nat
  bufferSize : Nat

/-- Answers of the environment during one call of `tftpProcessPacket`. -/
structure Env where
  /-- Whether `mmAlloc(len)` for the file name succeeds. -/
  mmAllocName : Bool
  /-- Result of `mmAlloc(SEGSIZE)`: `none` for NULL, else the initial content. -/
  mmAllocBuffer : Option (List Nat)
  /-- The registered callback, as a function of the name block, the buffer content,
  the incoming `*bufferSize` and the block number. -/
  g_pfnRequest : List Nat → List Nat → Nat → Nat → ProviderResult
  /-- Result of `socket(...)`; `none` is `INVALID_SOCKET`. -/
  socket : Option Nat
  /-- Return value of `bind`. -/
  bind : Int
  /-- Return value of `setsockopt(SO_SNDTIMEO)`. -/
  setsockoptSnd : Int
  /-- Return value of `setsockopt(SO_RCVTIMEO)`. -/
  setsockoptRcv : Int
  /-- Return value of `sendto` for the given packet. -/
  sendto : List Nat → Int
  /-- Datagrams queued on the socket when `tftpFlushPackets` drains it. -/
  queued : List (List Nat)

/-! ## Byte-level helpers -/

/-- The two bytes in memory of `htons(v)` for a 16-bit `v`. -/
def be16 (v : Nat) : List Nat := [(v / 256) % 256, v % 256]

/-- The value `ntohs` yields for the 16-bit field at offset `off`. -/
def rd16 (buf : List Nat) (off : Nat) : Nat := buf.getD off 0 * 256 + buf.getD (off + 1) 0

/-- Store `data` into `buf` from offset `off` on. -/
def writeAt (buf : List Nat) (off : Nat) (data : List Nat) : List Nat :=
  buf.take off ++ data ++ buf.drop (off + data.length)

/-- Conversion of an `int` to the 16-bit argument of `htons`. -/
def toU16 (e : Int) : Nat := (e % 65536).toNat

/-- The content of a block of exactly `n` bytes after `bytes` was stored in it
(cut to the block size; a shorter list leaves zeroes). -/
def fit (n : Nat) (bytes : List Nat) : List Nat := (bytes ++ List.replicate n 0).take n

/-- Read `n` bytes through a pointer; `none` when the block is not live (and a
byte is really read) or is too short. -/
def readBytes : Ptr → Nat → Option (List Nat)
  | _, 0 => some []
  | Ptr.live bs, n + 1 => if n + 1 ≤ bs.length then some (bs.take (n + 1)) else none
  | _, _ + 1 => none

/-- The call `if (p) mmFree(p)` of the cleanup path: NULL is skipped, a live block is
released and the pointer keeps its value; releasing a block twice is undefined. -/
def release : Ptr → Option Ptr
  | Ptr.null => some Ptr.null
  | Ptr.live _ => some Ptr.dangling
  | Ptr.dangling => none

/-- The C library `strlen` on the bytes starting at a pointer. -/
def strlen (s : List Nat) : Nat := (s.takeWhile (fun c => c ≠ 0)).length

/-- Whether `strncmp(s1, s2, n) == 0`, where `s1` is a string literal given without its
terminator (reading past its end yields the terminator) and `s2` is memory. -/
def strncmpEq : List Nat → List Nat → Nat → Bool
  | _, _, 0 => true
  | s1, s2, n + 1 =>
    if s1.headD 0 ≠ s2.headD 0 then false
    else if s1.headD 0 = 0 then true
    else strncmpEq s1.tail s2.tail n

/-- The bytes of "netascii". -/
def netascii : List Nat := [110, 101, 116, 97, 115, 99, 105, 105]
/-- The bytes of "octet". -/
def octet : List Nat := [111, 99, 116, 101, 116]

/-! ## The functions of `tftp.c` -/

/-- The `for` loop of `tftpGetMode`: `remaining` is `ui32Len - ui32Loop`; the result
is `ui32Loop` when the loop is left. -/
def scanLoop (pui8Request : List Nat) : Nat → Nat → Nat
  | 0, ui32Loop => ui32Loop
  | remaining + 1, ui32Loop =>
    if pui8Request.getD ui32Loop 0 = 0 then ui32Loop
    else scanLoop pui8Request remaining (ui32Loop + 1)

/-- Parses the request to determine the transfer mode. `Except.error rc` is the
return with `rc < 0` (the mode is then not written). -/
def tftpGetMode (pui8Request : List Nat) (ui32Len : Nat) : Except Int tTFTPMode :=
  let ui32Loop := scanLoop pui8Request (ui32Len - 2) 2 + 1
  if ui32Loop ≥ ui32Len then Except.error TFTPERROR_FAILED
  else
    let ui32Max := ui32Len - ui32Loop
    if strncmpEq netascii (pui8Request.drop ui32Loop) ui32Max then
      Except.ok tTFTPMode.TFTP_MODE_NETASCII
    else if strncmpEq octet (pui8Request.drop ui32Loop) ui32Max then
      Except.ok tTFTPMode.TFTP_MODE_OCTET
    else Except.ok tTFTPMode.TFTP_MODE_INVALID

/-- Build TFTP error packet. -/
def tftpErrorBuild (pTftp : TFTP) (eError : Int) : TFTP :=
  { pTftp with
    PacketBuffer := writeAt pTftp.PacketBuffer 0 (be16 ERROR ++ be16 (toU16 eError) ++ [0])
    Length := 5 }

/-- Build TFTP data packet. -/
def tftpDataBuild (pTftp : TFTP) : Option TFTP :=
  if pTftp.BufferSize > SEGSIZE then some pTftp
  else
    match readBytes pTftp.Buffer pTftp.BufferSize with
    | none => none
    | some data =>
      some { pTftp with
             PacketBuffer := writeAt pTftp.PacketBuffer 0 (be16 DATA ++ be16 pTftp.NextBlock ++ data)
             Length := TFTP_HEADER + pTftp.BufferSize }

/-- The bytes `tftpSend` hands to `sendto`: the first `Length` bytes of the packet buffer. -/
def packet (pTftp : TFTP) : List Nat := pTftp.PacketBuffer.take pTftp.Length

/-- Send a TFTP packet. -/
def tftpSend (env : Env) (w : World) : Int × World :=
  let BytesSent := env.sendto (packet w.tftp)
  (if BytesSent ≠ (w.tftp.Length : Int) then TFTPERROR_SOCKET else 0,
   { w with log := w.log ++ [Event.sendto (packet w.tftp) w.tftp.peeraddr] })

/-- The `do ... while (bytesread > 0)` loop of `tftpFlushPackets`: every queued datagram
is read over the packet buffer; an empty queue or an empty datagram ends the loop. -/
def recvLoop (PacketBuffer : List Nat) : List (List Nat) → List Nat
  | [] => PacketBuffer
  | d :: ds =>
    if 0 < (d.take DATA_SIZE).length then recvLoop (writeAt PacketBuffer 0 (d.take DATA_SIZE)) ds
    else PacketBuffer

/-- Flush all input from socket. -/
def tftpFlushPackets (env : Env) (pTftp : TFTP) : TFTP :=
  { pTftp with PacketBuffer := recvLoop pTftp.PacketBuffer env.queued }

/-- Synchronizes a lost packet. The decrement of the `int` counter is modelled on
the integers (no wrap-around). -/
def tftpReSync (env : Env) (w : World) : Option (Int × World) :=
  let t0 := tftpFlushPackets env w.tftp
  let t1 := { t0 with MaxSyncError := t0.MaxSyncError - 1 }
  if t1.MaxSyncError = 0 then some (TFTPERROR_FAILED, { w with tftp := t1 })
  else
    let t2 := { t1 with NextBlock := (t1.NextBlock + 65535) % 65536 }
    match tftpDataBuild t2 with
    | none => none
    | some t3 =>
      let r := tftpSend env { w with tftp := t3 }
      if r.1 < 0 then some r
      else some (r.1, { r.2 with tftp := { r.2.tftp with NextBlock := (r.2.tftp.NextBlock + 1) % 65536 } })

/-- Change the server listening port. -/
def tftpChangeListenPort (env : Env) (pTftp : TFTP) : Int × TFTP :=
  let t1 := { pTftp with Sock := env.socket }
  if t1.Sock = none then (TFTPERROR_SOCKET, t1)
  else
    let t2 := { t1 with localaddr := { t1.localaddr with sin_port := t1.peeraddr.sin_port } }
    if env.bind < 0 then (TFTPERROR_SOCKET, t2)
    else if env.setsockoptSnd < 0 then (TFTPERROR_SOCKET, t2)
    else if env.setsockoptRcv < 0 then (TFTPERROR_SOCKET, t2)
    else (0, t2)

/-- Restart the server listening port (`bindResult` is the return value of `bind`). -/
def tftpSocketRestart (bindResult : Int) (pTftp : TFTP) : Int × TFTP :=
  let t1 := { pTftp with localaddr := { pTftp.localaddr with sin_port := PORT_TFTP } }
  (if bindResult < 0 then TFTPERROR_SOCKET else 0, t1)

/-- The cleanup at label `ABORT` of `tftpProcessPacket`, followed by `return (rc)`. -/
def abortCleanup (rc : Int) (w : World) : Option (Int × World) :=
  match release w.tftp.szFileName, release w.tftp.Buffer with
  | some n, some b => some (rc, { w with tftp := { w.tftp with szFileName := n, Buffer := b } })
  | _, _ => none

/-- The `case RRQ:` branch of `tftpProcessPacket`. -/
def caseRRQ (env : Env) (w : World) : Option (Int × World) :=
  match tftpGetMode w.tftp.PacketBuffer w.tftp.Length with
  | Except.error rc => abortCleanup rc w
  | Except.ok mode =>
    if mode ≠ tTFTPMode.TFTP_MODE_OCTET then abortCleanup TFTPERROR_FAILED w
    else
      let len := (strlen (w.tftp.PacketBuffer.drop 2) + 1) % 256
      if env.mmAllocName = false then
        abortCleanup TFTPERROR_FAILED { w with tftp := { w.tftp with szFileName := Ptr.null } }
      else
        let name := (w.tftp.PacketBuffer.drop 2).take len
        let t1 := { w.tftp with szFileName := Ptr.live name, NextBlock := 1 }
        match env.mmAllocBuffer with
        | none => abortCleanup TFTPERROR_FAILED { w with tftp := { t1 with Buffer := Ptr.null } }
        | some fresh =>
          let r := env.g_pfnRequest name (fit SEGSIZE fresh) t1.BufferSize t1.NextBlock
          let t2 := { t1 with Buffer := Ptr.live (fit SEGSIZE r.buffer), BufferSize := r.bufferSize }
          let w2 : World := { tftp := t2, log := w.log ++ [Event.request name t1.NextBlock] }
          if r.error ≠ TFTP_ERR_NONE then
            abortCleanup TFTPERROR_FAILED
              (tftpSend env { w2 with tftp := tftpErrorBuild t2 r.error }).2
          else
            let c := tftpChangeListenPort env t2
            if c.1 < 0 then abortCleanup c.1 { w2 with tftp := c.2 }
            else if c.2.BufferSize > SEGSIZE then
              abortCleanup TFTPERROR_FAILED { w2 with tftp := c.2 }
            else
              match tftpDataBuild c.2 with
              | none => none
              | some t4 =>
                let s := tftpSend env { w2 with tftp := t4 }
                if s.1 < 0 then abortCleanup s.1 s.2
                else some (s.1, { s.2 with tftp := { s.2.tftp with NextBlock := (s.2.tftp.NextBlock + 1) % 65536 } })

/-- The `case ACK:` branch of `tftpProcessPacket`. The comparison
`(pTftp->NextBlock - 1) != ServerBlock` is done in `int`. -/
def caseACK (env : Env) (w : World) : Option (Int × World) :=
  let ServerBlock := rd16 w.tftp.PacketBuffer 2
  if (w.tftp.NextBlock : Int) - 1 ≠ (ServerBlock : Int) then
    match tftpReSync env w with
    | none => none
    | some r =>
      let w1 := { r.2 with tftp := { r.2.tftp with Length := 0 } }
      if r.1 < 0 then abortCleanup r.1 w1 else some (r.1, w1)
  else
    let t1 := { w.tftp with MaxSyncError := MAX_SYNC_TRIES }
    if t1.BufferSize < SEGSIZE then abortCleanup 1 { w with tftp := t1 }
    else
      match t1.szFileName, t1.Buffer with
      | Ptr.live name, Ptr.live buf =>
        let r := env.g_pfnRequest name buf t1.BufferSize t1.NextBlock
        let t2 := { t1 with Buffer := Ptr.live (fit SEGSIZE r.buffer), BufferSize := r.bufferSize }
        let w2 : World := { tftp := t2, log := w.log ++ [Event.request name t1.NextBlock] }
        if r.error ≠ TFTP_ERR_NONE then
          abortCleanup TFTPERROR_FAILED
            (tftpSend env { w2 with tftp := tftpErrorBuild t2 r.error }).2
        else if t2.BufferSize > SEGSIZE then abortCleanup TFTPERROR_FAILED w2
        else
          match tftpDataBuild t2 with
          | none => none
          | some t4 =>
            let s := tftpSend env { w2 with tftp := t4 }
            if s.1 < 0 then abortCleanup s.1 s.2
            else some (s.1, { s.2 with tftp := { s.2.tftp with NextBlock := (s.2.tftp.NextBlock + 1) % 65536 } })
      | _, _ => none

/-- Process the packet read by `tftpReadPacket`: returns 1 when the operation is
completed, 0 while it is in process, a negative code on error. -/
def tftpProcessPacket (env : Env) (w : World) : Option (Int × World) :=
  if w.tftp.Length = 0 then abortCleanup TFTPERROR_FAILED w
  else
    let OpCode := rd16 w.tftp.PacketBuffer 0
    if OpCode = RRQ then caseRRQ env w
    else if OpCode = ACK then caseACK env w
    else abortCleanup 0 w

/-! ## Reading a datagram and the main loop of `dtask_tftp` -/

/-- What `recvfrom` does on one call. -/
inductive RecvResult where
  /-- A datagram arrived: its bytes and the sender's address. -/
  | datagram (bytes : List Nat) (src : sockaddr_in)
  /-- A negative return with `fdError() == EWOULDBLOCK`. -/
  | wouldBlock
  /-- A negative return with any other error. -/
  | failure

/-- One pass through the code after label `RETRY`: the timer value read there and what
`recvfrom` then does. -/
structure Attempt where
  now : Nat
  recv : RecvResult

/-- Everything one call of `tftpReadPacket` gets from outside. -/
structure ReadEvent where
  TimeStart : Nat
  attempts : List Attempt

/-- Read packet from the client. Each `goto RETRY` consumes one more attempt;
`none` means the list of attempts given was too short for the call to return. -/
def tftpReadPacket (TimeStart : Nat) : List Attempt → TFTP → Option (Int × TFTP)
  | [], _ => none
  | a :: rest, pTftp =>
    if (TimeStart + TFTP_SOCK_TIMEOUT) % 4294967296 ≤ a.now then
      some (0, { pTftp with Length := 0 })
    else
      match a.recv with
      | RecvResult.failure => some (TFTPERROR_SOCKET, { pTftp with Length := 4294967295 })
      | RecvResult.wouldBlock => some (0, { pTftp with Length := 0 })
      | RecvResult.datagram bytes src =>
        let t1 := { pTftp with
                    PacketBuffer := writeAt pTftp.PacketBuffer 0 (bytes.take DATA_SIZE)
                    peeraddr := src }
        if t1.localaddr.sin_port ≠ PORT_TFTP ∧ t1.peeraddr.sin_port ≠ t1.peeraddr.sin_port then
          tftpReadPacket TimeStart rest t1
        else some (0, { t1 with Length := (bytes.take DATA_SIZE).length })

/-- The input of one iteration of the main loop. -/
structure Step where
  read : ReadEvent
  env : Env

/-- How the `for (;;)` loop of `dtask_tftp` stands after a list of iterations. -/
inductive Outcome where
  /-- The loop is still running (it waits for the next datagram). -/
  | running (w : World)
  /-- The loop was left through `goto ABORT`: the session failed. -/
  | aborted (w : World)
  /-- The loop was left through `break` (`rc == 1`): the transfer is complete. -/
  | completed (w : World)
  /-- Undefined behaviour, or a read that did not return. -/
  | undefined
deriving DecidableEq

/-- The main loop of `dtask_tftp`, run on the given iterations. -/
def mainLoop : World → List Step → Outcome
  | w, [] => Outcome.running w
  | w, s :: rest =>
    match tftpReadPacket s.read.TimeStart s.read.attempts w.tftp with
    | none => Outcome.undefined
    | some r =>
      if r.1 < 0 then Outcome.aborted { w with tftp := r.2 }
      else
        match tftpProcessPacket s.env { w with tftp := r.2 } with
        | none => Outcome.undefined
        | some p =>
          if p.1 < 0 then Outcome.aborted p.2
          else if p.1 = 1 then Outcome.completed p.2
          else mainLoop p.2 rest

/-- The instance as `dtask_tftp` sets it up before the main loop: cleared by `bzero`,
with the packet buffer, the well-known local port and the socket `s`. -/
def initTftp (s : Option Nat) (packetBuffer : List Nat) : TFTP :=
  { szFileName := Ptr.null
    Buffer := Ptr.null
    BufferSize := 0
    Sock := s
    PacketBuffer := fit DATA_SIZE packetBuffer
    Length := 0
    NextBlock := 0
    MaxSyncError := 0
    localaddr := { sin_addr := 0, sin_port := PORT_TFTP }
    peeraddr := { sin_addr := 0, sin_port := 0 } }

/-- The world in which the main loop starts. -/
def initWorld (s : Option Nat) (packetBuffer : List Nat) : World :=
  { tftp := initTftp s packetBuffer, log := [] }

/-! ## Sample inputs used to exercise the definitions -/

/-- A peer address. -/
def peerA : sockaddr_in := { sin_addr := 3232235777, sin_port := 50000 }

/-- The datagram `bytes` arriving from `peerA` on the first attempt. -/
def recvFrom (bytes : List Nat) : ReadEvent :=
  { TimeStart := 0, attempts := [{ now := 0, recv := RecvResult.datagram bytes peerA }] }

/-! ## Wire formats of the specification and session predicates -/

/-- The Data packet of the wire format: opcode 3, block number, payload. -/
def dataPacket (block : Nat) (payload : List Nat) : List Nat := [0, 3] ++ be16 block ++ payload

/-- The Error packet of the wire format with an empty message: opcode 5, error code,
terminator. -/
def errorPacket (code : Nat) : List Nat := [0, 5] ++ be16 code ++ [0]

/-- The Acknowledgment packet of the wire format: opcode 4, block number. -/
def ackPacket (block : Nat) : List Nat := [0, 4] ++ be16 block

/-- The Request packet of the wire format: opcode 1, the name and the mode, each
followed by its terminator. -/
def rrqPacket (name mode : List Nat) : List Nat := [0, 1] ++ (name ++ 0 :: (mode ++ [0]))

/-- The states between an accepted Request and the end of the session: the name block
and the content block are live, the content block has `SEGSIZE` bytes of which
`BufferSize` are valid, and the block counter is a 16-bit value. -/
structure Transferring (t : TFTP) (name buf : List Nat) : Prop where
  hname : t.szFileName = Ptr.live name
  hbuf : t.Buffer = Ptr.live buf
  hlen : buf.length = SEGSIZE
  hsize : t.BufferSize ≤ SEGSIZE
  hblock : t.NextBlock < 65536

/-- The number of the block most recently sent: every Data packet is built with the
block counter, which is incremented (16-bit) right after the packet is sent. -/
def lastSent (t : TFTP) : Nat := (t.NextBlock + 65535) % 65536

/-- The answers of the socket layer with which `tftpChangeListenPort` succeeds. -/
def portOk (env : Env) : Prop :=
  env.socket ≠ none ∧ 0 ≤ env.bind ∧ 0 ≤ env.setsockoptSnd ∧ 0 ≤ env.setsockoptRcv

/-- The name block the request path stores: `len` bytes copied from offset 2 of the packet
buffer, `len` being the 8-bit value of `strlen + 1`. -/
def storedName (PacketBuffer : List Nat) : List Nat :=
  (PacketBuffer.drop 2).take ((strlen (PacketBuffer.drop 2) + 1) % 256)

/-- Block `k` (counted from 1) of a resource: bytes `512 (k - 1)` up to `min (512 k) L`. -/
def chunk (content : List Nat) (k : Nat) : List Nat :=
  (content.drop (SEGSIZE * (k - 1))).take SEGSIZE

/-- A provider that serves `content` in `SEGSIZE`-byte chunks without error: it stores
the chunk at the start of the buffer and reports its length. -/
def chunkProvider (content : List Nat) : List Nat → List Nat → Nat → Nat → ProviderResult :=
  fun _ buffer _ block =>
    { error := TFTP_ERR_NONE
      buffer := chunk content block ++ buffer.drop (chunk content block).length
      bufferSize := (chunk content block).length }

/-- An environment in which nothing fails: allocations and socket calls succeed, `sendto`
reports the whole packet sent, nothing is queued, and the provider serves `content`. -/
def servingEnv (content : List Nat) : Env :=
  { mmAllocName := true
    mmAllocBuffer := some []
    g_pfnRequest := chunkProvider content
    socket := some 7
    bind := 0
    setsockoptSnd := 0
    setsockoptRcv := 0
    sendto := fun p => (p.length : Int)
    queued := [] }

/-- The environment `servingEnv`, except that the provider answers every call with the
error code `code`. -/
def failingEnv (code : Int) : Env :=
  { servingEnv [] with
    g_pfnRequest := fun _ buffer size _ => { error := code, buffer := buffer, bufferSize := size } }

/-- One iteration of the main loop: the datagram `bytes` from `peerA`, in an environment
serving `content`. -/
def stepOf (content bytes : List Nat) : Step :=
  { read := recvFrom bytes, env := servingEnv content }

/-- Session state with the given bytes received into the packet buffer of a fresh
instance (nothing accepted yet). -/
def freshWith (bytes : List Nat) : World :=
  { tftp := { initTftp (some 1) [] with
      PacketBuffer := writeAt (initTftp (some 1) []).PacketBuffer 0 bytes
      Length := bytes.length
      peeraddr := peerA }
    log := [] }

/-- A session in transfer: the file "a" is being served, block 1 (512 bytes of value 9)
was sent and acknowledged, block 2 (three bytes) was sent, the budget is full, and `bytes`
have just been received. -/
def transferWith (bytes : List Nat) : World :=
  { tftp :=
      { szFileName := Ptr.live [97, 0]
        Buffer := Ptr.live (fit SEGSIZE [1, 2, 3])
        BufferSize := 3
        Sock := some 7
        PacketBuffer := writeAt (fit DATA_SIZE (dataPacket 2 [1, 2, 3])) 0 bytes
        Length := bytes.length
        NextBlock := 3
        MaxSyncError := 4
        localaddr := { sin_addr := 0, sin_port := 50000 }
        peeraddr := peerA }
    log := [Event.request [97, 0] 1, Event.sendto (dataPacket 1 (List.replicate 512 9)) peerA,
      Event.request [97, 0] 2, Event.sendto (dataPacket 2 [1, 2, 3]) peerA] }

/-! ## Sessions: clients, environments and what is read off the log -/

/-- The world an outcome carries, if any. -/
def Outcome.world? : Outcome → Option World
  | Outcome.running w => some w
  | Outcome.aborted w => some w
  | Outcome.completed w => some w
  | Outcome.undefined => none

/-- The packets handed to `sendto`, in order. -/
def sentPackets : List Event → List (List Nat)
  | [] => []
  | Event.sendto p _ :: rest => p :: sentPackets rest
  | Event.request _ _ :: rest => sentPackets rest

/-- The block numbers the provider was called with, in order. -/
def calledBlocks : List Event → List Nat
  | [] => []
  | Event.request _ b :: rest => b :: calledBlocks rest
  | Event.sendto _ _ :: rest => calledBlocks rest

/-- The packet most recently handed to `sendto`. -/
def lastPacket (log : List Event) : Option (List Nat) := (sentPackets log).getLast?

/-- Checks the order of a log, `k` being the number of provider calls made before it:
every provider call carries the block number `k + 1` of the next block, and every Data
packet sent carries the number `k` of the last block asked from the provider. The result is
the number of provider calls at the end of the log, `none` if the order is violated. -/
def blockSeq : Nat → List Event → Option Nat
  | k, [] => some k
  | k, Event.request _ b :: rest => if b = k + 1 then blockSeq (k + 1) rest else none
  | k, Event.sendto p _ :: rest =>
    if rd16 p 0 ≠ DATA ∨ rd16 p 2 = k then blockSeq k rest else none

/-- An iteration of the main loop in which the datagram received (first attempt) is an
Acknowledgment: its opcode bytes are `00 04`. -/
def isAckStep (s : Step) : Prop :=
  ∃ a more bytes src, s.read.attempts = a :: more ∧
    a.recv = RecvResult.datagram (0 :: 4 :: bytes) src

/-- An iteration of the main loop in which the datagram received (first attempt) is a
Request: its opcode bytes are `00 01`. -/
def isRequestStep (s : Step) : Prop :=
  ∃ a more bytes src, s.read.attempts = a :: more ∧
    a.recv = RecvResult.datagram (0 :: 1 :: bytes) src

/-- An environment in which the provider serves `content` in chunks and nothing else
fails: the allocations and the socket calls succeed and `sendto` sends every packet whole. -/
structure Serves (env : Env) (content : List Nat) : Prop where
  provider : env.g_pfnRequest = chunkProvider content
  allocName : env.mmAllocName = true
  allocBuffer : env.mmAllocBuffer ≠ none
  port : portOk env
  send : ∀ p, env.sendto p = (p.length : Int)

/-- The log of a transfer of `content` up to block `i`: for each block the provider call and
the Data packet carrying its chunk. -/
def transferLog (name : List Nat) (peer : sockaddr_in) (content : List Nat) : Nat → List Event
  | 0 => []
  | i + 1 => transferLog name peer content i ++
      [Event.request name (i + 1), Event.sendto (dataPacket (i + 1) (chunk content (i + 1))) peer]

/-- A client that acknowledges every Data packet with that packet's block number: it looks
at the packet most recently sent, and the next datagram the session reads is the
Acknowledgment of the block number found there. `fuel` bounds the number of
acknowledgments. -/
def ackingClient (env : Env) : Nat → World → Outcome
  | 0, w => Outcome.running w
  | fuel + 1, w =>
    match lastPacket w.log with
    | none => Outcome.running w
    | some p =>
      match mainLoop w [{ read := recvFrom (ackPacket (rd16 p 2)), env := env }] with
      | Outcome.running w' => ackingClient env fuel w'
      | o => o

/-- The session has sent blocks 1 to `i` of `content` and waits for the acknowledgment
of block `i`. -/
structure Sent (name content : List Nat) (i : Nat) (w : World) : Prop where
  hname : w.tftp.szFileName = Ptr.live name
  hbuf : ∃ buf, w.tftp.Buffer = Ptr.live buf ∧ buf.length = SEGSIZE ∧
    buf.take w.tftp.BufferSize = chunk content i
  hsize : w.tftp.BufferSize = (chunk content i).length
  hblock : w.tftp.NextBlock = (i + 1) % 65536
  hpeer : w.tftp.peeraddr = peerA
  hlog : w.log = transferLog name peerA content i

/-- A resource of `65534 * 512 + 3` bytes: its last block is block 65535, with 3 bytes. -/
def bigContent : List Nat := List.replicate 33553411 7

/-- A session in transfer whose log is in order, the number of provider calls made being
the number of the block most recently sent. -/
def InOrder (w : World) : Prop :=
  ∃ name buf, Transferring w.tftp name buf ∧ blockSeq 0 w.log = some (lastSent w.tftp)

/-! ## The session entry point `dtask_tftp` -/

/-- Answers of the environment to the set-up and tear-down code of `dtask_tftp`. -/
structure Boot where
  /-- Whether a callback is registered (`g_pfnRequest != NULL`). -/
  registered : Bool
  /-- Whether `mmAlloc(sizeof(TFTP))` succeeds. -/
  mmAllocTftp : Bool
  /-- Result of `mmAlloc(DATA_SIZE)`: `none` for NULL, else the initial content. -/
  mmAllocPacket : Option (List Nat)
  /-- Return value of `setsockopt(SO_SNDTIMEO)` before the loop. -/
  setsockoptSnd : Int
  /-- Return value of `setsockopt(SO_RCVTIMEO)` before the loop. -/
  setsockoptRcv : Int
  /-- Return value of `bind` in `tftpSocketRestart`. -/
  restartBind : Int

/-- What `dtask_tftp` leaves behind when it returns. -/
structure Exit where
  /-- The return value: 1 keeps the socket with the caller, 0 is the stop signal. -/
  rc : Int
  /-- The instance at the moment `mmFree(pTftp)` releases it. -/
  released : TFTP
  /-- The events up to the return. -/
  log : List Event
  /-- Whether `fdClose(pTftp->Sock)` was called at label `ABORT`. -/
  closed : Bool
deriving DecidableEq

/-- How a call of `dtask_tftp` stands after the iterations given. -/
inductive Session where
  /-- The call returned. -/
  | returned (e : Exit)
  /-- The call is inside its loop, waiting for the next datagram. -/
  | waiting (w : World)
  /-- Undefined behaviour: label `ABORT` reads `pTftp->Sock` when no callback is registered
  (`pTftp` is not initialised) or when the instance could not be allocated (`pTftp` is
  NULL); or the loop itself is undefined. -/
  | undefined
deriving DecidableEq

/-- The instance right after `bzero(pTftp, sizeof(TFTP))`; the socket field holds the
handle value 0, which is not `INVALID_SOCKET`, and the packet buffer pointer is NULL. -/
def zeroTftp : TFTP :=
  { szFileName := Ptr.null
    Buffer := Ptr.null
    BufferSize := 0
    Sock := some 0
    PacketBuffer := []
    Length := 0
    NextBlock := 0
    MaxSyncError := 0
    localaddr := { sin_addr := 0, sin_port := 0 }
    peeraddr := { sin_addr := 0, sin_port := 0 } }

/-- The code from label `LEAVE` on: the packet buffer and the instance are released and
`rc` is returned. -/
def atLEAVE (rc : Int) (closed : Bool) (w : World) : Exit :=
  { rc := rc, released := w.tftp, log := w.log, closed := closed }

/-- The code from label `ABORT` on: `rc = 0`, the socket is closed if it is not
`INVALID_SOCKET`, then the code of `LEAVE`. -/
def atABORT (w : World) : Exit :=
  atLEAVE 0 (decide (w.tftp.Sock ≠ none)) w

/-- TFTP Server, main task management: set-up, the main loop on the iterations given,
and the way out. -/
def dtask_tftp (boot : Boot) (s : Option Nat) (steps : List Step) : Session :=
  if boot.registered = false then Session.undefined
  else if boot.mmAllocTftp = false then Session.undefined
  else
    match boot.mmAllocPacket with
    | none => Session.returned (atABORT { tftp := zeroTftp, log := [] })
    | some packetBuffer =>
      if boot.setsockoptSnd < 0 then Session.returned (atABORT (initWorld s packetBuffer))
      else if boot.setsockoptRcv < 0 then Session.returned (atABORT (initWorld s packetBuffer))
      else
        match mainLoop (initWorld s packetBuffer) steps with
        | Outcome.running w => Session.waiting w
        | Outcome.undefined => Session.undefined
        | Outcome.aborted w => Session.returned (atABORT w)
        | Outcome.completed w =>
          let r := tftpSocketRestart boot.restartBind w.tftp
          if r.1 < 0 then Session.returned (atABORT { w with tftp := r.2 })
          else Session.returned (atLEAVE 1 false { w with tftp := r.2 })

/-- A set-up in which nothing fails. -/
def bootOk : Boot :=
  { registered := true
    mmAllocTftp := true
    mmAllocPacket := some []
    setsockoptSnd := 0
    setsockoptRcv := 0
    restartBind := 0 }

/-- A read that delivers zero bytes because the receive timed out (`EWOULDBLOCK`). -/
def recvTimeout : ReadEvent :=
  { TimeStart := 0, attempts := [{ now := 0, recv := RecvResult.wouldBlock }] }

/-- A read that delivers zero bytes because the deadline of the read has elapsed. -/
def recvDeadline : ReadEvent :=
  { TimeStart := 0, attempts := [{ now := 10, recv := RecvResult.wouldBlock }] }

/-- An iteration of the main loop in which the read delivers zero bytes: on the first
attempt the deadline test fires, or `recvfrom` times out. -/
def isTimeoutStep (s : Step) : Prop :=
  ∃ a more, s.read.attempts = a :: more ∧
    ((s.read.TimeStart + TFTP_SOCK_TIMEOUT) % 4294967296 ≤ a.now ∨
      a.recv = RecvResult.wouldBlock)

/-- The block counter is a 16-bit value and, whenever the session holds a live name block
and a live content block, the content block has `SEGSIZE` bytes of which `BufferSize` are
valid, and the packet most recently handed to `sendto` is the Data packet for the block
most recently sent, built from that content block. -/
def InSync (w : World) : Prop :=
  w.tftp.NextBlock < 65536 ∧
  ∀ name buf, w.tftp.szFileName = Ptr.live name → w.tftp.Buffer = Ptr.live buf →
    buf.length = SEGSIZE ∧ w.tftp.BufferSize ≤ SEGSIZE ∧
    lastPacket w.log = some (dataPacket (lastSent w.tftp) (buf.take w.tftp.BufferSize))

/-- The packet buffer has its allocated size and no packet handed to `sendto` so far is
longer than it. -/
def Bounded (w : World) : Prop :=
  w.tftp.PacketBuffer.length = DATA_SIZE ∧ ∀ p ∈ sentPackets w.log, p.length ≤ DATA_SIZE

/-- A second host, sending from port 1234. -/
def peerB : sockaddr_in := { sin_addr := 167772161, sin_port := 1234 }

/-- An attempt at time 3 on which `recvfrom` delivers `bytes` sent by `peerB`. -/
def attemptFromB (bytes : List Nat) : Attempt :=
  { now := 3, recv := RecvResult.datagram bytes peerB }

/-- An iteration of the main loop in which the datagram received (first attempt, before
the deadline) is an Acknowledgment of a block `k` other than the one awaited by a session
whose block counter is `nextBlock`, in an environment whose `sendto` sends every packet
whole. -/
def isMismatchStep (nextBlock : Nat) (st : Step) : Prop :=
  ∃ a more k src, st.read.attempts = a :: more ∧
    ¬ (st.read.TimeStart + TFTP_SOCK_TIMEOUT) % 4294967296 ≤ a.now ∧
    a.recv = RecvResult.datagram (ackPacket k) src ∧ k < 65536 ∧
    (nextBlock : Int) - 1 ≠ (k : Int) ∧ ∀ p, st.env.sendto p = (p.length : Int)

/-- The environment `servingEnv`, except that the provider answers every call with
success and a block length of 600 bytes. -/
def oversizeEnv : Env :=
  { servingEnv [] with
    g_pfnRequest := fun _ buffer _ _ => { error := TFTP_ERR_NONE, buffer := buffer, bufferSize := 600 } }

/-! # Theorems -/

/-! ## Basic facts about the helpers -/

theorem readBytes_live (bs : List Nat) (n : Nat) (h : n ≤ bs.length) :
    readBytes (Ptr.live bs) n = some (bs.take n) := by
  cases n with
  | zero => simp [readBytes]
  | succ k => simp [readBytes, h]

theorem take_writeAt_zero (buf d : List Nat) : (writeAt buf 0 d).take d.length = d := by
  simp [writeAt]

theorem writeAt_zero_append (buf d : List Nat) : writeAt buf 0 d = d ++ buf.drop d.length := by
  simp [writeAt]

theorem fit_length (n : Nat) (l : List Nat) : (fit n l).length = n := by
  simp [fit]

theorem be16_of_lt (v : Nat) (h : v < 65536) : be16 v = [v / 256, v % 256] := by
  have : v / 256 < 256 := by omega
  simp [be16, Nat.mod_eq_of_lt this]

/-- C2: for a session whose content buffer starts with the `n = BufferSize <= 512` content
bytes and whose block counter is `b`, `tftpDataBuild` produces a packet of exactly `4 + n`
bytes: `0x00 0x03`, then `b` big-endian on two bytes, then the `n` content bytes unchanged and
in order; and it sets the packet length of the session to `4 + n`. -/
theorem tftpDataBuild_layout (t : TFTP) (content rest : List Nat)
    (hbuf : t.Buffer = Ptr.live (content ++ rest)) (hsz : t.BufferSize = content.length)
    (hn : content.length ≤ SEGSIZE) (hb : t.NextBlock < 65536) :
    ∃ t', tftpDataBuild t = some t' ∧
      packet t' = [0, 3, t.NextBlock / 256, t.NextBlock % 256] ++ content ∧
      (packet t').length = 4 + content.length ∧
      t'.Length = 4 + content.length := by
  have hread : readBytes t.Buffer t.BufferSize = some content := by
    rw [hbuf, hsz, readBytes_live _ _ (by simp)]; simp
  have hpk : (writeAt t.PacketBuffer 0 (be16 DATA ++ be16 t.NextBlock ++ content)).take
      (TFTP_HEADER + t.BufferSize) = [0, 3, t.NextBlock / 256, t.NextBlock % 256] ++ content := by
    have h1 : TFTP_HEADER + t.BufferSize = (be16 DATA ++ be16 t.NextBlock ++ content).length := by
      simp [be16, TFTP_HEADER, hsz]; omega
    rw [h1, take_writeAt_zero, be16_of_lt _ hb]
    simp [be16, DATA]
  have hres : tftpDataBuild t = some { t with
      PacketBuffer := writeAt t.PacketBuffer 0 (be16 DATA ++ be16 t.NextBlock ++ content)
      Length := TFTP_HEADER + t.BufferSize } := by
    simp only [tftpDataBuild, hread]
    rw [if_neg (by omega)]
  refine ⟨_, hres, ?_, ?_, ?_⟩
  · simpa [packet] using hpk
  · simp only [packet]; rw [hpk]; simp; omega
  · simp [TFTP_HEADER, hsz]

/-- The layout theorem at block 258 with the three content bytes 7, 8, 9. -/
theorem tftpDataBuild_layout_witness :
    ∃ t', tftpDataBuild { initTftp none [] with Buffer := Ptr.live ([7, 8, 9] ++ [1]), BufferSize := 3, NextBlock := 258 } = some t' ∧
      packet t' = [0, 3, 1, 2, 7, 8, 9] ∧ (packet t').length = 4 + 3 ∧ t'.Length = 4 + 3 :=
  tftpDataBuild_layout { initTftp none [] with Buffer := Ptr.live ([7, 8, 9] ++ [1]), BufferSize := 3, NextBlock := 258 }
    [7, 8, 9] [1] rfl rfl (by decide) (by decide)

/-! ## The request parser -/

theorem scanLoop_found (buf : List Nat) :
    ∀ (k remaining i : Nat), (∀ j, j < k → buf.getD (i + j) 0 ≠ 0) → buf.getD (i + k) 0 = 0 →
      k < remaining → scanLoop buf remaining i = i + k := by
  intro k
  induction k with
  | zero =>
    intro remaining i _ hz hk
    obtain ⟨r, rfl⟩ : ∃ r, remaining = r + 1 := ⟨remaining - 1, by omega⟩
    simp only [Nat.add_zero] at hz
    simp only [scanLoop, hz, if_true, Nat.add_zero]
  | succ k ih =>
    intro remaining i hnz hz hk
    obtain ⟨r, rfl⟩ : ∃ r, remaining = r + 1 := ⟨remaining - 1, by omega⟩
    have h0 : buf.getD i 0 ≠ 0 := by simpa using hnz 0 (by omega)
    have ih2 := ih r (i + 1) (fun j hj => by
      have := hnz (j + 1) (by omega)
      rwa [show i + 1 + j = i + (j + 1) by omega]) (by
      rwa [show i + 1 + k = i + (k + 1) by omega]) (by omega)
    simp only [scanLoop, if_neg h0, ih2]
    omega

theorem scanLoop_missing (buf : List Nat) :
    ∀ (remaining i : Nat), (∀ j, j < remaining → buf.getD (i + j) 0 ≠ 0) →
      scanLoop buf remaining i = i + remaining := by
  intro remaining
  induction remaining with
  | zero => intro i _; simp [scanLoop]
  | succ r ih =>
    intro i hnz
    have h0 : buf.getD i 0 ≠ 0 := by simpa using hnz 0 (by omega)
    have ih2 := ih (i + 1) (fun j hj => by
      have := hnz (j + 1) (by omega)
      rwa [show i + 1 + j = i + (j + 1) by omega])
    simp only [scanLoop, if_neg h0, ih2]
    omega

theorem strncmpEq_terminated (lit : List Nat) (hlit : ∀ c ∈ lit, c ≠ 0) :
    ∀ (mode rest : List Nat) (n : Nat), (∀ c ∈ mode, c ≠ 0) → mode.length < n →
      (strncmpEq lit (mode ++ 0 :: rest) n = true ↔ lit = mode) := by
  induction lit with
  | nil =>
    intro mode rest n hmode hn
    obtain ⟨k, rfl⟩ : ∃ k, n = k + 1 := ⟨n - 1, by omega⟩
    cases mode with
    | nil => simp [strncmpEq]
    | cons c m =>
      have hc : c ≠ 0 := hmode c (by simp)
      simp [strncmpEq, Ne.symm hc]
  | cons a l ih =>
    intro mode rest n hmode hn
    obtain ⟨k, rfl⟩ : ∃ k, n = k + 1 := ⟨n - 1, by omega⟩
    have ha : a ≠ 0 := hlit a (by simp)
    cases mode with
    | nil => simp [strncmpEq, ha]
    | cons c m =>
      have ih2 := ih (fun x hx => hlit x (by simp [hx])) m rest k
        (fun x hx => hmode x (by simp [hx])) (by simp at hn; omega)
      by_cases hac : a = c
      · subst hac
        simp [strncmpEq, ha, ih2]
      · simp [strncmpEq, hac]

theorem getD_field (pre field tail : List Nat) (j : Nat) (hj : j < field.length) :
    (pre ++ (field ++ tail)).getD (pre.length + j) 0 = field.getD j 0 := by
  rw [List.getD_append_right _ _ _ _ (by omega), Nat.add_sub_cancel_left,
    List.getD_append _ _ _ _ hj]

theorem getD_field_end (pre field tail : List Nat) (c : Nat) :
    (pre ++ (field ++ c :: tail)).getD (pre.length + field.length) 0 = c := by
  rw [List.getD_append_right _ _ _ _ (by omega), Nat.add_sub_cancel_left,
    List.getD_append_right _ _ _ _ (by omega)]
  simp

theorem getD_ne_zero_of_mem (field : List Nat) (h : ∀ c ∈ field, c ≠ 0) (j : Nat)
    (hj : j < field.length) : field.getD j 0 ≠ 0 := by
  rw [List.getD_eq_getElem _ _ hj]
  exact h _ (List.getElem_mem hj)

/-- What `tftpGetMode` answers on a Request whose name and mode fields are both
terminated inside the received bytes. -/
theorem tftpGetMode_terminated (name mode rest stale : List Nat)
    (hname : ∀ c ∈ name, c ≠ 0) (hmode : ∀ c ∈ mode, c ≠ 0) (o1 o2 : Nat) :
    tftpGetMode ([o1, o2] ++ (name ++ 0 :: (mode ++ 0 :: (rest ++ stale))))
        (2 + name.length + 1 + mode.length + 1 + rest.length) =
      if netascii = mode then Except.ok tTFTPMode.TFTP_MODE_NETASCII
      else if octet = mode then Except.ok tTFTPMode.TFTP_MODE_OCTET
      else Except.ok tTFTPMode.TFTP_MODE_INVALID := by
  have hscan : scanLoop ([o1, o2] ++ (name ++ 0 :: (mode ++ 0 :: (rest ++ stale))))
      (2 + name.length + 1 + mode.length + 1 + rest.length - 2) 2 = 2 + name.length := by
    apply scanLoop_found
    · intro j hj
      have := getD_field [o1, o2] name (0 :: (mode ++ 0 :: (rest ++ stale))) j hj
      simp only [List.length_cons, List.length_nil, Nat.zero_add, Nat.reduceAdd] at this
      rw [this]
      exact getD_ne_zero_of_mem name hname j hj
    · have := getD_field_end [o1, o2] name (mode ++ 0 :: (rest ++ stale)) 0
      simpa only [List.length_cons, List.length_nil, Nat.zero_add, Nat.reduceAdd] using this
    · omega
  have hdrop : ([o1, o2] ++ (name ++ 0 :: (mode ++ 0 :: (rest ++ stale)))).drop (2 + name.length + 1)
      = mode ++ 0 :: (rest ++ stale) := by
    have : [o1, o2] ++ (name ++ 0 :: (mode ++ 0 :: (rest ++ stale)))
      = ([o1, o2] ++ name ++ [0]) ++ (mode ++ 0 :: (rest ++ stale)) := by simp
    rw [this, List.drop_left']
    simp; omega
  have h1 := strncmpEq_terminated netascii (by decide) mode (rest ++ stale)
    (2 + name.length + 1 + mode.length + 1 + rest.length - (2 + name.length + 1)) hmode (by omega)
  have h2 := strncmpEq_terminated octet (by decide) mode (rest ++ stale)
    (2 + name.length + 1 + mode.length + 1 + rest.length - (2 + name.length + 1)) hmode (by omega)
  unfold tftpGetMode
  simp only [hscan]
  rw [if_neg (by omega), hdrop]
  by_cases hn : netascii = mode
  · rw [if_pos (h1.mpr hn), if_pos hn]
  · rw [if_neg (fun h => hn (h1.mp h)), if_neg hn]
    by_cases ho : octet = mode
    · rw [if_pos (h2.mpr ho), if_pos ho]
    · rw [if_neg (fun h => ho (h2.mp h)), if_neg ho]

/-- An unterminated name field: `tftpGetMode` returns the error code. -/
theorem tftpGetMode_name_unterminated (name stale : List Nat) (hname : ∀ c ∈ name, c ≠ 0)
    (o1 o2 : Nat) :
    tftpGetMode ([o1, o2] ++ (name ++ stale)) (2 + name.length) = Except.error TFTPERROR_FAILED := by
  have hscan : scanLoop ([o1, o2] ++ (name ++ stale)) (2 + name.length - 2) 2 = 2 + name.length := by
    rw [scanLoop_missing]
    · omega
    · intro j hj
      have := getD_field [o1, o2] name stale j (by omega)
      simp only [List.length_cons, List.length_nil, Nat.zero_add, Nat.reduceAdd] at this
      rw [this]
      exact getD_ne_zero_of_mem name hname j (by omega)
  unfold tftpGetMode
  simp only [hscan]
  rw [if_pos (by omega)]

/-! ## One call of `tftpProcessPacket` -/

theorem release_some (p : Ptr) (h : p ≠ Ptr.dangling) : ∃ q, release p = some q := by
  cases p with
  | null => exact ⟨_, rfl⟩
  | live b => exact ⟨_, rfl⟩
  | dangling => exact absurd rfl h

theorem abortCleanup_some (rc : Int) (w : World) (hn : w.tftp.szFileName ≠ Ptr.dangling)
    (hb : w.tftp.Buffer ≠ Ptr.dangling) :
    ∃ n b, abortCleanup rc w = some (rc, { w with tftp := { w.tftp with
      szFileName := n, Buffer := b } }) := by
  obtain ⟨n, hn'⟩ := release_some _ hn
  obtain ⟨b, hb'⟩ := release_some _ hb
  exact ⟨n, b, by simp [abortCleanup, hn', hb']⟩

theorem packet_dataBuild (t : TFTP) (data : List Nat) (hd : data.length = t.BufferSize) :
    packet { t with
      PacketBuffer := writeAt t.PacketBuffer 0 (be16 DATA ++ be16 t.NextBlock ++ data)
      Length := TFTP_HEADER + t.BufferSize } = dataPacket t.NextBlock data := by
  have h1 : TFTP_HEADER + t.BufferSize = (be16 DATA ++ be16 t.NextBlock ++ data).length := by
    simp [be16, TFTP_HEADER, hd]; omega
  simp only [packet]
  rw [h1, take_writeAt_zero]
  simp [dataPacket, be16, DATA]

theorem tftpDataBuild_live (t : TFTP) (buf : List Nat) (hbuf : t.Buffer = Ptr.live buf)
    (hsz : t.BufferSize ≤ SEGSIZE) (hlen : t.BufferSize ≤ buf.length) :
    tftpDataBuild t = some { t with
      PacketBuffer := writeAt t.PacketBuffer 0
        (be16 DATA ++ be16 t.NextBlock ++ buf.take t.BufferSize)
      Length := TFTP_HEADER + t.BufferSize } := by
  simp only [tftpDataBuild, hbuf, readBytes_live _ _ hlen]
  rw [if_neg (by omega)]

theorem packet_errorBuild (t : TFTP) (e : Int) :
    packet (tftpErrorBuild t e) = errorPacket (toU16 e) := by
  have h1 : (5 : Nat) = (be16 ERROR ++ be16 (toU16 e) ++ [0]).length := by simp [be16]
  simp only [packet, tftpErrorBuild]
  rw [h1, take_writeAt_zero]
  simp [errorPacket, be16, ERROR]

theorem dataPacket_length (b : Nat) (d : List Nat) : (dataPacket b d).length = 4 + d.length := by
  simp [dataPacket, be16]; omega

theorem tftpSend_ok (env : Env) (w : World) (p : List Nat) (hp : packet w.tftp = p)
    (hlen : w.tftp.Length = p.length) (hs : env.sendto p = (p.length : Int)) :
    tftpSend env w = (0, { w with log := w.log ++ [Event.sendto p w.tftp.peeraddr] }) := by
  simp only [tftpSend, hp, hlen, hs, ne_eq, not_true_eq_false, if_false]

theorem tftpSend_fail (env : Env) (w : World) (p : List Nat) (hp : packet w.tftp = p)
    (hlen : w.tftp.Length = p.length) (hs : env.sendto p ≠ (p.length : Int)) :
    tftpSend env w =
      (TFTPERROR_SOCKET, { w with log := w.log ++ [Event.sendto p w.tftp.peeraddr] }) := by
  simp only [tftpSend, hp, hlen, ne_eq, hs, not_false_eq_true, if_true]

/-- With budget left and a working transport `tftpReSync` resends the block most
recently sent and restores the block counter. -/
theorem tftpReSync_resend (env : Env) (w : World) (name buf : List Nat)
    (hT : Transferring w.tftp name buf) (hm : w.tftp.MaxSyncError ≠ 1)
    (hs : env.sendto (dataPacket (lastSent w.tftp) (buf.take w.tftp.BufferSize))
      = ((dataPacket (lastSent w.tftp) (buf.take w.tftp.BufferSize)).length : Int)) :
    tftpReSync env w =
        some (0,
          { tftp := { w.tftp with
              PacketBuffer := writeAt (recvLoop w.tftp.PacketBuffer env.queued) 0
                (be16 DATA ++ be16 (lastSent w.tftp) ++ buf.take w.tftp.BufferSize)
              Length := TFTP_HEADER + w.tftp.BufferSize
              MaxSyncError := w.tftp.MaxSyncError - 1 }
            log := w.log ++ [Event.sendto
              (dataPacket (lastSent w.tftp) (buf.take w.tftp.BufferSize)) w.tftp.peeraddr] }) := by
  obtain ⟨hname, hbuf, hlen, hsize, hblock⟩ := hT
  have hm' : ¬ (w.tftp.MaxSyncError - 1 = 0) := by omega
  have hbuild := tftpDataBuild_live
    { w.tftp with
      PacketBuffer := recvLoop w.tftp.PacketBuffer env.queued
      MaxSyncError := w.tftp.MaxSyncError - 1
      NextBlock := (w.tftp.NextBlock + 65535) % 65536 } buf hbuf hsize (by simp only; omega)
  have hpk := packet_dataBuild
    { w.tftp with
      PacketBuffer := recvLoop w.tftp.PacketBuffer env.queued
      MaxSyncError := w.tftp.MaxSyncError - 1
      NextBlock := (w.tftp.NextBlock + 65535) % 65536 } (buf.take w.tftp.BufferSize)
      (by simp only [List.length_take]; omega)
  have hrestore : ((w.tftp.NextBlock + 65535) % 65536 + 1) % 65536 = w.tftp.NextBlock := by omega
  have hsend := tftpSend_ok env { w with tftp := _ } _ hpk
    (by simp only [dataPacket_length, List.length_take, TFTP_HEADER]; omega) hs
  simp only [tftpReSync, tftpFlushPackets, if_neg hm', hbuild, hsend, lastSent]
  simp [hrestore]

/-- With budget left and a failing `sendto`, `tftpReSync` reports the transport fault;
the packet was handed to `sendto`. -/
theorem tftpReSync_sendfail (env : Env) (w : World) (name buf : List Nat)
    (hT : Transferring w.tftp name buf) (hm : w.tftp.MaxSyncError ≠ 1)
    (hs : env.sendto (dataPacket (lastSent w.tftp) (buf.take w.tftp.BufferSize))
      ≠ ((dataPacket (lastSent w.tftp) (buf.take w.tftp.BufferSize)).length : Int)) :
    tftpReSync env w =
        some (TFTPERROR_SOCKET,
          { tftp := { w.tftp with
              PacketBuffer := writeAt (recvLoop w.tftp.PacketBuffer env.queued) 0
                (be16 DATA ++ be16 (lastSent w.tftp) ++ buf.take w.tftp.BufferSize)
              Length := TFTP_HEADER + w.tftp.BufferSize
              MaxSyncError := w.tftp.MaxSyncError - 1
              NextBlock := lastSent w.tftp }
            log := w.log ++ [Event.sendto
              (dataPacket (lastSent w.tftp) (buf.take w.tftp.BufferSize)) w.tftp.peeraddr] }) := by
  obtain ⟨hname, hbuf, hlen, hsize, hblock⟩ := hT
  have hm' : ¬ (w.tftp.MaxSyncError - 1 = 0) := by omega
  have hbuild := tftpDataBuild_live
    { w.tftp with
      PacketBuffer := recvLoop w.tftp.PacketBuffer env.queued
      MaxSyncError := w.tftp.MaxSyncError - 1
      NextBlock := (w.tftp.NextBlock + 65535) % 65536 } buf hbuf hsize (by simp only; omega)
  have hpk := packet_dataBuild
    { w.tftp with
      PacketBuffer := recvLoop w.tftp.PacketBuffer env.queued
      MaxSyncError := w.tftp.MaxSyncError - 1
      NextBlock := (w.tftp.NextBlock + 65535) % 65536 } (buf.take w.tftp.BufferSize)
      (by simp only [List.length_take]; omega)
  have hsend := tftpSend_fail env { w with tftp := _ } _ hpk
    (by simp only [dataPacket_length, List.length_take, TFTP_HEADER]; omega) hs
  simp only [tftpReSync, tftpFlushPackets, if_neg hm', hbuild, hsend, lastSent]
  simp [TFTPERROR_SOCKET]

theorem tftpReSync_exhausted (env : Env) (w : World) (hm : w.tftp.MaxSyncError = 1) :
    tftpReSync env w = some (TFTPERROR_FAILED,
      { w with tftp := { w.tftp with
          PacketBuffer := recvLoop w.tftp.PacketBuffer env.queued
          MaxSyncError := 0 } }) := by
  simp [tftpReSync, tftpFlushPackets, hm]

theorem tftpProcessPacket_ack (env : Env) (w : World) (hl : w.tftp.Length ≠ 0)
    (hop : rd16 w.tftp.PacketBuffer 0 = ACK) : tftpProcessPacket env w = caseACK env w := by
  simp [tftpProcessPacket, hl, hop, ACK, RRQ]

theorem tftpProcessPacket_rrq (env : Env) (w : World) (hl : w.tftp.Length ≠ 0)
    (hop : rd16 w.tftp.PacketBuffer 0 = RRQ) : tftpProcessPacket env w = caseRRQ env w := by
  simp [tftpProcessPacket, hl, hop]

/-- A mismatched Acknowledgment with the budget at 1: the session fails, nothing is sent. -/
theorem caseACK_exhausted (env : Env) (w : World) (name buf : List Nat)
    (hT : Transferring w.tftp name buf)
    (hmis : (w.tftp.NextBlock : Int) - 1 ≠ (rd16 w.tftp.PacketBuffer 2 : Int))
    (hm : w.tftp.MaxSyncError = 1) :
    caseACK env w = some (TFTPERROR_FAILED,
      { w with tftp := { w.tftp with
          PacketBuffer := recvLoop w.tftp.PacketBuffer env.queued
          MaxSyncError := 0
          Length := 0
          szFileName := Ptr.dangling
          Buffer := Ptr.dangling } }) := by
  obtain ⟨hname, hbuf, hlen, hsize, hblock⟩ := hT
  simp only [caseACK, if_pos hmis, tftpReSync_exhausted env w hm]
  rw [if_pos (by decide)]
  simp [abortCleanup, hname, hbuf, release]

/-- A mismatched Acknowledgment with budget left and a working transport: the block
most recently sent is sent again, the budget is one lower, the session goes on. -/
theorem caseACK_resend (env : Env) (w : World) (name buf : List Nat)
    (hT : Transferring w.tftp name buf)
    (hmis : (w.tftp.NextBlock : Int) - 1 ≠ (rd16 w.tftp.PacketBuffer 2 : Int))
    (hm : w.tftp.MaxSyncError ≠ 1)
    (hs : env.sendto (dataPacket (lastSent w.tftp) (buf.take w.tftp.BufferSize))
      = ((dataPacket (lastSent w.tftp) (buf.take w.tftp.BufferSize)).length : Int)) :
    caseACK env w = some (0,
          { tftp := { w.tftp with
              PacketBuffer := writeAt (recvLoop w.tftp.PacketBuffer env.queued) 0
                (be16 DATA ++ be16 (lastSent w.tftp) ++ buf.take w.tftp.BufferSize)
              Length := 0
              MaxSyncError := w.tftp.MaxSyncError - 1 }
            log := w.log ++ [Event.sendto
              (dataPacket (lastSent w.tftp) (buf.take w.tftp.BufferSize)) w.tftp.peeraddr] }) := by
  simp only [caseACK, if_pos hmis, tftpReSync_resend env w name buf hT hm hs]
  rw [if_neg (by decide)]

/-- A mismatched Acknowledgment with budget left and a failing `sendto`: the session
fails after the one resend attempt. -/
theorem caseACK_resend_fail (env : Env) (w : World) (name buf : List Nat)
    (hT : Transferring w.tftp name buf)
    (hmis : (w.tftp.NextBlock : Int) - 1 ≠ (rd16 w.tftp.PacketBuffer 2 : Int))
    (hm : w.tftp.MaxSyncError ≠ 1)
    (hs : env.sendto (dataPacket (lastSent w.tftp) (buf.take w.tftp.BufferSize))
      ≠ ((dataPacket (lastSent w.tftp) (buf.take w.tftp.BufferSize)).length : Int)) :
    ∃ w', caseACK env w = some (TFTPERROR_SOCKET, w') ∧
      w'.log = w.log ++ [Event.sendto
        (dataPacket (lastSent w.tftp) (buf.take w.tftp.BufferSize)) w.tftp.peeraddr] := by
  simp only [caseACK, if_pos hmis, tftpReSync_sendfail env w name buf hT hm hs]
  rw [if_pos (by decide)]
  simp [abortCleanup, hT.hname, hT.hbuf, release]

/-- A matching Acknowledgment of a short block: the transfer is complete. -/
theorem caseACK_complete (env : Env) (w : World) (name buf : List Nat)
    (hT : Transferring w.tftp name buf)
    (hmatch : (w.tftp.NextBlock : Int) - 1 = (rd16 w.tftp.PacketBuffer 2 : Int))
    (hlast : w.tftp.BufferSize < SEGSIZE) :
    caseACK env w = some (1,
      { w with tftp := { w.tftp with
          MaxSyncError := MAX_SYNC_TRIES
          szFileName := Ptr.dangling
          Buffer := Ptr.dangling } }) := by
  simp only [caseACK, hmatch, ne_eq, not_true_eq_false, if_false, if_pos hlast]
  simp [abortCleanup, hT.hname, hT.hbuf, release]

/-- A matching Acknowledgment of a full block, the provider delivering the next block
and the transport working: the next block is sent and the counter advances. -/
theorem caseACK_next (env : Env) (w : World) (name buf : List Nat)
    (hT : Transferring w.tftp name buf)
    (hmatch : (w.tftp.NextBlock : Int) - 1 = (rd16 w.tftp.PacketBuffer 2 : Int))
    (hfull : ¬ w.tftp.BufferSize < SEGSIZE)
    (herr : (env.g_pfnRequest name buf w.tftp.BufferSize w.tftp.NextBlock).error = TFTP_ERR_NONE)
    (hsz : (env.g_pfnRequest name buf w.tftp.BufferSize w.tftp.NextBlock).bufferSize ≤ SEGSIZE)
    (hs : env.sendto (dataPacket w.tftp.NextBlock
        ((fit SEGSIZE (env.g_pfnRequest name buf w.tftp.BufferSize w.tftp.NextBlock).buffer).take
          (env.g_pfnRequest name buf w.tftp.BufferSize w.tftp.NextBlock).bufferSize))
      = ((dataPacket w.tftp.NextBlock
        ((fit SEGSIZE (env.g_pfnRequest name buf w.tftp.BufferSize w.tftp.NextBlock).buffer).take
          (env.g_pfnRequest name buf w.tftp.BufferSize w.tftp.NextBlock).bufferSize)).length : Int)) :
    caseACK env w = some (0,
      { tftp := { w.tftp with
          MaxSyncError := MAX_SYNC_TRIES
          Buffer := Ptr.live (fit SEGSIZE
            (env.g_pfnRequest name buf w.tftp.BufferSize w.tftp.NextBlock).buffer)
          BufferSize := (env.g_pfnRequest name buf w.tftp.BufferSize w.tftp.NextBlock).bufferSize
          PacketBuffer := writeAt w.tftp.PacketBuffer 0
            (be16 DATA ++ be16 w.tftp.NextBlock ++
              (fit SEGSIZE (env.g_pfnRequest name buf w.tftp.BufferSize w.tftp.NextBlock).buffer).take
                (env.g_pfnRequest name buf w.tftp.BufferSize w.tftp.NextBlock).bufferSize)
          Length := TFTP_HEADER +
            (env.g_pfnRequest name buf w.tftp.BufferSize w.tftp.NextBlock).bufferSize
          NextBlock := (w.tftp.NextBlock + 1) % 65536 }
        log := w.log ++ [Event.request name w.tftp.NextBlock,
          Event.sendto (dataPacket w.tftp.NextBlock
            ((fit SEGSIZE (env.g_pfnRequest name buf w.tftp.BufferSize w.tftp.NextBlock).buffer).take
              (env.g_pfnRequest name buf w.tftp.BufferSize w.tftp.NextBlock).bufferSize))
            w.tftp.peeraddr] }) := by
  obtain ⟨hname, hbuf, hlen, hsize, hblock⟩ := hT
  generalize hr : env.g_pfnRequest name buf w.tftp.BufferSize w.tftp.NextBlock = r at *
  rcases w with ⟨⟨szFileName, Buffer, BufferSize, Sock, PacketBuffer, Length, NextBlock,
    MaxSyncError, localaddr, peeraddr⟩, log⟩
  simp only at hname hbuf hsize hblock hmatch hfull hr hs
  subst hname hbuf
  have hbuild := tftpDataBuild_live
    { szFileName := Ptr.live name, Buffer := Ptr.live (fit SEGSIZE r.buffer),
      BufferSize := r.bufferSize, Sock := Sock, PacketBuffer := PacketBuffer, Length := Length,
      NextBlock := NextBlock, MaxSyncError := MAX_SYNC_TRIES, localaddr := localaddr,
      peeraddr := peeraddr } (fit SEGSIZE r.buffer) rfl hsz
      (by simp only [fit_length]; exact hsz)
  have hpk := packet_dataBuild
    { szFileName := Ptr.live name, Buffer := Ptr.live (fit SEGSIZE r.buffer),
      BufferSize := r.bufferSize, Sock := Sock, PacketBuffer := PacketBuffer, Length := Length,
      NextBlock := NextBlock, MaxSyncError := MAX_SYNC_TRIES, localaddr := localaddr,
      peeraddr := peeraddr } ((fit SEGSIZE r.buffer).take r.bufferSize)
      (by simp only [List.length_take, fit_length]; omega)
  have hsend := tftpSend_ok env { tftp := _, log := log ++ [Event.request name NextBlock] }
    _ hpk
    (by simp only [dataPacket_length, List.length_take, fit_length, TFTP_HEADER]; omega) hs
  simp only [caseACK, hmatch, ne_eq, not_true_eq_false, if_false, if_neg hfull, hr,
    herr, if_neg (Nat.not_lt.mpr hsz), hbuild, hsend]
  simp

/-- A matching Acknowledgment of a full block when the provider reports an error: one
Error packet with the provider's code is sent and the session fails. -/
theorem caseACK_provider_error (env : Env) (w : World) (name buf : List Nat)
    (hT : Transferring w.tftp name buf)
    (hmatch : (w.tftp.NextBlock : Int) - 1 = (rd16 w.tftp.PacketBuffer 2 : Int))
    (hfull : ¬ w.tftp.BufferSize < SEGSIZE)
    (herr : (env.g_pfnRequest name buf w.tftp.BufferSize w.tftp.NextBlock).error ≠ TFTP_ERR_NONE) :
    ∃ w', caseACK env w = some (TFTPERROR_FAILED, w') ∧
      w'.log = w.log ++ [Event.request name w.tftp.NextBlock,
        Event.sendto (errorPacket (toU16
          (env.g_pfnRequest name buf w.tftp.BufferSize w.tftp.NextBlock).error)) w.tftp.peeraddr] := by
  obtain ⟨hname, hbuf, hlen, hsize, hblock⟩ := hT
  generalize hr : env.g_pfnRequest name buf w.tftp.BufferSize w.tftp.NextBlock = r at *
  rcases w with ⟨⟨szFileName, Buffer, BufferSize, Sock, PacketBuffer, Length, NextBlock,
    MaxSyncError, localaddr, peeraddr⟩, log⟩
  simp only at hname hbuf hsize hblock hmatch hfull hr
  subst hname hbuf
  simp only [caseACK, hmatch, ne_eq, not_true_eq_false, if_false, if_neg hfull, hr,
    herr, not_false_eq_true, if_true, tftpSend, packet_errorBuild]
  simp [abortCleanup, release, tftpErrorBuild]

/-- A matching Acknowledgment of a full block when the provider reports more than
`SEGSIZE` bytes: the session fails and nothing is sent. -/
theorem caseACK_oversize (env : Env) (w : World) (name buf : List Nat)
    (hT : Transferring w.tftp name buf)
    (hmatch : (w.tftp.NextBlock : Int) - 1 = (rd16 w.tftp.PacketBuffer 2 : Int))
    (hfull : ¬ w.tftp.BufferSize < SEGSIZE)
    (herr : (env.g_pfnRequest name buf w.tftp.BufferSize w.tftp.NextBlock).error = TFTP_ERR_NONE)
    (hsz : ¬ (env.g_pfnRequest name buf w.tftp.BufferSize w.tftp.NextBlock).bufferSize ≤ SEGSIZE) :
    ∃ w', caseACK env w = some (TFTPERROR_FAILED, w') ∧
      w'.log = w.log ++ [Event.request name w.tftp.NextBlock] := by
  obtain ⟨hname, hbuf, hlen, hsize, hblock⟩ := hT
  generalize hr : env.g_pfnRequest name buf w.tftp.BufferSize w.tftp.NextBlock = r at *
  rcases w with ⟨⟨szFileName, Buffer, BufferSize, Sock, PacketBuffer, Length, NextBlock,
    MaxSyncError, localaddr, peeraddr⟩, log⟩
  simp only at hname hbuf hsize hblock hmatch hfull hr
  subst hname hbuf
  simp only [caseACK, hmatch, ne_eq, not_true_eq_false, if_false, if_neg hfull, hr,
    herr, if_pos (Nat.lt_of_not_le hsz)]
  simp [abortCleanup, release]

/-- A matching Acknowledgment of a full block when `sendto` fails on the next block. -/
theorem caseACK_next_sendfail (env : Env) (w : World) (name buf : List Nat)
    (hT : Transferring w.tftp name buf)
    (hmatch : (w.tftp.NextBlock : Int) - 1 = (rd16 w.tftp.PacketBuffer 2 : Int))
    (hfull : ¬ w.tftp.BufferSize < SEGSIZE)
    (herr : (env.g_pfnRequest name buf w.tftp.BufferSize w.tftp.NextBlock).error = TFTP_ERR_NONE)
    (hsz : (env.g_pfnRequest name buf w.tftp.BufferSize w.tftp.NextBlock).bufferSize ≤ SEGSIZE)
    (hs : env.sendto (dataPacket w.tftp.NextBlock
        ((fit SEGSIZE (env.g_pfnRequest name buf w.tftp.BufferSize w.tftp.NextBlock).buffer).take
          (env.g_pfnRequest name buf w.tftp.BufferSize w.tftp.NextBlock).bufferSize))
      ≠ ((dataPacket w.tftp.NextBlock
        ((fit SEGSIZE (env.g_pfnRequest name buf w.tftp.BufferSize w.tftp.NextBlock).buffer).take
          (env.g_pfnRequest name buf w.tftp.BufferSize w.tftp.NextBlock).bufferSize)).length : Int)) :
    ∃ w', caseACK env w = some (TFTPERROR_SOCKET, w') ∧
      w'.log = w.log ++ [Event.request name w.tftp.NextBlock,
          Event.sendto (dataPacket w.tftp.NextBlock
            ((fit SEGSIZE (env.g_pfnRequest name buf w.tftp.BufferSize w.tftp.NextBlock).buffer).take
              (env.g_pfnRequest name buf w.tftp.BufferSize w.tftp.NextBlock).bufferSize))
            w.tftp.peeraddr] := by
  obtain ⟨hname, hbuf, hlen, hsize, hblock⟩ := hT
  generalize hr : env.g_pfnRequest name buf w.tftp.BufferSize w.tftp.NextBlock = r at *
  rcases w with ⟨⟨szFileName, Buffer, BufferSize, Sock, PacketBuffer, Length, NextBlock,
    MaxSyncError, localaddr, peeraddr⟩, log⟩
  simp only at hname hbuf hsize hblock hmatch hfull hr hs
  subst hname hbuf
  have hbuild := tftpDataBuild_live
    { szFileName := Ptr.live name, Buffer := Ptr.live (fit SEGSIZE r.buffer),
      BufferSize := r.bufferSize, Sock := Sock, PacketBuffer := PacketBuffer, Length := Length,
      NextBlock := NextBlock, MaxSyncError := MAX_SYNC_TRIES, localaddr := localaddr,
      peeraddr := peeraddr } (fit SEGSIZE r.buffer) rfl hsz
      (by simp only [fit_length]; exact hsz)
  have hpk := packet_dataBuild
    { szFileName := Ptr.live name, Buffer := Ptr.live (fit SEGSIZE r.buffer),
      BufferSize := r.bufferSize, Sock := Sock, PacketBuffer := PacketBuffer, Length := Length,
      NextBlock := NextBlock, MaxSyncError := MAX_SYNC_TRIES, localaddr := localaddr,
      peeraddr := peeraddr } ((fit SEGSIZE r.buffer).take r.bufferSize)
      (by simp only [List.length_take, fit_length]; omega)
  have hsend := tftpSend_fail env { tftp := _, log := log ++ [Event.request name NextBlock] }
    _ hpk
    (by simp only [dataPacket_length, List.length_take, fit_length, TFTP_HEADER]; omega) hs
  simp only [caseACK, hmatch, ne_eq, not_true_eq_false, if_false, if_neg hfull, hr,
    herr, if_neg (Nat.not_lt.mpr hsz), hbuild, hsend]
  simp [abortCleanup, release, TFTPERROR_SOCKET]

theorem tftpChangeListenPort_ok (env : Env) (t : TFTP) (h : portOk env) :
    tftpChangeListenPort env t = (0, { t with
      Sock := env.socket
      localaddr := { t.localaddr with sin_port := t.peeraddr.sin_port } }) := by
  obtain ⟨h1, h2, h3, h4⟩ := h
  simp only [tftpChangeListenPort, h1, if_false, if_neg (not_lt.mpr h2), if_neg (not_lt.mpr h3),
    if_neg (not_lt.mpr h4)]

theorem tftpChangeListenPort_fail (env : Env) (t : TFTP) (h : ¬ portOk env) :
    (tftpChangeListenPort env t).1 = TFTPERROR_SOCKET ∧
      (tftpChangeListenPort env t).2.szFileName = t.szFileName ∧
      (tftpChangeListenPort env t).2.Buffer = t.Buffer := by
  unfold tftpChangeListenPort
  simp only
  split_ifs with h1 h2 h3 h4
  · exact ⟨rfl, rfl, rfl⟩
  · exact ⟨rfl, rfl, rfl⟩
  · exact ⟨rfl, rfl, rfl⟩
  · exact ⟨rfl, rfl, rfl⟩
  · exact absurd ⟨h1, not_lt.mp h2, not_lt.mp h3, not_lt.mp h4⟩ h

/-- The request path up to the provider call: with mode octet and both allocations
succeeding, what is left of `caseRRQ` is the code after `g_pfnRequest` returned `r`. -/
theorem caseRRQ_error (env : Env) (w : World) (fresh : List Nat) (r : ProviderResult)
    (hmode : tftpGetMode w.tftp.PacketBuffer w.tftp.Length = Except.ok tTFTPMode.TFTP_MODE_OCTET)
    (hname : env.mmAllocName = true) (hfresh : env.mmAllocBuffer = some fresh)
    (hr : env.g_pfnRequest (storedName w.tftp.PacketBuffer) (fit SEGSIZE fresh) w.tftp.BufferSize 1 = r)
    (herr : r.error ≠ TFTP_ERR_NONE) :
    ∃ w', caseRRQ env w = some (TFTPERROR_FAILED, w') ∧
      w'.log = w.log ++ [Event.request (storedName w.tftp.PacketBuffer) 1,
        Event.sendto (errorPacket (toU16 r.error)) w.tftp.peeraddr] := by
  rcases w with ⟨⟨szFileName, Buffer, BufferSize, Sock, PacketBuffer, Length, NextBlock,
    MaxSyncError, localaddr, peeraddr⟩, log⟩
  simp only [storedName] at hmode hr ⊢
  simp only [caseRRQ, hmode, hname, hfresh, hr, ne_eq, not_true_eq_false, if_false, herr,
    not_false_eq_true, if_true, tftpSend, packet_errorBuild, Bool.true_eq_false]
  simp [abortCleanup, release, tftpErrorBuild]

theorem caseRRQ_port_fail (env : Env) (w : World) (fresh : List Nat) (r : ProviderResult)
    (hmode : tftpGetMode w.tftp.PacketBuffer w.tftp.Length = Except.ok tTFTPMode.TFTP_MODE_OCTET)
    (hname : env.mmAllocName = true) (hfresh : env.mmAllocBuffer = some fresh)
    (hr : env.g_pfnRequest (storedName w.tftp.PacketBuffer) (fit SEGSIZE fresh) w.tftp.BufferSize 1 = r)
    (herr : r.error = TFTP_ERR_NONE) (hport : ¬ portOk env) :
    ∃ w', caseRRQ env w = some (TFTPERROR_SOCKET, w') ∧
      w'.log = w.log ++ [Event.request (storedName w.tftp.PacketBuffer) 1] := by
  rcases w with ⟨⟨szFileName, Buffer, BufferSize, Sock, PacketBuffer, Length, NextBlock,
    MaxSyncError, localaddr, peeraddr⟩, log⟩
  simp only [storedName] at hmode hr ⊢
  simp only [caseRRQ, hmode, hname, hfresh, hr, ne_eq, not_true_eq_false, if_false, herr,
    Bool.true_eq_false]
  obtain ⟨h1, h2, h3⟩ := tftpChangeListenPort_fail env
    { szFileName := Ptr.live (List.take ((strlen (List.drop 2 PacketBuffer) + 1) % 256)
        (List.drop 2 PacketBuffer)),
      Buffer := Ptr.live (fit SEGSIZE r.buffer), BufferSize := r.bufferSize, Sock := Sock,
      PacketBuffer := PacketBuffer, Length := Length, NextBlock := 1,
      MaxSyncError := MaxSyncError, localaddr := localaddr, peeraddr := peeraddr } hport
  rw [h1, if_pos (by decide)]
  simp [abortCleanup, h2, h3, release]

theorem caseRRQ_oversize (env : Env) (w : World) (fresh : List Nat) (r : ProviderResult)
    (hmode : tftpGetMode w.tftp.PacketBuffer w.tftp.Length = Except.ok tTFTPMode.TFTP_MODE_OCTET)
    (hname : env.mmAllocName = true) (hfresh : env.mmAllocBuffer = some fresh)
    (hr : env.g_pfnRequest (storedName w.tftp.PacketBuffer) (fit SEGSIZE fresh) w.tftp.BufferSize 1 = r)
    (herr : r.error = TFTP_ERR_NONE) (hport : portOk env) (hsz : ¬ r.bufferSize ≤ SEGSIZE) :
    ∃ w', caseRRQ env w = some (TFTPERROR_FAILED, w') ∧
      w'.log = w.log ++ [Event.request (storedName w.tftp.PacketBuffer) 1] := by
  rcases w with ⟨⟨szFileName, Buffer, BufferSize, Sock, PacketBuffer, Length, NextBlock,
    MaxSyncError, localaddr, peeraddr⟩, log⟩
  simp only [storedName] at hmode hr ⊢
  simp only [caseRRQ, hmode, hname, hfresh, hr, ne_eq, not_true_eq_false, if_false, herr,
    Bool.true_eq_false, tftpChangeListenPort_ok _ _ hport]
  rw [if_neg (by decide), if_pos (Nat.lt_of_not_le hsz)]
  simp [abortCleanup, release]

theorem caseRRQ_sendfail (env : Env) (w : World) (fresh : List Nat) (r : ProviderResult)
    (hmode : tftpGetMode w.tftp.PacketBuffer w.tftp.Length = Except.ok tTFTPMode.TFTP_MODE_OCTET)
    (hname : env.mmAllocName = true) (hfresh : env.mmAllocBuffer = some fresh)
    (hr : env.g_pfnRequest (storedName w.tftp.PacketBuffer) (fit SEGSIZE fresh) w.tftp.BufferSize 1 = r)
    (herr : r.error = TFTP_ERR_NONE) (hport : portOk env) (hsz : r.bufferSize ≤ SEGSIZE)
    (hs : env.sendto (dataPacket 1 ((fit SEGSIZE r.buffer).take r.bufferSize))
      ≠ ((dataPacket 1 ((fit SEGSIZE r.buffer).take r.bufferSize)).length : Int)) :
    ∃ w', caseRRQ env w = some (TFTPERROR_SOCKET, w') ∧
      w'.log = w.log ++ [Event.request (storedName w.tftp.PacketBuffer) 1,
        Event.sendto (dataPacket 1 ((fit SEGSIZE r.buffer).take r.bufferSize)) w.tftp.peeraddr] := by
  rcases w with ⟨⟨szFileName, Buffer, BufferSize, Sock, PacketBuffer, Length, NextBlock,
    MaxSyncError, localaddr, peeraddr⟩, log⟩
  simp only [storedName] at hmode hr ⊢
  have hbuild := tftpDataBuild_live
    { szFileName := Ptr.live (List.take ((strlen (List.drop 2 PacketBuffer) + 1) % 256)
        (List.drop 2 PacketBuffer)),
      Buffer := Ptr.live (fit SEGSIZE r.buffer), BufferSize := r.bufferSize, Sock := env.socket,
      PacketBuffer := PacketBuffer, Length := Length, NextBlock := 1,
      MaxSyncError := MaxSyncError,
      localaddr := { sin_addr := localaddr.sin_addr, sin_port := peeraddr.sin_port },
      peeraddr := peeraddr } (fit SEGSIZE r.buffer) rfl hsz
      (by simp only [fit_length]; exact hsz)
  have hpk := packet_dataBuild
    { szFileName := Ptr.live (List.take ((strlen (List.drop 2 PacketBuffer) + 1) % 256)
        (List.drop 2 PacketBuffer)),
      Buffer := Ptr.live (fit SEGSIZE r.buffer), BufferSize := r.bufferSize, Sock := env.socket,
      PacketBuffer := PacketBuffer, Length := Length, NextBlock := 1,
      MaxSyncError := MaxSyncError,
      localaddr := { sin_addr := localaddr.sin_addr, sin_port := peeraddr.sin_port },
      peeraddr := peeraddr } ((fit SEGSIZE r.buffer).take r.bufferSize)
      (by simp only [List.length_take, fit_length]; omega)
  have hsend := tftpSend_fail env { tftp := _, log := log ++ [Event.request
      (List.take ((strlen (List.drop 2 PacketBuffer) + 1) % 256) (List.drop 2 PacketBuffer)) 1] }
    _ hpk
    (by simp only [dataPacket_length, List.length_take, fit_length, TFTP_HEADER]; omega) hs
  simp only [caseRRQ, hmode, hname, hfresh, hr, ne_eq, not_true_eq_false, if_false, herr,
    Bool.true_eq_false, tftpChangeListenPort_ok _ _ hport]
  rw [if_neg (by decide), if_neg (Nat.not_lt.mpr hsz)]
  simp only [hbuild, hsend]
  simp [abortCleanup, release, TFTPERROR_SOCKET]

/-- An accepted Request with a provider that delivers the first block and a working
transport: Data block 1 is sent and the counter stands at 2. -/
theorem caseRRQ_accept (env : Env) (w : World) (fresh : List Nat) (r : ProviderResult)
    (hmode : tftpGetMode w.tftp.PacketBuffer w.tftp.Length = Except.ok tTFTPMode.TFTP_MODE_OCTET)
    (hname : env.mmAllocName = true) (hfresh : env.mmAllocBuffer = some fresh)
    (hr : env.g_pfnRequest (storedName w.tftp.PacketBuffer) (fit SEGSIZE fresh) w.tftp.BufferSize 1 = r)
    (herr : r.error = TFTP_ERR_NONE) (hport : portOk env) (hsz : r.bufferSize ≤ SEGSIZE)
    (hs : env.sendto (dataPacket 1 ((fit SEGSIZE r.buffer).take r.bufferSize))
      = ((dataPacket 1 ((fit SEGSIZE r.buffer).take r.bufferSize)).length : Int)) :
    caseRRQ env w = some (0,
      { tftp := { w.tftp with
          szFileName := Ptr.live (storedName w.tftp.PacketBuffer)
          Buffer := Ptr.live (fit SEGSIZE r.buffer)
          BufferSize := r.bufferSize
          Sock := env.socket
          localaddr := { w.tftp.localaddr with sin_port := w.tftp.peeraddr.sin_port }
          PacketBuffer := writeAt w.tftp.PacketBuffer 0
            (be16 DATA ++ be16 1 ++ (fit SEGSIZE r.buffer).take r.bufferSize)
          Length := TFTP_HEADER + r.bufferSize
          NextBlock := 2 }
        log := w.log ++ [Event.request (storedName w.tftp.PacketBuffer) 1,
          Event.sendto (dataPacket 1 ((fit SEGSIZE r.buffer).take r.bufferSize))
            w.tftp.peeraddr] }) := by
  rcases w with ⟨⟨szFileName, Buffer, BufferSize, Sock, PacketBuffer, Length, NextBlock,
    MaxSyncError, localaddr, peeraddr⟩, log⟩
  simp only [storedName] at hmode hr ⊢
  have hbuild := tftpDataBuild_live
    { szFileName := Ptr.live (List.take ((strlen (List.drop 2 PacketBuffer) + 1) % 256)
        (List.drop 2 PacketBuffer)),
      Buffer := Ptr.live (fit SEGSIZE r.buffer), BufferSize := r.bufferSize, Sock := env.socket,
      PacketBuffer := PacketBuffer, Length := Length, NextBlock := 1,
      MaxSyncError := MaxSyncError,
      localaddr := { sin_addr := localaddr.sin_addr, sin_port := peeraddr.sin_port },
      peeraddr := peeraddr } (fit SEGSIZE r.buffer) rfl hsz
      (by simp only [fit_length]; exact hsz)
  have hpk := packet_dataBuild
    { szFileName := Ptr.live (List.take ((strlen (List.drop 2 PacketBuffer) + 1) % 256)
        (List.drop 2 PacketBuffer)),
      Buffer := Ptr.live (fit SEGSIZE r.buffer), BufferSize := r.bufferSize, Sock := env.socket,
      PacketBuffer := PacketBuffer, Length := Length, NextBlock := 1,
      MaxSyncError := MaxSyncError,
      localaddr := { sin_addr := localaddr.sin_addr, sin_port := peeraddr.sin_port },
      peeraddr := peeraddr } ((fit SEGSIZE r.buffer).take r.bufferSize)
      (by simp only [List.length_take, fit_length]; omega)
  have hsend := tftpSend_ok env { tftp := _, log := log ++ [Event.request
      (List.take ((strlen (List.drop 2 PacketBuffer) + 1) % 256) (List.drop 2 PacketBuffer)) 1] }
    _ hpk
    (by simp only [dataPacket_length, List.length_take, fit_length, TFTP_HEADER]; omega) hs
  simp only [caseRRQ, hmode, hname, hfresh, hr, ne_eq, not_true_eq_false, if_false, herr,
    Bool.true_eq_false, tftpChangeListenPort_ok _ _ hport]
  rw [if_neg (by decide), if_neg (Nat.not_lt.mpr hsz)]
  simp only [hbuild, hsend]
  simp

/-- A Request that is not accepted by the parser or whose mode is not octet: the session
fails, the log is untouched. -/
theorem caseRRQ_reject (env : Env) (w : World)
    (hmode : tftpGetMode w.tftp.PacketBuffer w.tftp.Length ≠ Except.ok tTFTPMode.TFTP_MODE_OCTET)
    (hn : w.tftp.szFileName ≠ Ptr.dangling) (hb : w.tftp.Buffer ≠ Ptr.dangling) :
    ∃ w', caseRRQ env w = some (TFTPERROR_FAILED, w') ∧ w'.log = w.log := by
  obtain ⟨n, b, hab⟩ := abortCleanup_some TFTPERROR_FAILED w hn hb
  unfold caseRRQ
  cases hg : tftpGetMode w.tftp.PacketBuffer w.tftp.Length with
  | error rc =>
    have hrc : rc = TFTPERROR_FAILED := by
      unfold tftpGetMode at hg
      simp only at hg
      split_ifs at hg
      simp_all
    subst hrc
    simp only [hab]
    exact ⟨_, rfl, rfl⟩
  | ok m =>
    have hm : m ≠ tTFTPMode.TFTP_MODE_OCTET := by
      intro h; apply hmode; rw [hg, h]
    simp only [ne_eq, hm, not_false_eq_true, if_true, hab]
    exact ⟨_, rfl, rfl⟩

/-- An octet Request for which one of the two allocations fails: the session fails before
the provider is called. -/
theorem caseRRQ_alloc_fail (env : Env) (w : World)
    (hmode : tftpGetMode w.tftp.PacketBuffer w.tftp.Length = Except.ok tTFTPMode.TFTP_MODE_OCTET)
    (halloc : env.mmAllocName = false ∨ env.mmAllocBuffer = none)
    (hb : w.tftp.Buffer ≠ Ptr.dangling) :
    ∃ w', caseRRQ env w = some (TFTPERROR_FAILED, w') ∧ w'.log = w.log := by
  rcases w with ⟨⟨szFileName, Buffer, BufferSize, Sock, PacketBuffer, Length, NextBlock,
    MaxSyncError, localaddr, peeraddr⟩, log⟩
  simp only at hmode hb
  by_cases hname : env.mmAllocName = false
  · cases Buffer with
    | null => simp [caseRRQ, hmode, hname, abortCleanup, release]
    | live bs => simp [caseRRQ, hmode, hname, abortCleanup, release]
    | dangling => exact absurd rfl hb
  · have hname' : env.mmAllocName = true := by simpa using hname
    have hfresh : env.mmAllocBuffer = none := by
      rcases halloc with h | h
      · exact absurd h hname
      · exact h
    simp [caseRRQ, hmode, hname', hfresh, abortCleanup, release]

/-- An octet Request with both allocations succeeding reaches the provider: whatever
happens afterwards, the call for block 1 with the stored name is in the log. -/
theorem caseRRQ_lookup (env : Env) (w : World) (fresh : List Nat)
    (hmode : tftpGetMode w.tftp.PacketBuffer w.tftp.Length = Except.ok tTFTPMode.TFTP_MODE_OCTET)
    (hname : env.mmAllocName = true) (hfresh : env.mmAllocBuffer = some fresh) :
    ∃ rc w' more, caseRRQ env w = some (rc, w') ∧
      w'.log = w.log ++ Event.request (storedName w.tftp.PacketBuffer) 1 :: more := by
  generalize hr : env.g_pfnRequest (storedName w.tftp.PacketBuffer) (fit SEGSIZE fresh)
    w.tftp.BufferSize 1 = r
  by_cases herr : r.error = TFTP_ERR_NONE
  · by_cases hport : portOk env
    · by_cases hsz : r.bufferSize ≤ SEGSIZE
      · by_cases hs : env.sendto (dataPacket 1 ((fit SEGSIZE r.buffer).take r.bufferSize))
          = ((dataPacket 1 ((fit SEGSIZE r.buffer).take r.bufferSize)).length : Int)
        · exact ⟨_, _, [Event.sendto (dataPacket 1 ((fit SEGSIZE r.buffer).take r.bufferSize))
              w.tftp.peeraddr],
            caseRRQ_accept env w fresh r hmode hname hfresh hr herr hport hsz hs, by simp⟩
        · obtain ⟨w', h1, h2⟩ :=
            caseRRQ_sendfail env w fresh r hmode hname hfresh hr herr hport hsz hs
          exact ⟨_, w', _, h1, by simpa using h2⟩
      · obtain ⟨w', h1, h2⟩ := caseRRQ_oversize env w fresh r hmode hname hfresh hr herr hport hsz
        exact ⟨_, w', [], h1, by simpa using h2⟩
    · obtain ⟨w', h1, h2⟩ := caseRRQ_port_fail env w fresh r hmode hname hfresh hr herr hport
      exact ⟨_, w', [], h1, by simpa using h2⟩
  · obtain ⟨w', h1, h2⟩ := caseRRQ_error env w fresh r hmode hname hfresh hr herr
    exact ⟨_, w', _, h1, by simpa using h2⟩

/-! ## Claims about one datagram -/

/-- C6: for a Request whose name and mode fields are both terminated inside the received
bytes, the parser yields octet if and only if the mode bytes are exactly "octet"; with mode
octet (and both allocations succeeding) the provider is called for block 1; with any other
mode the call returns the failure code and the log is unchanged: the provider is not called
and no packet is sent. -/
theorem request_mode_gate (env : Env) (w : World) (name mode rest stale : List Nat)
    (hname : ∀ c ∈ name, c ≠ 0) (hmode : ∀ c ∈ mode, c ≠ 0)
    (hbuf : w.tftp.PacketBuffer = [0, 1] ++ (name ++ 0 :: (mode ++ 0 :: (rest ++ stale))))
    (hlen : w.tftp.Length = 2 + name.length + 1 + mode.length + 1 + rest.length)
    (hn : w.tftp.szFileName ≠ Ptr.dangling) (hb : w.tftp.Buffer ≠ Ptr.dangling) :
    (tftpGetMode w.tftp.PacketBuffer w.tftp.Length = Except.ok tTFTPMode.TFTP_MODE_OCTET
        ↔ mode = octet) ∧
    (mode = octet → env.mmAllocName = true → env.mmAllocBuffer ≠ none →
        ∃ rc w' more, tftpProcessPacket env w = some (rc, w') ∧
          w'.log = w.log ++ Event.request (storedName w.tftp.PacketBuffer) 1 :: more) ∧
    (mode ≠ octet →
        ∃ w', tftpProcessPacket env w = some (TFTPERROR_FAILED, w') ∧ w'.log = w.log) := by
  have hl : w.tftp.Length ≠ 0 := by omega
  have hop : rd16 w.tftp.PacketBuffer 0 = RRQ := by rw [hbuf]; simp [rd16, RRQ]
  have hg := tftpGetMode_terminated name mode rest stale hname hmode 0 1
  rw [← hbuf, ← hlen] at hg
  have hiff : tftpGetMode w.tftp.PacketBuffer w.tftp.Length
      = Except.ok tTFTPMode.TFTP_MODE_OCTET ↔ mode = octet := by
    rw [hg]
    by_cases h1 : netascii = mode
    · have h2 : mode ≠ octet := by rw [← h1]; decide
      simp [h1, h2]
    · by_cases h2 : octet = mode
      · simp [h1, h2]
      · have h3 : mode ≠ octet := fun h => h2 h.symm
        simp [h1, h2, h3]
  refine ⟨hiff, ?_, ?_⟩
  · intro ho ha hf
    obtain ⟨fresh, hfresh⟩ := Option.ne_none_iff_exists'.mp hf
    rw [tftpProcessPacket_rrq env w hl hop]
    exact caseRRQ_lookup env w fresh (hiff.mpr ho) ha hfresh
  · intro ho
    rw [tftpProcessPacket_rrq env w hl hop]
    exact caseRRQ_reject env w (fun h => ho (hiff.mp h)) hn hb

set_option maxRecDepth 100000 in
/-- The mode gate on a Request for "a" in mode "netascii": the session fails and the log
stays empty. -/
theorem request_mode_gate_witness :
    ∃ w', tftpProcessPacket (servingEnv [1, 2, 3]) (freshWith (rrqPacket [97] netascii))
        = some (TFTPERROR_FAILED, w') ∧ w'.log = [] :=
  (request_mode_gate (servingEnv [1, 2, 3]) (freshWith (rrqPacket [97] netascii)) [97] netascii []
    (List.replicate 503 0) (by decide) (by decide) (by decide) (by decide) (by decide)
    (by decide)).2.2 (by decide)

set_option maxRecDepth 1000000 in
/-- The modes named in C6, each in a terminated mode field of a Request for "a":
"netascii", "OCTET", the proper beginning "oct" and the empty string all make the session
fail with an empty log, and "octet" itself is accepted. -/
theorem mode_examples :
    (∀ mode ∈ [netascii, [79, 67, 84, 69, 84], [111, 99, 116], []],
      ∃ w, mainLoop (initWorld (some 1) []) [stepOf [1, 2, 3] (rrqPacket [97] mode)]
        = Outcome.aborted w ∧ w.log = []) ∧
    ∃ w, mainLoop (initWorld (some 1) []) [stepOf [1, 2, 3] (rrqPacket [97] octet)]
      = Outcome.running w ∧ calledBlocks w.log = [1] := by
  refine ⟨?_, _, rfl, by decide⟩
  intro mode hmode
  simp only [List.mem_cons, List.mem_singleton, List.not_mem_nil, or_false] at hmode
  rcases hmode with rfl | rfl | rfl | rfl
  · exact ⟨_, rfl, by decide⟩
  · exact ⟨_, rfl, by decide⟩
  · exact ⟨_, rfl, by decide⟩
  · exact ⟨_, rfl, by decide⟩

set_option maxRecDepth 100000 in
/-- C7 (defect of the code): the five received bytes `00 01 'a' 00 'o'` are a Request whose
mode field has no terminator before the end of the received bytes, yet `tftpGetMode` does
not return an error: it answers octet (`strncmp` is limited to the one byte left, which
equals the first byte of "octet"), and the session, instead of failing, calls the provider
and sends Data block 1. -/
theorem unterminated_mode_accepted :
    tftpGetMode (freshWith [0, 1, 97, 0, 111]).tftp.PacketBuffer
        (freshWith [0, 1, 97, 0, 111]).tftp.Length = Except.ok tTFTPMode.TFTP_MODE_OCTET ∧
    ∃ w', mainLoop (initWorld (some 1) []) [stepOf [1, 2, 3] [0, 1, 97, 0, 111]]
        = Outcome.running w' ∧
      w'.log = [Event.request [97, 0] 1, Event.sendto (dataPacket 1 [1, 2, 3]) peerA] := by
  refine ⟨rfl, _, rfl, ?_⟩
  decide

/-- C8: when the provider returns a non-success code `c`, on the first block (Request path)
or on a later block (path of a matching Acknowledgment of a full block), the call of
`tftpProcessPacket` hands exactly one packet to `sendto` after the provider call, the 5-byte
Error packet `00 05`, `c` on two bytes big-endian, `00`; no Data packet is sent for that
block and the call returns the failure code. -/
theorem provider_error_reply (env : Env) (w : World) (c : Int) (hc : c ≠ TFTP_ERR_NONE)
    (hl : w.tftp.Length ≠ 0) :
    (∀ fresh : List Nat, rd16 w.tftp.PacketBuffer 0 = RRQ →
      tftpGetMode w.tftp.PacketBuffer w.tftp.Length = Except.ok tTFTPMode.TFTP_MODE_OCTET →
      env.mmAllocName = true → env.mmAllocBuffer = some fresh →
      (env.g_pfnRequest (storedName w.tftp.PacketBuffer) (fit SEGSIZE fresh)
        w.tftp.BufferSize 1).error = c →
      ∃ w', tftpProcessPacket env w = some (TFTPERROR_FAILED, w') ∧
        w'.log = w.log ++ [Event.request (storedName w.tftp.PacketBuffer) 1,
          Event.sendto (errorPacket (toU16 c)) w.tftp.peeraddr]) ∧
    (∀ name buf : List Nat, rd16 w.tftp.PacketBuffer 0 = ACK → Transferring w.tftp name buf →
      rd16 w.tftp.PacketBuffer 2 = lastSent w.tftp → w.tftp.NextBlock ≠ 0 →
      ¬ w.tftp.BufferSize < SEGSIZE →
      (env.g_pfnRequest name buf w.tftp.BufferSize w.tftp.NextBlock).error = c →
      ∃ w', tftpProcessPacket env w = some (TFTPERROR_FAILED, w') ∧
        w'.log = w.log ++ [Event.request name w.tftp.NextBlock,
          Event.sendto (errorPacket (toU16 c)) w.tftp.peeraddr]) ∧
    (errorPacket (toU16 c)).length = 5 ∧
    (0 ≤ c → c < 65536 → errorPacket (toU16 c) = [0, 5, c.toNat / 256, c.toNat % 256, 0]) := by
  refine ⟨?_, ?_, ?_, ?_⟩
  · intro fresh hop hmode hname hfresh herr
    rw [tftpProcessPacket_rrq env w hl hop]
    have := caseRRQ_error env w fresh _ hmode hname hfresh rfl (by rw [herr]; exact hc)
    rwa [herr] at this
  · intro name buf hop hT hack hnb hfull herr
    rw [tftpProcessPacket_ack env w hl hop]
    have hmatch : (w.tftp.NextBlock : Int) - 1 = (rd16 w.tftp.PacketBuffer 2 : Int) := by
      rw [hack]; unfold lastSent; have := hT.hblock; omega
    have := caseACK_provider_error env w name buf hT hmatch hfull (by rw [herr]; exact hc)
    rwa [herr] at this
  · simp [errorPacket, be16]
  · intro h0 h1
    have h2 : toU16 c = c.toNat := by unfold toU16; congr 1; omega
    have h3 : c.toNat < 65536 := by omega
    rw [h2]
    simp only [errorPacket, be16_of_lt _ h3]
    rfl

set_option maxRecDepth 100000 in
/-- The provider answering the first call with code 1, and answering the call for block 3
with code 1: in both cases the Error packet `00 05 00 01 00` is the one packet sent. -/
theorem provider_error_reply_witness :
    (∃ w', tftpProcessPacket (failingEnv 1) (freshWith (rrqPacket [97] octet))
        = some (TFTPERROR_FAILED, w') ∧
      w'.log = [Event.request [97, 0] 1, Event.sendto [0, 5, 0, 1, 0] peerA]) ∧
    (∃ w', tftpProcessPacket (failingEnv 1)
        { transferWith (ackPacket 2) with tftp := { (transferWith (ackPacket 2)).tftp with
            BufferSize := 512 } } = some (TFTPERROR_FAILED, w') ∧
      w'.log = (transferWith (ackPacket 2)).log ++
        [Event.request [97, 0] 3, Event.sendto [0, 5, 0, 1, 0] peerA]) :=
  ⟨(provider_error_reply (failingEnv 1) (freshWith (rrqPacket [97] octet)) 1 (by decide)
      (by decide)).1 [] (by decide) (by rfl) (by decide) (by decide) (by decide),
   (provider_error_reply (failingEnv 1)
      { transferWith (ackPacket 2) with tftp := { (transferWith (ackPacket 2)).tftp with
          BufferSize := 512 } } 1 (by decide) (by decide)).2.1 [97, 0] (fit SEGSIZE [1, 2, 3])
      (by decide) ⟨rfl, rfl, by decide, by decide, by decide⟩ (by decide) (by decide) (by decide)
      (by decide)⟩

/-- The stored name of a Request whose name has at most 254 bytes is the name field with
its terminator. -/
theorem storedName_terminated (name tail : List Nat) (o1 o2 : Nat) (hname : ∀ c ∈ name, c ≠ 0)
    (hshort : name.length ≤ 254) :
    storedName ([o1, o2] ++ (name ++ 0 :: tail)) = name ++ [0] := by
  have hdrop : ([o1, o2] ++ (name ++ 0 :: tail)).drop 2 = name ++ 0 :: tail := rfl
  have hlen : strlen (name ++ 0 :: tail) = name.length := by
    unfold strlen
    rw [List.takeWhile_append_of_pos (by simpa using hname)]
    simp
  unfold storedName
  rw [hdrop, hlen, Nat.mod_eq_of_lt (by omega)]
  have : name ++ 0 :: tail = (name ++ [0]) ++ tail := by simp
  rw [this, List.take_left' (by simp)]

set_option maxRecDepth 100000 in
/-- C9 (defect of the code): the length of the name block is computed in the 8-bit variable
`len`. For a Request whose name field is 300 bytes `'a'` (the datagram has 309 bytes) `len`
is `301 mod 256 = 45`: the name the session stores and hands to the provider is the first
45 bytes of the name, without terminator, not the name field of the Request. -/
theorem long_name_truncated :
    (rrqPacket (List.replicate 300 97) octet).length = 309 ∧
    storedName (freshWith (rrqPacket (List.replicate 300 97) octet)).tftp.PacketBuffer
      = List.replicate 45 97 ∧
    ∃ w', mainLoop (initWorld (some 1) [])
        [stepOf [1, 2, 3] (rrqPacket (List.replicate 300 97) octet)] = Outcome.running w' ∧
      w'.tftp.szFileName = Ptr.live (List.replicate 45 97) ∧
      w'.log = [Event.request (List.replicate 45 97) 1,
        Event.sendto (dataPacket 1 [1, 2, 3]) peerA] := by
  refine ⟨by decide, by decide, _, rfl, ?_, ?_⟩ <;> decide

set_option maxRecDepth 100000 in
/-- What the amended C10 leaves open: the stray Data packet `00 03 00 01` during the
sample transfer returns through the cleanup code, which releases the name and the content
buffer although the loop goes on; the acknowledgment that follows uses released memory. -/
theorem stray_packet_releases_buffers :
    (∃ w', tftpProcessPacket (servingEnv []) (transferWith [0, 3, 0, 1]) = some (0, w') ∧
      w'.tftp.szFileName = Ptr.dangling ∧ w'.tftp.Buffer = Ptr.dangling) ∧
    mainLoop (initWorld (some 1) [])
        [stepOf (List.replicate 600 9) (rrqPacket [97] octet),
         stepOf (List.replicate 600 9) [0, 3, 0, 1],
         stepOf (List.replicate 600 9) (ackPacket 1)] = Outcome.undefined := by
  refine ⟨⟨_, rfl, ?_, ?_⟩, ?_⟩ <;> decide

/-! ## Transfers with an acknowledging client -/

theorem chunk_length_le (content : List Nat) (k : Nat) : (chunk content k).length ≤ SEGSIZE := by
  simp [chunk]

theorem chunk_full (content : List Nat) (k : Nat) (h : SEGSIZE * k ≤ content.length)
    (hk : 1 ≤ k) : (chunk content k).length = SEGSIZE := by
  obtain ⟨j, rfl⟩ : ∃ j, k = j + 1 := ⟨k - 1, by omega⟩
  simp only [chunk, List.length_take, List.length_drop, Nat.add_sub_cancel]
  have : SEGSIZE * (j + 1) = SEGSIZE * j + SEGSIZE := by ring
  omega

theorem chunk_last (content : List Nat) :
    (chunk content (content.length / SEGSIZE + 1)).length = content.length % SEGSIZE := by
  simp only [chunk, List.length_take, List.length_drop, Nat.add_sub_cancel]
  have h1 := Nat.div_add_mod content.length SEGSIZE
  have h2 : content.length % SEGSIZE < SEGSIZE := Nat.mod_lt _ (by decide)
  omega

theorem chunks_take (content : List Nat) :
    ∀ n, ((List.range n).map (fun j => chunk content (j + 1))).flatten
      = content.take (SEGSIZE * n) := by
  intro n
  induction n with
  | zero => simp
  | succ n ih =>
    rw [List.range_succ, List.map_append, List.flatten_append, ih]
    simp only [List.map_cons, List.map_nil, List.flatten_cons, List.flatten_nil,
      List.append_nil, chunk, Nat.add_sub_cancel]
    rw [show SEGSIZE * (n + 1) = SEGSIZE * n + SEGSIZE by ring, List.take_add]

theorem rd16_be16 (hd : List Nat) (i : Nat) (tail : List Nat) (hi : i < 65536)
    (hh : hd.length = 2) : rd16 (hd ++ be16 i ++ tail) 2 = i := by
  obtain ⟨a, b, rfl⟩ : ∃ a b, hd = [a, b] := by
    match hd, hh with
    | [a, b], _ => exact ⟨a, b, rfl⟩
  have : i / 256 < 256 := by omega
  simp [rd16, be16, Nat.mod_eq_of_lt this]
  omega

theorem rd16_dataPacket_block (i : Nat) (d : List Nat) (hi : i < 65536) :
    rd16 (dataPacket i d) 2 = i := by
  unfold dataPacket
  exact rd16_be16 [0, 3] i d hi rfl

theorem rd16_errorPacket_op (c : Nat) : rd16 (errorPacket c) 0 ≠ DATA := by
  simp [errorPacket, rd16, DATA]

theorem tftpReadPacket_recvFrom (bytes : List Nat) (t : TFTP) :
    tftpReadPacket (recvFrom bytes).TimeStart (recvFrom bytes).attempts t =
      some (0, { t with
        PacketBuffer := writeAt t.PacketBuffer 0 (bytes.take DATA_SIZE)
        peeraddr := peerA
        Length := (bytes.take DATA_SIZE).length }) := by
  simp [recvFrom, tftpReadPacket, TFTP_SOCK_TIMEOUT]

theorem sentPackets_append (l1 l2 : List Event) :
    sentPackets (l1 ++ l2) = sentPackets l1 ++ sentPackets l2 := by
  induction l1 with
  | nil => rfl
  | cons e l ih => cases e <;> simp [sentPackets, ih]

theorem sentPackets_transferLog (name : List Nat) (peer : sockaddr_in) (content : List Nat) :
    ∀ i, sentPackets (transferLog name peer content i)
      = (List.range i).map (fun j => dataPacket (j + 1) (chunk content (j + 1))) := by
  intro i
  induction i with
  | zero => rfl
  | succ i ih =>
    rw [transferLog, sentPackets_append, ih, List.range_succ, List.map_append]
    rfl

theorem lastPacket_transferLog (name : List Nat) (peer : sockaddr_in) (content : List Nat)
    (i : Nat) : lastPacket (transferLog name peer content (i + 1))
      = some (dataPacket (i + 1) (chunk content (i + 1))) := by
  simp [lastPacket, transferLog, sentPackets_append, sentPackets]

theorem fit_take_left (n : Nat) (c x : List Nat) (h : c.length ≤ n) :
    (fit n (c ++ x)).take c.length = c := by
  unfold fit
  rw [List.take_take, Nat.min_eq_left h, List.append_assoc, List.take_left' rfl]

theorem take_ackPacket (i : Nat) : (ackPacket i).take DATA_SIZE = ackPacket i := by
  apply List.take_of_length_le
  simp [ackPacket, be16, DATA_SIZE, SEGSIZE, TFTP_HEADER]

theorem rd16_writeAt_ack_op (pb : List Nat) (i : Nat) :
    rd16 (writeAt pb 0 (ackPacket i)) 0 = ACK := by
  simp [writeAt, ackPacket, rd16, ACK]

theorem rd16_writeAt_ack_block (pb : List Nat) (i : Nat) (hi : i < 65536) :
    rd16 (writeAt pb 0 (ackPacket i)) 2 = i := by
  rw [writeAt_zero_append]
  unfold ackPacket
  exact rd16_be16 [0, 4] i _ hi rfl

theorem length_ackPacket (i : Nat) : (ackPacket i).length = 4 := by
  simp [ackPacket, be16]

/-- One iteration of the main loop on a datagram from `peerA`: the datagram is read into
the packet buffer and processed. -/
theorem mainLoop_single (env : Env) (w : World) (bytes : List Nat) :
    mainLoop w [{ read := recvFrom bytes, env := env }] =
      match tftpProcessPacket env { w with tftp := { w.tftp with
          PacketBuffer := writeAt w.tftp.PacketBuffer 0 (bytes.take DATA_SIZE)
          peeraddr := peerA
          Length := (bytes.take DATA_SIZE).length } } with
      | none => Outcome.undefined
      | some p =>
        if p.1 < 0 then Outcome.aborted p.2
        else if p.1 = 1 then Outcome.completed p.2
        else Outcome.running p.2 := by
  simp only [mainLoop, tftpReadPacket_recvFrom]
  rw [if_neg (by decide)]

/-- The acknowledgment of a full block `i` that is not the last one: the session fetches
and sends block `i + 1`. -/
theorem ack_step_next (env : Env) (name content : List Nat) (i : Nat) (w : World)
    (hS : Serves env content) (hSent : Sent name content i w) (hi : i ≤ 65534)
    (hfull : (chunk content i).length = SEGSIZE) :
    ∃ w', mainLoop w [{ read := recvFrom (ackPacket i), env := env }] = Outcome.running w' ∧
      Sent name content (i + 1) w' ∧ w'.tftp.MaxSyncError = MAX_SYNC_TRIES := by
  obtain ⟨hname, ⟨buf, hbuf, hbl, hbt⟩, hsize, hblock, hpeer, hlog⟩ := hSent
  rcases w with ⟨⟨szFileName, Buffer, BufferSize, Sock, PacketBuffer, Length, NextBlock,
    MaxSyncError, localaddr, peeraddr⟩, log⟩
  simp only at hname hbuf hbt hsize hblock hpeer hlog
  subst hname hbuf hpeer hlog
  have hnb : NextBlock = i + 1 := by omega
  subst hnb
  rw [mainLoop_single, take_ackPacket, length_ackPacket]
  rw [tftpProcessPacket_ack env
    { tftp :=
        { szFileName := Ptr.live name, Buffer := Ptr.live buf, BufferSize := BufferSize,
          Sock := Sock, PacketBuffer := writeAt PacketBuffer 0 (ackPacket i), Length := 4,
          NextBlock := i + 1, MaxSyncError := MaxSyncError, localaddr := localaddr,
          peeraddr := peerA },
      log := transferLog name peerA content i } (by simp) (rd16_writeAt_ack_op _ _)]
  have hT : Transferring
      ({ szFileName := Ptr.live name, Buffer := Ptr.live buf, BufferSize := BufferSize,
         Sock := Sock, PacketBuffer := writeAt PacketBuffer 0 (ackPacket i), Length := 4,
         NextBlock := i + 1, MaxSyncError := MaxSyncError, localaddr := localaddr,
         peeraddr := peerA } : TFTP) name buf :=
    ⟨rfl, rfl, hbl, by simp only; rw [hsize]; exact chunk_length_le _ _, by simp only; omega⟩
  have hr : env.g_pfnRequest name buf BufferSize (i + 1) = chunkProvider content name buf
      BufferSize (i + 1) := by rw [hS.provider]
  have hnext := caseACK_next env
    { tftp :=
        { szFileName := Ptr.live name, Buffer := Ptr.live buf, BufferSize := BufferSize,
          Sock := Sock, PacketBuffer := writeAt PacketBuffer 0 (ackPacket i), Length := 4,
          NextBlock := i + 1, MaxSyncError := MaxSyncError, localaddr := localaddr,
          peeraddr := peerA },
      log := transferLog name peerA content i } name buf hT
    (by simp only; rw [rd16_writeAt_ack_block _ _ (by omega)]; push_cast; ring)
    (by simp only; rw [hsize, hfull]; exact Nat.lt_irrefl _)
    (by simp only; rw [hr]; rfl)
    (by simp only; rw [hr]; exact chunk_length_le _ _)
    (hS.send _)
  simp only at hnext
  rw [hnext]
  simp only
  rw [if_neg (by decide), if_neg (by decide)]
  refine ⟨_, rfl, ?_, rfl⟩
  rw [hr]
  have htake : (fit SEGSIZE (chunk content (i + 1) ++ buf.drop (chunk content (i + 1)).length)).take
      (chunk content (i + 1)).length = chunk content (i + 1) :=
    fit_take_left _ _ _ (chunk_length_le _ _)
  refine ⟨rfl, ⟨_, rfl, fit_length _ _, ?_⟩, rfl, ?_, rfl, ?_⟩
  · simpa [chunkProvider] using htake
  · simp only
  · simp only [chunkProvider, htake, transferLog]

/-- The acknowledgment of a short block: the transfer is complete, nothing more is sent. -/
theorem ack_step_complete (env : Env) (name content : List Nat) (i : Nat) (w : World)
    (hSent : Sent name content i w) (hi : i ≤ 65534)
    (hshort : (chunk content i).length < SEGSIZE) :
    ∃ w', mainLoop w [{ read := recvFrom (ackPacket i), env := env }] = Outcome.completed w' ∧
      w'.log = w.log := by
  obtain ⟨hname, ⟨buf, hbuf, hbl, hbt⟩, hsize, hblock, hpeer, hlog⟩ := hSent
  rcases w with ⟨⟨szFileName, Buffer, BufferSize, Sock, PacketBuffer, Length, NextBlock,
    MaxSyncError, localaddr, peeraddr⟩, log⟩
  simp only at hname hbuf hbt hsize hblock hpeer hlog
  subst hname hbuf hpeer hlog
  have hnb : NextBlock = i + 1 := by omega
  subst hnb
  rw [mainLoop_single, take_ackPacket, length_ackPacket]
  rw [tftpProcessPacket_ack env
    { tftp :=
        { szFileName := Ptr.live name, Buffer := Ptr.live buf, BufferSize := BufferSize,
          Sock := Sock, PacketBuffer := writeAt PacketBuffer 0 (ackPacket i), Length := 4,
          NextBlock := i + 1, MaxSyncError := MaxSyncError, localaddr := localaddr,
          peeraddr := peerA },
      log := transferLog name peerA content i } (by simp) (rd16_writeAt_ack_op _ _)]
  have hT : Transferring
      ({ szFileName := Ptr.live name, Buffer := Ptr.live buf, BufferSize := BufferSize,
         Sock := Sock, PacketBuffer := writeAt PacketBuffer 0 (ackPacket i), Length := 4,
         NextBlock := i + 1, MaxSyncError := MaxSyncError, localaddr := localaddr,
         peeraddr := peerA } : TFTP) name buf :=
    ⟨rfl, rfl, hbl, by simp only; rw [hsize]; exact chunk_length_le _ _, by simp only; omega⟩
  have hdone := caseACK_complete env
    { tftp :=
        { szFileName := Ptr.live name, Buffer := Ptr.live buf, BufferSize := BufferSize,
          Sock := Sock, PacketBuffer := writeAt PacketBuffer 0 (ackPacket i), Length := 4,
          NextBlock := i + 1, MaxSyncError := MaxSyncError, localaddr := localaddr,
          peeraddr := peerA },
      log := transferLog name peerA content i } name buf hT
    (by simp only; rw [rd16_writeAt_ack_block _ _ (by omega)]; push_cast; ring)
    (by simp only; rw [hsize]; exact hshort)
  simp only at hdone
  rw [hdone]
  simp only
  rw [if_neg (by decide), if_pos trivial]
  exact ⟨_, rfl, rfl⟩

/-- The acknowledgment of block 65535 (`i` below): the 16-bit counter has wrapped to 0 and
the comparison `NextBlock - 1 != ServerBlock`, made in `int`, sees `-1`; the acknowledgment
is treated as a mismatch and the block is sent again. -/
theorem ack_step_wrapped (env : Env) (name content : List Nat) (i : Nat) (w : World)
    (hS : Serves env content) (hi : i = 65535) (hSent : Sent name content i w)
    (hm : w.tftp.MaxSyncError = MAX_SYNC_TRIES) :
    ∃ w', mainLoop w [{ read := recvFrom (ackPacket i), env := env }] = Outcome.running w' ∧
      w'.log = w.log ++ [Event.sendto (dataPacket i (chunk content i)) peerA] ∧
      w'.tftp.MaxSyncError = 3 ∧ w'.tftp.NextBlock = 0 := by
  obtain ⟨hname, ⟨buf, hbuf, hbl, hbt⟩, hsize, hblock, hpeer, hlog⟩ := hSent
  rcases w with ⟨⟨szFileName, Buffer, BufferSize, Sock, PacketBuffer, Length, NextBlock,
    MaxSyncError, localaddr, peeraddr⟩, log⟩
  simp only at hname hbuf hbt hsize hblock hpeer hlog hm
  subst hname hbuf hpeer hlog hm
  have hnb : NextBlock = 0 := by omega
  subst hnb
  rw [mainLoop_single, take_ackPacket, length_ackPacket]
  rw [tftpProcessPacket_ack env
    { tftp :=
        { szFileName := Ptr.live name, Buffer := Ptr.live buf, BufferSize := BufferSize,
          Sock := Sock, PacketBuffer := writeAt PacketBuffer 0 (ackPacket i), Length := 4,
          NextBlock := 0, MaxSyncError := MAX_SYNC_TRIES, localaddr := localaddr,
          peeraddr := peerA },
      log := transferLog name peerA content i } (by simp) (rd16_writeAt_ack_op _ _)]
  have hT : Transferring
      ({ szFileName := Ptr.live name, Buffer := Ptr.live buf, BufferSize := BufferSize,
         Sock := Sock, PacketBuffer := writeAt PacketBuffer 0 (ackPacket i), Length := 4,
         NextBlock := 0, MaxSyncError := MAX_SYNC_TRIES, localaddr := localaddr,
         peeraddr := peerA } : TFTP) name buf :=
    ⟨rfl, rfl, hbl, by simp only; rw [hsize]; exact chunk_length_le _ _, by simp only; omega⟩
  have hls : lastSent
      ({ szFileName := Ptr.live name, Buffer := Ptr.live buf, BufferSize := BufferSize,
         Sock := Sock, PacketBuffer := writeAt PacketBuffer 0 (ackPacket i), Length := 4,
         NextBlock := 0, MaxSyncError := MAX_SYNC_TRIES, localaddr := localaddr,
         peeraddr := peerA } : TFTP) = i := by
    simp only [lastSent]; omega
  have hre := caseACK_resend env
    { tftp :=
        { szFileName := Ptr.live name, Buffer := Ptr.live buf, BufferSize := BufferSize,
          Sock := Sock, PacketBuffer := writeAt PacketBuffer 0 (ackPacket i), Length := 4,
          NextBlock := 0, MaxSyncError := MAX_SYNC_TRIES, localaddr := localaddr,
          peeraddr := peerA },
      log := transferLog name peerA content i } name buf hT
    (by simp only; rw [rd16_writeAt_ack_block _ _ (by omega)]; omega)
    (by simp only; decide)
    (hS.send _)
  rw [hls] at hre
  simp only at hre
  rw [hre]
  simp only
  rw [if_neg (by decide), if_neg (by decide)]
  refine ⟨_, rfl, ?_, ?_, rfl⟩
  · simp only [hbt]
  · simp only [MAX_SYNC_TRIES]; decide

theorem tftpGetMode_rrqPacket (name stale : List Nat) (hname : ∀ c ∈ name, c ≠ 0) :
    tftpGetMode (rrqPacket name octet ++ stale) (rrqPacket name octet).length
      = Except.ok tTFTPMode.TFTP_MODE_OCTET := by
  have h := tftpGetMode_terminated name octet [] stale hname (by decide) 0 1
  have h1 : [0, 1] ++ (name ++ 0 :: (octet ++ 0 :: ([] ++ stale))) = rrqPacket name octet ++ stale := by
    simp [rrqPacket]
  have h2 : 2 + name.length + 1 + octet.length + 1 + ([] : List Nat).length
      = (rrqPacket name octet).length := by
    simp [rrqPacket]; omega
  rw [h1, h2] at h
  rw [h]
  rfl

theorem rd16_rrqPacket (name mode stale : List Nat) :
    rd16 (rrqPacket name mode ++ stale) 0 = RRQ := by
  simp [rrqPacket, rd16, RRQ]

/-- An octet Request in an environment that serves `content`: the session sends block 1
and waits for its acknowledgment. -/
theorem request_step_sent (env : Env) (content name : List Nat) (s : Option Nat) (pb : List Nat)
    (hS : Serves env content) (hname : ∀ c ∈ name, c ≠ 0)
    (hfit : (rrqPacket name octet).length ≤ DATA_SIZE) :
    ∃ w1 stored, mainLoop (initWorld s pb)
        [{ read := recvFrom (rrqPacket name octet), env := env }] = Outcome.running w1 ∧
      Sent stored content 1 w1 ∧ w1.tftp.MaxSyncError = 0 := by
  obtain ⟨fresh, hfresh⟩ := Option.ne_none_iff_exists'.mp hS.allocBuffer
  rw [mainLoop_single, List.take_of_length_le hfit, writeAt_zero_append]
  generalize hstale : (initWorld s pb).tftp.PacketBuffer.drop (rrqPacket name octet).length = stale
  have hlen : (rrqPacket name octet).length ≠ 0 := by simp [rrqPacket]
  rw [tftpProcessPacket_rrq env
    { tftp := { (initWorld s pb).tftp with
        PacketBuffer := rrqPacket name octet ++ stale
        peeraddr := peerA
        Length := (rrqPacket name octet).length }
      log := (initWorld s pb).log } hlen (rd16_rrqPacket _ _ _)]
  have hr : env.g_pfnRequest (storedName (rrqPacket name octet ++ stale)) (fit SEGSIZE fresh)
      0 1 = chunkProvider content (storedName (rrqPacket name octet ++ stale))
        (fit SEGSIZE fresh) 0 1 := by rw [hS.provider]
  have hacc := caseRRQ_accept env
    { tftp := { (initWorld s pb).tftp with
        PacketBuffer := rrqPacket name octet ++ stale
        peeraddr := peerA
        Length := (rrqPacket name octet).length }
      log := (initWorld s pb).log } fresh _
    (tftpGetMode_rrqPacket name stale hname) hS.allocName hfresh hr rfl hS.port
    (chunk_length_le _ _) (hS.send _)
  rw [hacc]
  simp only
  rw [if_neg (by decide), if_neg (by decide)]
  have htake : (fit SEGSIZE (chunk content 1 ++ (fit SEGSIZE fresh).drop (chunk content 1).length)).take
      (chunk content 1).length = chunk content 1 :=
    fit_take_left _ _ _ (chunk_length_le _ _)
  refine ⟨_, storedName (rrqPacket name octet ++ stale), rfl, ⟨rfl,
    ⟨_, rfl, fit_length _ _, ?_⟩, rfl, rfl, rfl, ?_⟩, rfl⟩
  · simpa [chunkProvider] using htake
  · simp only [chunkProvider, htake, transferLog, initWorld, List.nil_append]

theorem serves_servingEnv (content : List Nat) : Serves (servingEnv content) content :=
  ⟨rfl, rfl, by simp [servingEnv], ⟨by simp [servingEnv], by simp [servingEnv],
    by simp [servingEnv], by simp [servingEnv]⟩, fun _ => rfl⟩

/-- While the blocks acknowledged are full, the acknowledging client keeps the session
running: after `n` acknowledgments, starting with the one of block `i`, block `i + n` has
been sent. -/
theorem client_run (env : Env) (name content : List Nat) (hS : Serves env content) :
    ∀ (n i : Nat) (w : World), 1 ≤ i → Sent name content i w →
      (∀ k, i ≤ k → k < i + n → (chunk content k).length = SEGSIZE) → i + n ≤ 65535 →
      ∃ w', ackingClient env n w = Outcome.running w' ∧ Sent name content (i + n) w' ∧
        (1 ≤ n → w'.tftp.MaxSyncError = MAX_SYNC_TRIES) := by
  intro n
  induction n with
  | zero =>
    intro i w _ hSent _ _
    exact ⟨w, rfl, hSent, fun h => absurd h (by decide)⟩
  | succ n ih =>
    intro i w hi hSent hfull hbound
    obtain ⟨j, rfl⟩ : ∃ j, i = j + 1 := ⟨i - 1, by omega⟩
    have hlast : lastPacket w.log = some (dataPacket (j + 1) (chunk content (j + 1))) := by
      rw [hSent.hlog, lastPacket_transferLog]
    obtain ⟨w1, h1, hS1, hm1⟩ := ack_step_next env name content (j + 1) w hS hSent (by omega)
      (hfull (j + 1) (by omega) (by omega))
    obtain ⟨w2, h2, hS2, hm2⟩ := ih (j + 1 + 1) w1 (by omega) hS1
      (fun k hk1 hk2 => hfull k (by omega) (by omega)) (by omega)
    refine ⟨w2, ?_, ?_, ?_⟩
    · simp only [ackingClient, hlast, rd16_dataPacket_block _ _ (show j + 1 < 65536 by omega), h1, h2]
    · rw [show j + 1 + (n + 1) = j + 1 + 1 + n by omega]; exact hS2
    · intro _
      by_cases hn : 1 ≤ n
      · exact hm2 hn
      · have hn0 : n = 0 := by omega
        subst hn0
        simp only [ackingClient] at h2
        injection h2 with h2
        rw [← h2]; exact hm1

/-- From block `i` on, `d` full blocks before the short block `i + d`: with fuel for more
than `d` acknowledgments the acknowledging client completes the transfer, the log being
the one of the whole transfer. -/
theorem client_finish (env : Env) (name content : List Nat) (hS : Serves env content) :
    ∀ (d i : Nat) (w : World), 1 ≤ i → Sent name content i w →
      (∀ k, i ≤ k → k < i + d → (chunk content k).length = SEGSIZE) →
      (chunk content (i + d)).length < SEGSIZE → i + d ≤ 65534 →
      ∃ w', (∀ fuel, d + 1 ≤ fuel → ackingClient env fuel w = Outcome.completed w') ∧
        w'.log = transferLog name peerA content (i + d) := by
  intro d
  induction d with
  | zero =>
    intro i w hi hSent _ hshort hbound
    obtain ⟨j, rfl⟩ : ∃ j, i = j + 1 := ⟨i - 1, by omega⟩
    have hlast : lastPacket w.log = some (dataPacket (j + 1) (chunk content (j + 1))) := by
      rw [hSent.hlog, lastPacket_transferLog]
    obtain ⟨w1, h1, hl1⟩ := ack_step_complete env name content (j + 1) w hSent (by omega) hshort
    refine ⟨w1, ?_, by rw [hl1, hSent.hlog]⟩
    intro fuel hf
    obtain ⟨f, rfl⟩ : ∃ f, fuel = f + 1 := ⟨fuel - 1, by omega⟩
    simp only [ackingClient, hlast, rd16_dataPacket_block _ _ (show j + 1 < 65536 by omega), h1]
  | succ d ih =>
    intro i w hi hSent hfull hshort hbound
    obtain ⟨j, rfl⟩ : ∃ j, i = j + 1 := ⟨i - 1, by omega⟩
    have hlast : lastPacket w.log = some (dataPacket (j + 1) (chunk content (j + 1))) := by
      rw [hSent.hlog, lastPacket_transferLog]
    obtain ⟨w1, h1, hS1, _⟩ := ack_step_next env name content (j + 1) w hS hSent (by omega)
      (hfull (j + 1) (by omega) (by omega))
    obtain ⟨w2, h2, hl2⟩ := ih (j + 1 + 1) w1 (by omega) hS1
      (fun k hk1 hk2 => hfull k (by omega) (by omega))
      (by rw [show j + 1 + 1 + d = j + 1 + (d + 1) by omega]; exact hshort) (by omega)
    refine ⟨w2, ?_, by rw [hl2, show j + 1 + 1 + d = j + 1 + (d + 1) by omega]⟩
    intro fuel hf
    obtain ⟨f, rfl⟩ : ∃ f, fuel = f + 1 := ⟨fuel - 1, by omega⟩
    simp only [ackingClient, hlast, rd16_dataPacket_block _ _ (show j + 1 < 65536 by omega), h1]
    exact h2 f (by omega)

theorem payloads_sent (content : List Nat) (n : Nat) :
    (((List.range n).map (fun j => dataPacket (j + 1) (chunk content (j + 1)))).map
      (fun p => p.drop TFTP_HEADER)).flatten = content.take (SEGSIZE * n) := by
  rw [List.map_map, ← chunks_take]
  congr 1

/-- C1: a provider serves `content` (length `L < 65534 * 512`) in 512-byte chunks without
error, nothing else fails, and the client acknowledges every Data packet with that
packet's block number. Then the session started by an octet Request keeps running for
fewer than `L / 512 + 1` acknowledgments and is completed by acknowledgment number
`L / 512 + 1`; at that point exactly `L / 512 + 1` packets were sent, the `k`-th being the
Data packet with block number `k` and chunk `k` as payload; the payloads concatenated in
order are `content`; every chunk before the last has 512 bytes and the last has
`L mod 512` (none when `L` is a multiple of 512). -/
theorem transfer_completes (env : Env) (content name : List Nat) (s : Option Nat)
    (pb : List Nat) (hS : Serves env content) (hL : content.length < 65534 * 512)
    (hname : ∀ c ∈ name, c ≠ 0) (hfit : (rrqPacket name octet).length ≤ DATA_SIZE) :
    ∃ w1 w',
      mainLoop (initWorld s pb) [{ read := recvFrom (rrqPacket name octet), env := env }]
        = Outcome.running w1 ∧
      (∀ fuel, fuel < content.length / 512 + 1 →
        ∃ w, ackingClient env fuel w1 = Outcome.running w ∧
          sentPackets w.log = (List.range (fuel + 1)).map
            (fun j => dataPacket (j + 1) (chunk content (j + 1)))) ∧
      (∀ fuel, content.length / 512 + 1 ≤ fuel →
        ackingClient env fuel w1 = Outcome.completed w') ∧
      sentPackets w'.log = (List.range (content.length / 512 + 1)).map
        (fun j => dataPacket (j + 1) (chunk content (j + 1))) ∧
      (sentPackets w'.log).length = content.length / 512 + 1 ∧
      ((sentPackets w'.log).map (fun p => p.drop TFTP_HEADER)).flatten = content ∧
      (∀ k, 1 ≤ k → k ≤ content.length / 512 → (chunk content k).length = 512) ∧
      (chunk content (content.length / 512 + 1)).length = content.length % 512 := by
  have hseg : SEGSIZE = 512 := rfl
  have hdm := Nat.div_add_mod content.length 512
  have hmod : content.length % 512 < 512 := Nat.mod_lt _ (by decide)
  have hfullk : ∀ k, 1 ≤ k → k ≤ content.length / 512 → (chunk content k).length = 512 := by
    intro k hk1 hk2
    rw [← hseg]
    apply chunk_full content k _ hk1
    rw [hseg]
    have : 512 * k ≤ 512 * (content.length / 512) := Nat.mul_le_mul_left _ hk2
    omega
  have hlastk : (chunk content (content.length / 512 + 1)).length = content.length % 512 := by
    have := chunk_last content
    rwa [hseg] at this
  obtain ⟨w1, stored, h1, hSent1, _⟩ := request_step_sent env content name s pb hS hname hfit
  obtain ⟨w', hdone, hlog⟩ := client_finish env stored content hS (content.length / 512) 1 w1
    (le_refl 1) hSent1
    (fun k hk1 hk2 => by rw [hseg]; exact hfullk k hk1 (by omega))
    (by rw [show 1 + content.length / 512 = content.length / 512 + 1 by omega, hlastk, hseg]
        exact hmod)
    (by omega)
  have hsent : sentPackets w'.log = (List.range (content.length / 512 + 1)).map
      (fun j => dataPacket (j + 1) (chunk content (j + 1))) := by
    rw [hlog, sentPackets_transferLog,
      show 1 + content.length / 512 = content.length / 512 + 1 by omega]
  refine ⟨w1, w', h1, ?_, ?_, hsent, ?_, ?_, hfullk, hlastk⟩
  · intro fuel hf
    obtain ⟨w, hw, hSw, _⟩ := client_run env stored content hS fuel 1 w1 (le_refl 1) hSent1
      (fun k hk1 hk2 => by rw [hseg]; exact hfullk k hk1 (by omega)) (by omega)
    refine ⟨w, hw, ?_⟩
    rw [hSw.hlog, sentPackets_transferLog, show 1 + fuel = fuel + 1 by omega]
  · intro fuel hf
    exact hdone fuel (by omega)
  · rw [hsent]; simp
  · rw [hsent, payloads_sent]
    apply List.take_of_length_le
    rw [hseg]
    omega

/-- The claim's scenario, L = 1000, obtained from the general statement: two
acknowledgments complete the session, the packets sent being block 1 and block 2. -/
theorem transfer_completes_witness :
    ∃ w1 w',
      mainLoop (initWorld (some 1) [])
        [{ read := recvFrom (rrqPacket [97] octet), env := servingEnv (List.replicate 1000 7) }]
        = Outcome.running w1 ∧
      ackingClient (servingEnv (List.replicate 1000 7)) 2 w1 = Outcome.completed w' ∧
      sentPackets w'.log = (List.range (1000 / 512 + 1)).map
        (fun j => dataPacket (j + 1) (chunk (List.replicate 1000 7) (j + 1))) ∧
      (chunk (List.replicate 1000 7) 1).length = 512 ∧
      (chunk (List.replicate 1000 7) 2).length = 488 := by
  obtain ⟨w1, w', h1, _, h3, h4, _, _, h7, h8⟩ :=
    transfer_completes (servingEnv (List.replicate 1000 7)) (List.replicate 1000 7) [97] (some 1)
      [] (serves_servingEnv _) (by rw [List.length_replicate]; decide) (by decide) (by decide)
  simp only [List.length_replicate] at h3 h4 h7 h8
  exact ⟨w1, w', h1, h3 2 (by decide), h4, h7 1 (by decide) (by decide), h8⟩

set_option maxRecDepth 1000000 in
/-- The scenario of the specification evaluated: a 1000-byte resource, the Request, then
the acknowledgments of block 1 and of block 2. Block 1 carries 512 bytes, block 2 carries
488 bytes, and the session is completed by the acknowledgment of block 2. -/
theorem transfer_1000_bytes :
    ∃ w1 w2,
      mainLoop (initWorld (some 1) [])
        [stepOf (List.replicate 1000 7) (rrqPacket [97] octet),
         stepOf (List.replicate 1000 7) (ackPacket 1)] = Outcome.running w1 ∧
      mainLoop (initWorld (some 1) [])
        [stepOf (List.replicate 1000 7) (rrqPacket [97] octet),
         stepOf (List.replicate 1000 7) (ackPacket 1),
         stepOf (List.replicate 1000 7) (ackPacket 2)] = Outcome.completed w2 ∧
      sentPackets w1.log = [dataPacket 1 (List.replicate 512 7), dataPacket 2 (List.replicate 488 7)] ∧
      sentPackets w2.log = [dataPacket 1 (List.replicate 512 7), dataPacket 2 (List.replicate 488 7)] := by
  refine ⟨_, _, rfl, rfl, ?_, ?_⟩ <;> decide

theorem ackingClient_succ (env : Env) :
    ∀ (n : Nat) (w : World), ackingClient env (n + 1) w =
      match ackingClient env n w with
      | Outcome.running w' => ackingClient env 1 w'
      | o => o := by
  intro n
  induction n with
  | zero => intro w; rfl
  | succ n ih =>
    intro w
    rw [ackingClient]
    conv_rhs => rw [ackingClient]
    cases hl : lastPacket w.log with
    | none => simp only [ackingClient, hl]
    | some p =>
      simp only
      cases hm : mainLoop w [{ read := recvFrom (ackPacket (rd16 p 2)), env := env }] with
      | running w' => simp only; exact ih w'
      | aborted w' => rfl
      | completed w' => rfl
      | undefined => rfl

/-- In a transfer the test of the code lets an Acknowledgment pass exactly when the
block counter is not 0 and the acknowledged number is the one of the block most
recently sent. -/
theorem ack_matches_iff (t : TFTP) (hb : t.NextBlock < 65536) (ServerBlock : Nat) :
    ((t.NextBlock : Int) - 1 = (ServerBlock : Int)) ↔
      (t.NextBlock ≠ 0 ∧ ServerBlock = lastSent t) := by
  unfold lastSent
  constructor
  · intro h; constructor <;> omega
  · rintro ⟨h1, h2⟩; omega

/-- The state of a transfer after `n = 65534` acknowledged blocks of a resource with at
least that many full blocks: block `n + 1 = 65535` was sent, the counter has wrapped, and
the acknowledgment of that block makes the session send the block again. -/
theorem wrap_after_65534 (env : Env) (name content : List Nat) (s : Option Nat)
    (pb : List Nat) (n : Nat) (hn : n = 65534) (hS : Serves env content)
    (hL : 65534 * 512 ≤ content.length)
    (hname : ∀ c ∈ name, c ≠ 0) (hfit : (rrqPacket name octet).length ≤ DATA_SIZE) :
    ∃ w1 w w',
      mainLoop (initWorld s pb) [{ read := recvFrom (rrqPacket name octet), env := env }]
        = Outcome.running w1 ∧
      ackingClient env n w1 = Outcome.running w ∧
      w.tftp.NextBlock = 0 ∧
      lastPacket w.log = some (dataPacket (n + 1) (chunk content (n + 1))) ∧
      ackingClient env (n + 1) w1 = Outcome.running w' ∧
      w'.log = w.log ++ [Event.sendto (dataPacket (n + 1) (chunk content (n + 1))) peerA] ∧
      w'.tftp.MaxSyncError = 3 := by
  have hseg : SEGSIZE = 512 := rfl
  obtain ⟨w1, stored, h1, hSent1, _⟩ := request_step_sent env content name s pb hS hname hfit
  obtain ⟨w, hw, hSw, hmw⟩ := client_run env stored content hS n 1 w1 (le_refl 1) hSent1
    (fun k hk1 hk2 => chunk_full content k (by rw [hseg]; omega) hk1) (by omega)
  rw [show 1 + n = n + 1 by omega] at hSw
  have hlast : lastPacket w.log = some (dataPacket (n + 1) (chunk content (n + 1))) := by
    rw [hSw.hlog, lastPacket_transferLog]
  obtain ⟨w', hstep, hlog', hm'⟩ := ack_step_wrapped env stored content (n + 1) w hS (by omega)
    hSw (hmw (by omega))
  refine ⟨w1, w, w', h1, hw, ?_, hlast, ?_, hlog', hm'.1⟩
  · rw [hSw.hblock]; omega
  · rw [ackingClient_succ, hw]
    simp only [ackingClient, hlast, rd16_dataPacket_block _ _ (show n + 1 < 65536 by omega), hstep]

/-- C4 (defect of the code): a resource of `65534 * 512 + 3` bytes is served to a client
that acknowledges every Data packet with that packet's block number. After 65534
acknowledgments the Data packet most recently sent is block 65535, the last block, with 3
bytes, and the 16-bit counter has wrapped to 0. The acknowledgment carrying exactly that
number, 65535, is not treated as matching: the session is not completed, it sends block
65535 again and the resync budget drops to 3. -/
theorem ack_of_block_65535_mismatches :
    ∃ w1 w w',
      mainLoop (initWorld (some 1) [])
        [{ read := recvFrom (rrqPacket [97] octet), env := servingEnv bigContent }]
        = Outcome.running w1 ∧
      ackingClient (servingEnv bigContent) 65534 w1 = Outcome.running w ∧
      w.tftp.NextBlock = 0 ∧
      lastPacket w.log = some (dataPacket 65535 (chunk bigContent 65535)) ∧
      (chunk bigContent 65535).length = 3 ∧
      ackingClient (servingEnv bigContent) 65535 w1 = Outcome.running w' ∧
      w'.log = w.log ++ [Event.sendto (dataPacket 65535 (chunk bigContent 65535)) peerA] ∧
      w'.tftp.MaxSyncError = 3 := by
  have hlen : bigContent.length = 33553411 := List.length_replicate _ _
  obtain ⟨w1, w, w', h1, h2, h3, h4, h5, h6, h7⟩ :=
    wrap_after_65534 (servingEnv bigContent) [97] bigContent (some 1) [] 65534 rfl
      (serves_servingEnv _) (by rw [hlen]; decide) (by decide) (by decide)
  have hshort : (chunk bigContent 65535).length = 3 := by
    have h := chunk_last bigContent
    rw [hlen] at h
    exact h
  exact ⟨w1, w, w', h1, h2, h3, h4, hshort, h5, h6, h7⟩

set_option maxRecDepth 1000000 in
/-- C5 (defect of the code): the Request path does not set the resync budget, which is 0
from the initial `bzero`. After an accepted Request, four consecutive Acknowledgments
for block 0 (mismatched: block 1 is awaited) do not fail the session: each one lowers the
counter below zero, so the test `MaxSyncError == 0` is never true, and block 1 is sent
again each time. After the four mismatches the session is still running, the budget
stands at -4, and five Data packets were sent. -/
theorem no_budget_after_request :
    ∃ w,
      mainLoop (initWorld (some 1) [])
        [stepOf [1, 2, 3] (rrqPacket [97] octet),
         stepOf [1, 2, 3] (ackPacket 0), stepOf [1, 2, 3] (ackPacket 0),
         stepOf [1, 2, 3] (ackPacket 0), stepOf [1, 2, 3] (ackPacket 0)] = Outcome.running w ∧
      w.tftp.MaxSyncError = -4 ∧
      sentPackets w.log = [dataPacket 1 [1, 2, 3], dataPacket 1 [1, 2, 3], dataPacket 1 [1, 2, 3],
        dataPacket 1 [1, 2, 3], dataPacket 1 [1, 2, 3]] := by
  refine ⟨_, rfl, ?_, ?_⟩ <;> decide

/-! ## The order of provider calls and block numbers -/

theorem blockSeq_append (l1 l2 : List Event) :
    ∀ k, blockSeq k (l1 ++ l2) = (blockSeq k l1).bind (fun k' => blockSeq k' l2) := by
  induction l1 with
  | nil => intro k; rfl
  | cons e l ih =>
    intro k
    cases e with
    | request n b =>
      simp only [List.cons_append, blockSeq]
      split_ifs
      · exact ih _
      · rfl
    | sendto p d =>
      simp only [List.cons_append, blockSeq]
      split_ifs
      · exact ih _
      · rfl

theorem blockSeq_calls (log : List Event) :
    ∀ k0 k, blockSeq k0 log = some k → k0 ≤ k ∧ calledBlocks log = List.range' (k0 + 1) (k - k0) := by
  induction log with
  | nil =>
    intro k0 k h
    simp only [blockSeq, Option.some.injEq] at h
    subst h
    simp [calledBlocks]
  | cons e l ih =>
    intro k0 k h
    cases e with
    | request n b =>
      simp only [blockSeq] at h
      split_ifs at h with hb
      obtain ⟨h1, h2⟩ := ih _ _ h
      refine ⟨by omega, ?_⟩
      rw [calledBlocks, h2, hb, show k - k0 = (k - (k0 + 1)) + 1 by omega, List.range'_succ]
    | sendto p d =>
      simp only [blockSeq] at h
      split_ifs at h
      exact ih _ _ h

theorem blockSeq_resend (log : List Event) (k : Nat) (payload : List Nat) (d : sockaddr_in)
    (hk : k < 65536) (h : blockSeq 0 log = some k) :
    blockSeq 0 (log ++ [Event.sendto (dataPacket k payload) d]) = some k := by
  rw [blockSeq_append, h]
  simp [blockSeq, rd16_dataPacket_block _ _ hk]

theorem blockSeq_call (log : List Event) (k : Nat) (name : List Nat)
    (h : blockSeq 0 log = some k) :
    blockSeq 0 (log ++ [Event.request name (k + 1)]) = some (k + 1) := by
  rw [blockSeq_append, h]
  simp [blockSeq]

theorem blockSeq_call_error (log : List Event) (k c : Nat) (name : List Nat) (d : sockaddr_in)
    (h : blockSeq 0 log = some k) :
    blockSeq 0 (log ++ [Event.request name (k + 1), Event.sendto (errorPacket c) d])
      = some (k + 1) := by
  rw [blockSeq_append, h]
  simp [blockSeq, rd16_errorPacket_op]

theorem blockSeq_call_data (log : List Event) (k : Nat) (name payload : List Nat)
    (d : sockaddr_in) (hk : k + 1 < 65536) (h : blockSeq 0 log = some k) :
    blockSeq 0 (log ++ [Event.request name (k + 1), Event.sendto (dataPacket (k + 1) payload) d])
      = some (k + 1) := by
  rw [blockSeq_append, h]
  simp [blockSeq, rd16_dataPacket_block _ _ hk]

/-- One Acknowledgment processed in a transfer whose log is in order: the log stays in
order, and if the session goes on it is again a transfer in order. -/
theorem caseACK_ordered (env : Env) (w : World) (hO : InOrder w) :
    ∃ rc w', caseACK env w = some (rc, w') ∧
      (∃ k, blockSeq 0 w'.log = some k ∧ lastSent w.tftp ≤ k) ∧
      (rc < 0 ∨ rc = 1 ∨ (rc = 0 ∧ InOrder w')) := by
  obtain ⟨name, buf, hT, hseq⟩ := hO
  have hb := hT.hblock
  have hls : lastSent w.tftp < 65536 := by unfold lastSent; omega
  by_cases hmis : (w.tftp.NextBlock : Int) - 1 ≠ (rd16 w.tftp.PacketBuffer 2 : Int)
  · by_cases hm : w.tftp.MaxSyncError = 1
    · exact ⟨_, _, caseACK_exhausted env w name buf hT hmis hm, ⟨_, hseq, le_refl _⟩,
        Or.inl (by decide)⟩
    · by_cases hs : env.sendto (dataPacket (lastSent w.tftp) (buf.take w.tftp.BufferSize))
          = ((dataPacket (lastSent w.tftp) (buf.take w.tftp.BufferSize)).length : Int)
      · refine ⟨_, _, caseACK_resend env w name buf hT hmis hm hs,
          ⟨_, blockSeq_resend _ _ _ _ hls hseq, le_refl _⟩, Or.inr (Or.inr ⟨rfl, name, buf, ?_, ?_⟩)⟩
        · exact ⟨hT.hname, hT.hbuf, hT.hlen, hT.hsize, hT.hblock⟩
        · exact blockSeq_resend _ _ _ _ hls hseq
      · obtain ⟨w', h1, h2⟩ := caseACK_resend_fail env w name buf hT hmis hm hs
        exact ⟨_, w', h1, ⟨_, by rw [h2]; exact blockSeq_resend _ _ _ _ hls hseq, le_refl _⟩,
          Or.inl (by decide)⟩
  · have hmatch : (w.tftp.NextBlock : Int) - 1 = (rd16 w.tftp.PacketBuffer 2 : Int) := by
      simpa using hmis
    have hnb : w.tftp.NextBlock = lastSent w.tftp + 1 := by unfold lastSent; omega
    by_cases hlast : w.tftp.BufferSize < SEGSIZE
    · exact ⟨_, _, caseACK_complete env w name buf hT hmatch hlast, ⟨_, hseq, le_refl _⟩,
        Or.inr (Or.inl rfl)⟩
    · by_cases herr : (env.g_pfnRequest name buf w.tftp.BufferSize w.tftp.NextBlock).error
          = TFTP_ERR_NONE
      · by_cases hsz : (env.g_pfnRequest name buf w.tftp.BufferSize w.tftp.NextBlock).bufferSize
            ≤ SEGSIZE
        · by_cases hs : env.sendto (dataPacket w.tftp.NextBlock
              ((fit SEGSIZE (env.g_pfnRequest name buf w.tftp.BufferSize w.tftp.NextBlock).buffer).take
                (env.g_pfnRequest name buf w.tftp.BufferSize w.tftp.NextBlock).bufferSize))
            = ((dataPacket w.tftp.NextBlock
              ((fit SEGSIZE (env.g_pfnRequest name buf w.tftp.BufferSize w.tftp.NextBlock).buffer).take
                (env.g_pfnRequest name buf w.tftp.BufferSize w.tftp.NextBlock).bufferSize)).length : Int)
          · have hlog := blockSeq_call_data w.log (lastSent w.tftp) name
              ((fit SEGSIZE (env.g_pfnRequest name buf w.tftp.BufferSize w.tftp.NextBlock).buffer).take
                (env.g_pfnRequest name buf w.tftp.BufferSize w.tftp.NextBlock).bufferSize)
              w.tftp.peeraddr (by omega) hseq
            rw [← hnb] at hlog
            refine ⟨_, _, caseACK_next env w name buf hT hmatch hlast herr hsz hs,
              ⟨_, hlog, by omega⟩, Or.inr (Or.inr ⟨rfl, name,
                fit SEGSIZE (env.g_pfnRequest name buf w.tftp.BufferSize w.tftp.NextBlock).buffer,
                ?_, ?_⟩)⟩
            · exact ⟨hT.hname, rfl, fit_length _ _, hsz, Nat.mod_lt _ (by decide)⟩
            · rw [hlog]
              exact congrArg some (by simp only [lastSent]; omega)
          · obtain ⟨w', h1, h2⟩ := caseACK_next_sendfail env w name buf hT hmatch hlast herr hsz hs
            have hlog := blockSeq_call_data w.log (lastSent w.tftp) name
              ((fit SEGSIZE (env.g_pfnRequest name buf w.tftp.BufferSize w.tftp.NextBlock).buffer).take
                (env.g_pfnRequest name buf w.tftp.BufferSize w.tftp.NextBlock).bufferSize)
              w.tftp.peeraddr (by omega) hseq
            rw [← hnb] at hlog
            exact ⟨_, w', h1, ⟨_, by rw [h2]; exact hlog, by omega⟩, Or.inl (by decide)⟩
        · obtain ⟨w', h1, h2⟩ := caseACK_oversize env w name buf hT hmatch hlast herr hsz
          have hlog := blockSeq_call w.log (lastSent w.tftp) name hseq
          rw [← hnb] at hlog
          exact ⟨_, w', h1, ⟨_, by rw [h2]; exact hlog, by omega⟩, Or.inl (by decide)⟩
      · obtain ⟨w', h1, h2⟩ := caseACK_provider_error env w name buf hT hmatch hlast herr
        have hlog := blockSeq_call_error w.log (lastSent w.tftp)
          (toU16 (env.g_pfnRequest name buf w.tftp.BufferSize w.tftp.NextBlock).error) name
          w.tftp.peeraddr hseq
        rw [← hnb] at hlog
        exact ⟨_, w', h1, ⟨_, by rw [h2]; exact hlog, by omega⟩, Or.inl (by decide)⟩

theorem mainLoop_cons (w : World) (s : Step) (rest : List Step) :
    mainLoop w (s :: rest) =
      match mainLoop w [s] with
      | Outcome.running w' => mainLoop w' rest
      | o => o := by
  simp only [mainLoop]
  cases tftpReadPacket s.read.TimeStart s.read.attempts w.tftp with
  | none => rfl
  | some r =>
    simp only
    split_ifs with h1
    · rfl
    · cases tftpProcessPacket s.env { tftp := r.2, log := w.log } with
      | none => rfl
      | some p =>
        simp only
        split_ifs <;> rfl

theorem mainLoop_single_of (w : World) (s : Step) (t' : TFTP) (rc : Int) (w' : World)
    (hread : tftpReadPacket s.read.TimeStart s.read.attempts w.tftp = some (0, t'))
    (hproc : tftpProcessPacket s.env { w with tftp := t' } = some (rc, w')) :
    mainLoop w [s] =
      if rc < 0 then Outcome.aborted w'
      else if rc = 1 then Outcome.completed w' else Outcome.running w' := by
  simp only [mainLoop, hread, hproc]
  rw [if_neg (by decide)]

/-- What `tftpReadPacket` returns when the first attempt delivers a datagram: either the
deadline check fires and the length is 0, or the datagram is in the packet buffer. -/
theorem tftpReadPacket_datagram (TimeStart : Nat) (a : Attempt) (more : List Attempt)
    (bytes : List Nat) (src : sockaddr_in) (t : TFTP)
    (ha : a.recv = RecvResult.datagram bytes src) :
    tftpReadPacket TimeStart (a :: more) t = some (0, { t with Length := 0 }) ∨
    tftpReadPacket TimeStart (a :: more) t = some (0, { t with
      PacketBuffer := writeAt t.PacketBuffer 0 (bytes.take DATA_SIZE)
      peeraddr := src
      Length := (bytes.take DATA_SIZE).length }) := by
  by_cases hexp : (TimeStart + TFTP_SOCK_TIMEOUT) % 4294967296 ≤ a.now
  · left; simp [tftpReadPacket, hexp]
  · right; simp [tftpReadPacket, hexp, ha]

theorem take_cons_cons_length (a b : Nat) (bytes : List Nat) :
    ((a :: b :: bytes).take DATA_SIZE).length ≠ 0 ∧
      ∃ tail, (a :: b :: bytes).take DATA_SIZE = a :: b :: tail := by
  have : DATA_SIZE = 514 + 2 := rfl
  rw [this]
  simp [List.take_succ_cons]

/-- A run of Acknowledgment steps from a transfer in order: the run is defined and its
log is in order. -/
theorem ack_loop_ordered :
    ∀ (later : List Step) (w : World), InOrder w → (∀ st ∈ later, isAckStep st) →
      ∃ w' k, (mainLoop w later).world? = some w' ∧ blockSeq 0 w'.log = some k ∧
        lastSent w.tftp ≤ k := by
  intro later
  induction later with
  | nil =>
    intro w hO _
    obtain ⟨name, buf, hT, hseq⟩ := hO
    exact ⟨w, _, rfl, hseq, le_refl _⟩
  | cons st rest ih =>
    intro w hO hall
    obtain ⟨a, more, bytes, src, hatt, hrecv⟩ := hall st (by simp)
    have hrest : ∀ st ∈ rest, isAckStep st := fun x hx => hall x (by simp [hx])
    obtain ⟨name, buf, hT, hseq⟩ := hO
    rw [mainLoop_cons]
    rcases tftpReadPacket_datagram st.read.TimeStart a more _ src w.tftp hrecv with hread | hread
    · -- the deadline check fired: a read of zero bytes
      rw [← hatt] at hread
      have hproc : tftpProcessPacket st.env { w with tftp := { w.tftp with Length := 0 } }
          = some (TFTPERROR_FAILED, { w with tftp := { w.tftp with
              Length := 0, szFileName := Ptr.dangling, Buffer := Ptr.dangling } }) := by
        simp [tftpProcessPacket, abortCleanup, hT.hname, hT.hbuf, release]
      rw [mainLoop_single_of w st _ _ _ hread hproc, if_pos (by decide)]
      exact ⟨_, _, rfl, hseq, le_refl _⟩
    · rw [← hatt] at hread
      obtain ⟨hlen, tail, htake⟩ := take_cons_cons_length 0 4 bytes
      have hO' : InOrder { w with tftp := { w.tftp with
          PacketBuffer := writeAt w.tftp.PacketBuffer 0 ((0 :: 4 :: bytes).take DATA_SIZE)
          peeraddr := src
          Length := ((0 :: 4 :: bytes).take DATA_SIZE).length } } :=
        ⟨name, buf, ⟨hT.hname, hT.hbuf, hT.hlen, hT.hsize, hT.hblock⟩, hseq⟩
      obtain ⟨rc, w', hcase, ⟨k, hk, hle⟩, hrc⟩ := caseACK_ordered st.env _ hO'
      have hproc := tftpProcessPacket_ack st.env { w with tftp := { w.tftp with
          PacketBuffer := writeAt w.tftp.PacketBuffer 0 ((0 :: 4 :: bytes).take DATA_SIZE)
          peeraddr := src
          Length := ((0 :: 4 :: bytes).take DATA_SIZE).length } } hlen
        (by simp only [htake]; simp [writeAt, rd16, ACK])
      rw [hcase] at hproc
      rw [mainLoop_single_of w st _ _ _ hread hproc]
      rcases hrc with hneg | hone | ⟨hzero, hO''⟩
      · rw [if_pos hneg]
        exact ⟨_, _, rfl, hk, hle⟩
      · rw [hone, if_neg (by decide), if_pos rfl]
        exact ⟨_, _, rfl, hk, hle⟩
      · rw [hzero, if_neg (by decide), if_neg (by decide)]
        obtain ⟨w'', k', h1, h2, h3⟩ := ih w' hO'' hrest
        obtain ⟨n2, b2, hT2, hseq2⟩ := hO''
        have : k = lastSent w'.tftp := by
          rw [hk] at hseq2; exact Option.some.inj hseq2
        exact ⟨w'', k', h1, h2, by
          have hle' : lastSent w.tftp ≤ k := hle
          omega⟩

theorem mainLoop_single_at (w : World) (s : Step) (t' : TFTP) (w0 : World) (rc : Int)
    (w' : World)
    (hread : tftpReadPacket s.read.TimeStart s.read.attempts w.tftp = some (0, t'))
    (hw0 : ({ w with tftp := t' } : World) = w0)
    (hproc : tftpProcessPacket s.env w0 = some (rc, w')) :
    mainLoop w [s] =
      if rc < 0 then Outcome.aborted w'
      else if rc = 1 then Outcome.completed w' else Outcome.running w' := by
  subst hw0
  exact mainLoop_single_of w s t' rc w' hread hproc

/-- The first iteration reads a Request and the session goes on: the Request was accepted,
the session is a transfer in order with one provider call made. -/
theorem request_step_ordered (s : Option Nat) (pb : List Nat) (first : Step) (w1 : World)
    (hreq : isRequestStep first)
    (haccept : mainLoop (initWorld s pb) [first] = Outcome.running w1) :
    InOrder w1 ∧ lastSent w1.tftp = 1 := by
  obtain ⟨a, more, bytes, src, hatt, hrecv⟩ := hreq
  rcases tftpReadPacket_datagram first.read.TimeStart a more _ src (initWorld s pb).tftp hrecv
    with hread | hread
  · rw [← hatt] at hread
    have hproc : tftpProcessPacket first.env
        { initWorld s pb with tftp := { (initWorld s pb).tftp with Length := 0 } }
        = some (TFTPERROR_FAILED,
          { initWorld s pb with tftp := { (initWorld s pb).tftp with Length := 0 } }) := by
      have h1 : (initWorld s pb).tftp.szFileName = Ptr.null := rfl
      have h2 : (initWorld s pb).tftp.Buffer = Ptr.null := rfl
      simp only [tftpProcessPacket, abortCleanup, if_true, h1, h2, release]
    rw [mainLoop_single_of _ first _ _ _ hread hproc, if_pos (by decide)] at haccept
    exact absurd haccept (by simp)
  · rw [← hatt] at hread
    obtain ⟨hlen, tail, htake⟩ := take_cons_cons_length 0 1 bytes
    generalize hw0 : ({ initWorld s pb with tftp := { (initWorld s pb).tftp with
          PacketBuffer := writeAt (initWorld s pb).tftp.PacketBuffer 0
            ((0 :: 1 :: bytes).take DATA_SIZE)
          peeraddr := src
          Length := ((0 :: 1 :: bytes).take DATA_SIZE).length } } : World) = w0
    have hlog0 : w0.log = [] := by rw [← hw0]; rfl
    have hn0 : w0.tftp.szFileName ≠ Ptr.dangling := by
      rw [← hw0]; show Ptr.null ≠ Ptr.dangling; exact fun h => Ptr.noConfusion h
    have hb0 : w0.tftp.Buffer ≠ Ptr.dangling := by
      rw [← hw0]; show Ptr.null ≠ Ptr.dangling; exact fun h => Ptr.noConfusion h
    have hl0 : w0.tftp.Length ≠ 0 := by rw [← hw0]; exact hlen
    have hop0 : rd16 w0.tftp.PacketBuffer 0 = RRQ := by
      rw [← hw0]; simp only [htake]; simp [writeAt, rd16, RRQ]
    have hdisp := tftpProcessPacket_rrq first.env w0 hl0 hop0
    -- every way of not accepting the Request ends the loop
    have hcontra : ∀ (rc : Int) (w' : World), caseRRQ first.env w0 = some (rc, w') → rc < 0 →
        False := by
      intro rc w' hc hneg
      rw [hc] at hdisp
      rw [mainLoop_single_at _ first _ w0 _ _ hread hw0 hdisp, if_pos hneg] at haccept
      exact absurd haccept (by simp)
    by_cases hmode : tftpGetMode w0.tftp.PacketBuffer w0.tftp.Length
        = Except.ok tTFTPMode.TFTP_MODE_OCTET
    swap
    · obtain ⟨w', h1, _⟩ := caseRRQ_reject first.env w0 hmode hn0 hb0
      exact (hcontra _ _ h1 (by decide)).elim
    by_cases hname : first.env.mmAllocName = true
    swap
    · obtain ⟨w', h1, _⟩ := caseRRQ_alloc_fail first.env w0 hmode
        (Or.inl (by simpa using hname)) hb0
      exact (hcontra _ _ h1 (by decide)).elim
    cases hfresh : first.env.mmAllocBuffer with
    | none =>
      obtain ⟨w', h1, _⟩ := caseRRQ_alloc_fail first.env w0 hmode (Or.inr hfresh) hb0
      exact (hcontra _ _ h1 (by decide)).elim
    | some fresh =>
      generalize hr : first.env.g_pfnRequest (storedName w0.tftp.PacketBuffer) (fit SEGSIZE fresh)
        w0.tftp.BufferSize 1 = r
      by_cases herr : r.error = TFTP_ERR_NONE
      swap
      · obtain ⟨w', h1, _⟩ := caseRRQ_error first.env w0 fresh r hmode hname hfresh hr herr
        exact (hcontra _ _ h1 (by decide)).elim
      by_cases hport : portOk first.env
      swap
      · obtain ⟨w', h1, _⟩ := caseRRQ_port_fail first.env w0 fresh r hmode hname hfresh hr herr hport
        exact (hcontra _ _ h1 (by decide)).elim
      by_cases hsz : r.bufferSize ≤ SEGSIZE
      swap
      · obtain ⟨w', h1, _⟩ := caseRRQ_oversize first.env w0 fresh r hmode hname hfresh hr herr
          hport hsz
        exact (hcontra _ _ h1 (by decide)).elim
      by_cases hs : first.env.sendto (dataPacket 1 ((fit SEGSIZE r.buffer).take r.bufferSize))
          = ((dataPacket 1 ((fit SEGSIZE r.buffer).take r.bufferSize)).length : Int)
      swap
      · obtain ⟨w', h1, _⟩ := caseRRQ_sendfail first.env w0 fresh r hmode hname hfresh hr herr
          hport hsz hs
        exact (hcontra _ _ h1 (by decide)).elim
      have hacc := caseRRQ_accept first.env w0 fresh r hmode hname hfresh hr herr hport hsz hs
      rw [hacc] at hdisp
      rw [mainLoop_single_at _ first _ w0 _ _ hread hw0 hdisp, if_neg (by decide),
        if_neg (by decide)] at haccept
      injection haccept with haccept
      subst haccept
      have hls : ∀ t : TFTP, t.NextBlock = 2 → lastSent t = 1 := by
        intro t ht; unfold lastSent; omega
      refine ⟨⟨storedName w0.tftp.PacketBuffer, fit SEGSIZE r.buffer,
        ⟨rfl, rfl, fit_length _ _, hsz, by simp only; omega⟩, ?_⟩, hls _ rfl⟩
      rw [hls _ rfl]
      simp only [hlog0, List.nil_append]
      have h0 : blockSeq 0 ([] : List Event) = some 0 := rfl
      exact blockSeq_call_data [] 0 (storedName w0.tftp.PacketBuffer)
        ((fit SEGSIZE r.buffer).take r.bufferSize) w0.tftp.peeraddr (by omega) h0

/-- C3: in a session whose first datagram is a Request that is accepted and whose later
datagrams are all Acknowledgments (matching or not, whatever the provider, the allocator
and the transport answer), the log is in order at the end of the run: the provider
was called with the block numbers 1, 2, ..., k, each exactly once and in this order, and
every Data packet handed to `sendto` carries the number of the block most recently asked
from the provider. So the first Data packet after the `j`-th call has number `j`, and a
number is repeated only by a packet sent without a provider call in between, the resend, which
carries the number of the block most recently sent. -/
theorem provider_calls_in_order (s : Option Nat) (pb : List Nat) (first : Step)
    (later : List Step) (w1 : World) (hreq : isRequestStep first)
    (haccept : mainLoop (initWorld s pb) [first] = Outcome.running w1)
    (hlater : ∀ st ∈ later, isAckStep st) :
    ∃ w' k, (mainLoop (initWorld s pb) (first :: later)).world? = some w' ∧
      blockSeq 0 w'.log = some k ∧ 1 ≤ k ∧ calledBlocks w'.log = List.range' 1 k := by
  obtain ⟨hO, h1⟩ := request_step_ordered s pb first w1 hreq haccept
  obtain ⟨w', k, hw, hk, hle⟩ := ack_loop_ordered later w1 hO hlater
  refine ⟨w', k, ?_, hk, by omega, ?_⟩
  · rw [mainLoop_cons, haccept]; exact hw
  · have := (blockSeq_calls w'.log 0 k hk).2
    simpa using this

set_option maxRecDepth 1000000 in
/-- The order theorem on a session serving 600 bytes: the Request, a mismatched
Acknowledgment (block 0), then the Acknowledgment of block 1. -/
theorem provider_calls_in_order_witness :
    ∃ w' k, (mainLoop (initWorld (some 1) [])
        (stepOf (List.replicate 600 9) (rrqPacket [97] octet) ::
          [stepOf (List.replicate 600 9) (ackPacket 0),
           stepOf (List.replicate 600 9) (ackPacket 1)])).world? = some w' ∧
      blockSeq 0 w'.log = some k ∧ 1 ≤ k ∧ calledBlocks w'.log = List.range' 1 k := by
  have h : ∃ w1, mainLoop (initWorld (some 1) [])
      [stepOf (List.replicate 600 9) (rrqPacket [97] octet)] = Outcome.running w1 := ⟨_, rfl⟩
  obtain ⟨w1, h1⟩ := h
  exact provider_calls_in_order (some 1) [] (stepOf (List.replicate 600 9) (rrqPacket [97] octet))
    [stepOf (List.replicate 600 9) (ackPacket 0), stepOf (List.replicate 600 9) (ackPacket 1)]
    w1 ⟨_, _, _, _, rfl, rfl⟩ h1
    (by
      intro st hst
      simp only [List.mem_cons, List.mem_singleton, List.not_mem_nil, or_false] at hst
      rcases hst with rfl | rfl
      · exact ⟨_, _, _, _, rfl, rfl⟩
      · exact ⟨_, _, _, _, rfl, rfl⟩)

set_option maxRecDepth 1000000 in
/-- The same session evaluated: the provider is called for blocks 1 and 2, and the packets
sent are block 1, block 1 again (the resend), block 2. -/
theorem order_of_sample_session :
    ∃ w, mainLoop (initWorld (some 1) [])
        [stepOf (List.replicate 600 9) (rrqPacket [97] octet),
         stepOf (List.replicate 600 9) (ackPacket 0),
         stepOf (List.replicate 600 9) (ackPacket 1)] = Outcome.running w ∧
      calledBlocks w.log = [1, 2] ∧
      sentPackets w.log = [dataPacket 1 (List.replicate 512 9), dataPacket 1 (List.replicate 512 9),
        dataPacket 2 (List.replicate 88 9)] ∧
      blockSeq 0 w.log = some 2 := by
  refine ⟨_, rfl, ?_, ?_, ?_⟩ <;> decide

/-! ## Mismatched acknowledgments before the first match -/

/-- A mismatched Acknowledgment (block 0 while block 1 is awaited) when the budget is not
positive: the decrement cannot reach 0, block 1 is sent again and the session goes on. -/
theorem ack_step_unbudgeted (env : Env) (name buf : List Nat) (w : World)
    (hsend : ∀ p, env.sendto p = (p.length : Int))
    (hT : Transferring w.tftp name buf) (hnb : w.tftp.NextBlock = 2)
    (hm : w.tftp.MaxSyncError ≤ 0) (hpeer : w.tftp.peeraddr = peerA) :
    ∃ w', mainLoop w [{ read := recvFrom (ackPacket 0), env := env }] = Outcome.running w' ∧
      Transferring w'.tftp name buf ∧ w'.tftp.NextBlock = 2 ∧
      w'.tftp.MaxSyncError = w.tftp.MaxSyncError - 1 ∧ w'.tftp.peeraddr = peerA ∧
      w'.tftp.BufferSize = w.tftp.BufferSize ∧
      w'.log = w.log ++ [Event.sendto (dataPacket 1 (buf.take w.tftp.BufferSize)) peerA] := by
  obtain ⟨hname, hbuf, hbl, hsize, hblock⟩ := hT
  rcases w with ⟨⟨szFileName, Buffer, BufferSize, Sock, PacketBuffer, Length, NextBlock,
    MaxSyncError, localaddr, peeraddr⟩, log⟩
  simp only at hname hbuf hsize hblock hpeer hnb hm
  subst hname hbuf hpeer hnb
  rw [mainLoop_single, take_ackPacket, length_ackPacket]
  rw [tftpProcessPacket_ack env
    { tftp :=
        { szFileName := Ptr.live name, Buffer := Ptr.live buf, BufferSize := BufferSize,
          Sock := Sock, PacketBuffer := writeAt PacketBuffer 0 (ackPacket 0), Length := 4,
          NextBlock := 2, MaxSyncError := MaxSyncError, localaddr := localaddr,
          peeraddr := peerA },
      log := log } (by simp) (rd16_writeAt_ack_op _ _)]
  have hT : Transferring
      ({ szFileName := Ptr.live name, Buffer := Ptr.live buf, BufferSize := BufferSize,
         Sock := Sock, PacketBuffer := writeAt PacketBuffer 0 (ackPacket 0), Length := 4,
         NextBlock := 2, MaxSyncError := MaxSyncError, localaddr := localaddr,
         peeraddr := peerA } : TFTP) name buf :=
    ⟨rfl, rfl, hbl, hsize, by simp only; omega⟩
  have hls : lastSent
      ({ szFileName := Ptr.live name, Buffer := Ptr.live buf, BufferSize := BufferSize,
         Sock := Sock, PacketBuffer := writeAt PacketBuffer 0 (ackPacket 0), Length := 4,
         NextBlock := 2, MaxSyncError := MaxSyncError, localaddr := localaddr,
         peeraddr := peerA } : TFTP) = 1 := by
    show (2 + 65535) % 65536 = 1
    omega
  have hre := caseACK_resend env
    { tftp :=
        { szFileName := Ptr.live name, Buffer := Ptr.live buf, BufferSize := BufferSize,
          Sock := Sock, PacketBuffer := writeAt PacketBuffer 0 (ackPacket 0), Length := 4,
          NextBlock := 2, MaxSyncError := MaxSyncError, localaddr := localaddr,
          peeraddr := peerA },
      log := log } name buf hT
    (by simp only; rw [rd16_writeAt_ack_block _ _ (by omega)]; omega)
    (by simp only; omega)
    (hsend _)
  rw [hls] at hre
  simp only at hre
  rw [hre]
  simp only
  rw [if_neg (by decide), if_neg (by decide)]
  exact ⟨_, rfl, ⟨rfl, rfl, hbl, hsize, by simp only; omega⟩, rfl, rfl, rfl, rfl, rfl⟩

/-- Any number of mismatched Acknowledgments in a state whose budget is not positive:
the session keeps running and sends block 1 once more for each of them. -/
theorem unbudgeted_run (env : Env) (name buf : List Nat)
    (hsend : ∀ p, env.sendto p = (p.length : Int)) :
    ∀ (n : Nat) (w : World), Transferring w.tftp name buf → w.tftp.NextBlock = 2 →
      w.tftp.MaxSyncError ≤ 0 → w.tftp.peeraddr = peerA →
      ∃ w', mainLoop w (List.replicate n { read := recvFrom (ackPacket 0), env := env })
          = Outcome.running w' ∧
        w'.tftp.MaxSyncError = w.tftp.MaxSyncError - n ∧
        w'.log = w.log ++ List.replicate n
          (Event.sendto (dataPacket 1 (buf.take w.tftp.BufferSize)) peerA) := by
  intro n
  induction n with
  | zero =>
    intro w _ _ _ _
    exact ⟨w, rfl, by simp, by simp⟩
  | succ n ih =>
    intro w hT hnb hm hpeer
    obtain ⟨w1, h1, hT1, hnb1, hm1, hp1, hs1, hl1⟩ :=
      ack_step_unbudgeted env name buf w hsend hT hnb hm hpeer
    obtain ⟨w2, h2, hm2, hl2⟩ := ih w1 hT1 hnb1 (by omega) hp1
    refine ⟨w2, ?_, ?_, ?_⟩
    · rw [List.replicate_succ, mainLoop_cons, h1]
      exact h2
    · rw [hm2, hm1]; push_cast; ring
    · rw [hl2, hl1, hs1, List.replicate_succ]
      simp

/-- The resync budget after an accepted Request is never exhausted: in an environment
where nothing fails, after the Request and any number `n` of mismatched
Acknowledgments (block 0) the session is still running, the counter stands at `-n`, and
block 1 was sent `n + 1` times. -/
theorem mismatches_never_exhaust (env : Env) (content name : List Nat) (s : Option Nat)
    (pb : List Nat) (hS : Serves env content) (hname : ∀ c ∈ name, c ≠ 0)
    (hfit : (rrqPacket name octet).length ≤ DATA_SIZE) (n : Nat) :
    ∃ w, mainLoop (initWorld s pb)
        ({ read := recvFrom (rrqPacket name octet), env := env } ::
          List.replicate n { read := recvFrom (ackPacket 0), env := env }) = Outcome.running w ∧
      w.tftp.MaxSyncError = -(n : Int) ∧
      sentPackets w.log = List.replicate (n + 1) (dataPacket 1 (chunk content 1)) := by
  obtain ⟨w1, stored, h1, hSent1, hm1⟩ := request_step_sent env content name s pb hS hname hfit
  obtain ⟨hnm, ⟨buf, hbuf, hbl, hbt⟩, hsize, hblock, hpeer, hlog⟩ := hSent1
  have hT : Transferring w1.tftp stored buf :=
    ⟨hnm, hbuf, hbl, by rw [hsize]; exact chunk_length_le _ _, by rw [hblock]; omega⟩
  obtain ⟨w, hw, hm, hl⟩ := unbudgeted_run env stored buf hS.send n w1 hT (by rw [hblock])
    (by omega) hpeer
  refine ⟨w, ?_, ?_, ?_⟩
  · rw [mainLoop_cons, h1]; exact hw
  · rw [hm, hm1]; ring
  · rw [hl, hlog, hbt, sentPackets_append, sentPackets_transferLog]
    have : ∀ k (p : List Nat), sentPackets (List.replicate k (Event.sendto p peerA))
        = List.replicate k p := by
      intro k p
      induction k with
      | zero => rfl
      | succ k ih => rw [List.replicate_succ, sentPackets, ih, List.replicate_succ]
    rw [this, List.replicate_succ]
    rfl

/-! ## Reading: the sender of a datagram -/

/-- C18: after a successful receive (the deadline test did not fire and `recvfrom`
delivered a datagram), whatever the sender's address and port and whatever the local port
of the session (well-known or private), `tftpReadPacket` returns on this attempt: the
`RETRY` branch is not taken (the result does not depend on the attempts that would
follow, and is defined when there is none), the return code is 0, the packet length is
the number of bytes read, the peer address of the session is the sender's address, and a
packet sent from that state goes to that address. -/
theorem tftpReadPacket_keeps_datagram (TimeStart : Nat) (a : Attempt) (more : List Attempt)
    (bytes : List Nat) (src : sockaddr_in) (t : TFTP)
    (hlive : ¬ (TimeStart + TFTP_SOCK_TIMEOUT) % 4294967296 ≤ a.now)
    (hrecv : a.recv = RecvResult.datagram bytes src) :
    tftpReadPacket TimeStart (a :: more) t = some (0, { t with
      PacketBuffer := writeAt t.PacketBuffer 0 (bytes.take DATA_SIZE)
      peeraddr := src
      Length := (bytes.take DATA_SIZE).length }) ∧
    tftpReadPacket TimeStart (a :: more) t = tftpReadPacket TimeStart [a] t ∧
    (bytes.take DATA_SIZE).length = min DATA_SIZE bytes.length ∧
    ∀ (env : Env) (log : List Event),
      (tftpSend env { tftp := { t with
          PacketBuffer := writeAt t.PacketBuffer 0 (bytes.take DATA_SIZE)
          peeraddr := src
          Length := (bytes.take DATA_SIZE).length }, log := log }).2.log
        = log ++ [Event.sendto ((writeAt t.PacketBuffer 0 (bytes.take DATA_SIZE)).take
            (bytes.take DATA_SIZE).length) src] := by
  refine ⟨?_, ?_, ?_, ?_⟩
  · simp [tftpReadPacket, hlive, hrecv]
  · simp [tftpReadPacket, hlive, hrecv]
  · simp
  · intro env log
    simp [tftpSend, packet]

set_option maxRecDepth 1000000 in
/-- A session on its private port 50000 reading a datagram sent from port 1234 of another
host: the datagram is returned and the peer address becomes that sender. -/
theorem tftpReadPacket_keeps_datagram_witness :
    ¬ (0 + TFTP_SOCK_TIMEOUT) % 4294967296 ≤ (attemptFromB [0, 4, 0, 2]).now ∧
    (transferWith []).tftp.localaddr.sin_port = 50000 ∧
    tftpReadPacket 0 [attemptFromB [0, 4, 0, 2]] (transferWith []).tftp
      = some (0, { (transferWith []).tftp with
          PacketBuffer := writeAt (transferWith []).tftp.PacketBuffer 0 ([0, 4, 0, 2].take DATA_SIZE)
          peeraddr := peerB
          Length := ([0, 4, 0, 2].take DATA_SIZE).length }) :=
  ⟨by decide, by decide,
   (tftpReadPacket_keeps_datagram 0 (attemptFromB [0, 4, 0, 2]) [] [0, 4, 0, 2] peerB
      (transferWith []).tftp (by decide) rfl).1⟩

/-! ## Datagrams before a Request is accepted -/

/-- While no Request is accepted the two blocks are null pointers and the cleanup of
`tftpProcessPacket` changes nothing. -/
theorem abortCleanup_null (rc : Int) (w : World) (hname : w.tftp.szFileName = Ptr.null)
    (hbuf : w.tftp.Buffer = Ptr.null) : abortCleanup rc w = some (rc, w) := by
  rcases w with ⟨⟨szFileName, Buffer, BufferSize, Sock, PacketBuffer, Length, NextBlock,
    MaxSyncError, localaddr, peeraddr⟩, log⟩
  simp only at hname hbuf
  subst hname hbuf
  rfl

/-- A Request that `tftpGetMode` does not decode as octet, before any Request is accepted:
the call fails and the state is unchanged. -/
theorem caseRRQ_reject_null (env : Env) (w : World)
    (hmode : tftpGetMode w.tftp.PacketBuffer w.tftp.Length ≠ Except.ok tTFTPMode.TFTP_MODE_OCTET)
    (hname : w.tftp.szFileName = Ptr.null) (hbuf : w.tftp.Buffer = Ptr.null) :
    caseRRQ env w = some (TFTPERROR_FAILED, w) := by
  unfold caseRRQ
  cases hg : tftpGetMode w.tftp.PacketBuffer w.tftp.Length with
  | error rc =>
    have hrc : rc = TFTPERROR_FAILED := by
      unfold tftpGetMode at hg
      simp only at hg
      split_ifs at hg
      simp_all
    subst hrc
    exact abortCleanup_null _ w hname hbuf
  | ok mode =>
    have hm : mode ≠ tTFTPMode.TFTP_MODE_OCTET := fun h => hmode (by rw [hg, h])
    simp only [hm, ne_eq, not_false_eq_true, if_true]
    exact abortCleanup_null _ w hname hbuf

/-- A non-empty datagram whose opcode is neither Request nor Acknowledgment, before any
Request is accepted: the call returns 0 and the state is unchanged. -/
theorem tftpProcessPacket_other_null (env : Env) (w : World) (hl : w.tftp.Length ≠ 0)
    (h1 : rd16 w.tftp.PacketBuffer 0 ≠ RRQ) (h2 : rd16 w.tftp.PacketBuffer 0 ≠ ACK)
    (hname : w.tftp.szFileName = Ptr.null) (hbuf : w.tftp.Buffer = Ptr.null) :
    tftpProcessPacket env w = some (0, w) := by
  simp only [tftpProcessPacket, hl, h1, h2, if_false]
  exact abortCleanup_null _ w hname hbuf
set_option maxRecDepth 1000000 in
/-- C11 as written fails: a Data packet for block 1 arriving as the first datagram of a
session does not make the session fail. The loop goes on with nothing sent, and the
Request for "a" that follows is accepted and answered with the first block. -/
theorem data_before_request_ignored :
    (∃ w, mainLoop (initWorld (some 1) []) [stepOf [1, 2, 3] (dataPacket 1 [7])]
        = Outcome.running w ∧ w.log = []) ∧
    ∃ w, mainLoop (initWorld (some 1) [])
        [stepOf [1, 2, 3] (dataPacket 1 [7]), stepOf [1, 2, 3] (rrqPacket [97] octet)]
      = Outcome.running w ∧ sentPackets w.log = [dataPacket 1 [1, 2, 3]] :=
  ⟨⟨_, rfl, by decide⟩, _, rfl, by decide⟩

/-- C11, amended: before any Request is accepted (the name block and the content block are
null), a non-empty datagram carrying a Request that `tftpGetMode` does not decode as octet
makes the session fail, and a non-empty datagram whose opcode is neither Request nor
Acknowledgment (Data, Error, write request, unknown opcode) is ignored: the session goes
on waiting. In both cases no packet is sent, the provider is not called, and the state
after the iteration is the state after the read. -/
theorem awaiting_request_datagram (env : Env) (w : World) (bytes : List Nat)
    (hname : w.tftp.szFileName = Ptr.null) (hbuf : w.tftp.Buffer = Ptr.null)
    (hne : bytes ≠ []) :
    (rd16 (writeAt w.tftp.PacketBuffer 0 (bytes.take DATA_SIZE)) 0 = RRQ →
      tftpGetMode (writeAt w.tftp.PacketBuffer 0 (bytes.take DATA_SIZE))
        (bytes.take DATA_SIZE).length ≠ Except.ok tTFTPMode.TFTP_MODE_OCTET →
      ∃ w', mainLoop w [{ read := recvFrom bytes, env := env }] = Outcome.aborted w' ∧
        w'.log = w.log) ∧
    (rd16 (writeAt w.tftp.PacketBuffer 0 (bytes.take DATA_SIZE)) 0 ≠ RRQ →
      rd16 (writeAt w.tftp.PacketBuffer 0 (bytes.take DATA_SIZE)) 0 ≠ ACK →
      ∃ w', mainLoop w [{ read := recvFrom bytes, env := env }] = Outcome.running w' ∧
        w'.log = w.log ∧ w'.tftp.szFileName = Ptr.null ∧ w'.tftp.Buffer = Ptr.null ∧
        w'.tftp.NextBlock = w.tftp.NextBlock ∧ w'.tftp.localaddr = w.tftp.localaddr) := by
  have hl : (bytes.take DATA_SIZE).length ≠ 0 := by
    cases bytes with
    | nil => exact absurd rfl hne
    | cons b bs => simp [DATA_SIZE, SEGSIZE, TFTP_HEADER]
  constructor
  · intro hop hmode
    have hres : mainLoop w [{ read := recvFrom bytes, env := env }] = Outcome.aborted
        { w with tftp := { w.tftp with
            PacketBuffer := writeAt w.tftp.PacketBuffer 0 (bytes.take DATA_SIZE)
            peeraddr := peerA
            Length := (bytes.take DATA_SIZE).length } } := by
      have hp := caseRRQ_reject_null env
        ({ w with tftp := { w.tftp with
            PacketBuffer := writeAt w.tftp.PacketBuffer 0 (bytes.take DATA_SIZE)
            peeraddr := peerA
            Length := (bytes.take DATA_SIZE).length } } : World) hmode hname hbuf
      rw [← tftpProcessPacket_rrq env
        ({ w with tftp := { w.tftp with
            PacketBuffer := writeAt w.tftp.PacketBuffer 0 (bytes.take DATA_SIZE)
            peeraddr := peerA
            Length := (bytes.take DATA_SIZE).length } } : World) hl hop] at hp
      rw [mainLoop_single, hp]
      rfl
    exact ⟨_, hres, rfl⟩
  · intro h1 h2
    have hres : mainLoop w [{ read := recvFrom bytes, env := env }] = Outcome.running
        { w with tftp := { w.tftp with
            PacketBuffer := writeAt w.tftp.PacketBuffer 0 (bytes.take DATA_SIZE)
            peeraddr := peerA
            Length := (bytes.take DATA_SIZE).length } } := by
      have hp := tftpProcessPacket_other_null env
        ({ w with tftp := { w.tftp with
            PacketBuffer := writeAt w.tftp.PacketBuffer 0 (bytes.take DATA_SIZE)
            peeraddr := peerA
            Length := (bytes.take DATA_SIZE).length } } : World) hl h1 h2 hname hbuf
      rw [mainLoop_single, hp]
      rfl
    exact ⟨_, hres, rfl, hname, hbuf, rfl, rfl⟩

set_option maxRecDepth 1000000 in
/-- The amended C11 on a fresh session: a Request for "a" in mode "netascii" makes it fail,
an Error packet is ignored, and neither sends anything. -/
theorem awaiting_request_datagram_witness :
    (∃ w', mainLoop (initWorld (some 1) [])
        [{ read := recvFrom (rrqPacket [97] netascii), env := servingEnv [1, 2, 3] }]
      = Outcome.aborted w' ∧ w'.log = []) ∧
    (∃ w', mainLoop (initWorld (some 1) [])
        [{ read := recvFrom (errorPacket 1), env := servingEnv [1, 2, 3] }]
      = Outcome.running w' ∧ w'.log = []) :=
  ⟨(awaiting_request_datagram (servingEnv [1, 2, 3]) (initWorld (some 1) [])
      (rrqPacket [97] netascii) rfl rfl (by decide)).1 (by decide)
      (fun h => by
        cases (show Except.ok tTFTPMode.TFTP_MODE_NETASCII = _ from rfl).trans h),
   ((awaiting_request_datagram (servingEnv [1, 2, 3]) (initWorld (some 1) [])
      (errorPacket 1) rfl rfl (by decide)).2 (by decide) (by decide)).imp
      (fun _ h => ⟨h.1, h.2.1⟩)⟩

set_option maxRecDepth 1000000 in
/-- An Acknowledgment arriving before any Request is not ignored either, and it does send
a packet: the block counter 0 makes every block number a mismatch (C4), `tftpReSync` lowers
the budget from 0 to -1 and sends a Data packet with block number 65535 and no payload to
the sender. -/
theorem ack_before_request_sends :
    ∃ w, mainLoop (initWorld (some 1) []) [stepOf [1, 2, 3] (ackPacket 0)]
        = Outcome.running w ∧ w.log = [Event.sendto (dataPacket 65535 []) peerA] ∧
      w.tftp.MaxSyncError = -1 :=
  ⟨_, rfl, by decide, by decide⟩

/-! ## The entry point: timeouts and exits -/

theorem mainLoop_append (w : World) (pre rest : List Step) :
    mainLoop w (pre ++ rest) =
      match mainLoop w pre with
      | Outcome.running w' => mainLoop w' rest
      | o => o := by
  induction pre generalizing w with
  | nil => rfl
  | cons s pre ih =>
    rw [List.cons_append, mainLoop_cons w s (pre ++ rest), mainLoop_cons w s pre]
    cases mainLoop w [s] with
    | running w' => exact ih w'
    | aborted w' => rfl
    | completed w' => rfl
    | undefined => rfl

/-- A read on which the deadline has passed or `recvfrom` timed out returns 0 with packet
length 0 and leaves the rest of the state alone. -/
theorem tftpReadPacket_timeout (st : Step) (t : TFTP) (ht : isTimeoutStep st) :
    tftpReadPacket st.read.TimeStart st.read.attempts t = some (0, { t with Length := 0 }) := by
  obtain ⟨a, more, hatt, h⟩ := ht
  rw [hatt]
  by_cases hexp : (st.read.TimeStart + TFTP_SOCK_TIMEOUT) % 4294967296 ≤ a.now
  · simp [tftpReadPacket, hexp]
  · rcases h with h | h
    · exact absurd h hexp
    · simp [tftpReadPacket, hexp, h]

/-- With packet length 0 `tftpProcessPacket` goes to its cleanup with the failure code. -/
theorem tftpProcessPacket_empty (env : Env) (w : World) (hl : w.tftp.Length = 0)
    (hn : w.tftp.szFileName ≠ Ptr.dangling) (hb : w.tftp.Buffer ≠ Ptr.dangling) :
    ∃ n b, tftpProcessPacket env w = some (TFTPERROR_FAILED,
      { w with tftp := { w.tftp with szFileName := n, Buffer := b } }) := by
  obtain ⟨n, b, h⟩ := abortCleanup_some TFTPERROR_FAILED w hn hb
  exact ⟨n, b, by unfold tftpProcessPacket; rw [if_pos hl]; exact h⟩

/-- The entry point once its initialisation has succeeded: the result is read off the
outcome of the main loop. -/
theorem dtask_tftp_booted (boot : Boot) (s : Option Nat) (pb : List Nat) (steps : List Step)
    (hreg : boot.registered = true) (halloc : boot.mmAllocTftp = true)
    (hpb : boot.mmAllocPacket = some pb) (hsnd : 0 ≤ boot.setsockoptSnd)
    (hrcv : 0 ≤ boot.setsockoptRcv) :
    dtask_tftp boot s steps =
      match mainLoop (initWorld s pb) steps with
      | Outcome.running w => Session.waiting w
      | Outcome.undefined => Session.undefined
      | Outcome.aborted w => Session.returned (atABORT w)
      | Outcome.completed w =>
        if (tftpSocketRestart boot.restartBind w.tftp).1 < 0 then
          Session.returned (atABORT { w with tftp := (tftpSocketRestart boot.restartBind w.tftp).2 })
        else
          Session.returned
            (atLEAVE 1 false { w with tftp := (tftpSocketRestart boot.restartBind w.tftp).2 }) := by
  simp only [dtask_tftp, hreg, halloc, hpb, not_lt.mpr hsnd, not_lt.mpr hrcv]
  cases mainLoop (initWorld s pb) steps <;> simp

/-- C12: a session whose initialisation succeeded has run some iterations and waits, either
for a Request (both blocks null) or in a transfer (both blocks live). If the next read
delivers zero bytes, because the deadline has passed or because `recvfrom` timed out, then
`tftpReadPacket` returns 0 with length 0, `tftpProcessPacket` returns the negative code
`TFTPERROR_FAILED` without touching the log, and `dtask_tftp` returns 0 whatever steps
would follow: the log at exit is the log before the timeout, so nothing is sent after
it. -/
theorem timeout_stops_session (boot : Boot) (s : Option Nat) (pb : List Nat)
    (pre post : List Step) (st : Step) (w : World)
    (hreg : boot.registered = true) (halloc : boot.mmAllocTftp = true)
    (hpb : boot.mmAllocPacket = some pb) (hsnd : 0 ≤ boot.setsockoptSnd)
    (hrcv : 0 ≤ boot.setsockoptRcv)
    (hrun : mainLoop (initWorld s pb) pre = Outcome.running w)
    (hstate : (w.tftp.szFileName = Ptr.null ∧ w.tftp.Buffer = Ptr.null) ∨
      ∃ name buf, Transferring w.tftp name buf)
    (ht : isTimeoutStep st) :
    tftpReadPacket st.read.TimeStart st.read.attempts w.tftp
      = some (0, { w.tftp with Length := 0 }) ∧
    (∃ w', tftpProcessPacket st.env { w with tftp := { w.tftp with Length := 0 } }
        = some (TFTPERROR_FAILED, w') ∧ w'.log = w.log) ∧
    TFTPERROR_FAILED < 0 ∧
    ∃ e, dtask_tftp boot s (pre ++ st :: post) = Session.returned e ∧ e.rc = 0 ∧
      e.log = w.log := by
  have hread := tftpReadPacket_timeout st w.tftp ht
  have hn : w.tftp.szFileName ≠ Ptr.dangling := by
    rcases hstate with ⟨h, _⟩ | ⟨name, buf, hT⟩
    · rw [h]; exact fun h => Ptr.noConfusion h
    · rw [hT.hname]; exact fun h => Ptr.noConfusion h
  have hb : w.tftp.Buffer ≠ Ptr.dangling := by
    rcases hstate with ⟨_, h⟩ | ⟨name, buf, hT⟩
    · rw [h]; exact fun h => Ptr.noConfusion h
    · rw [hT.hbuf]; exact fun h => Ptr.noConfusion h
  obtain ⟨w', hproc, hlog⟩ : ∃ w', tftpProcessPacket st.env
      { w with tftp := { w.tftp with Length := 0 } } = some (TFTPERROR_FAILED, w') ∧
      w'.log = w.log := by
    obtain ⟨n, b, hproc⟩ := tftpProcessPacket_empty st.env
      ({ w with tftp := { w.tftp with Length := 0 } } : World) rfl hn hb
    exact ⟨_, hproc, rfl⟩
  refine ⟨hread, ⟨w', hproc, hlog⟩, by decide, ?_⟩
  have hone := mainLoop_single_of w st _ _ _ hread hproc
  rw [if_pos (by decide)] at hone
  have hloop : mainLoop (initWorld s pb) (pre ++ st :: post) = Outcome.aborted w' := by
    rw [mainLoop_append, hrun]
    simp only
    rw [mainLoop_cons, hone]
  refine ⟨atABORT w', ?_, rfl, hlog⟩
  rw [dtask_tftp_booted boot s pb _ hreg halloc hpb hsnd hrcv, hloop]

set_option maxRecDepth 1000000 in
/-- The scenario of C12: the Request for "a" is answered with block 1, the acknowledgment
never arrives and the read times out. The entry point returns 0 and the only packet ever
sent is block 1, although an acknowledgment arrives afterwards. -/
theorem timeout_stops_session_witness :
    ∃ e, dtask_tftp bootOk (some 1)
        ([stepOf [1, 2, 3] (rrqPacket [97] octet)] ++
          { read := recvTimeout, env := servingEnv [1, 2, 3] } ::
            [stepOf [1, 2, 3] (ackPacket 1)])
      = Session.returned e ∧ e.rc = 0 ∧
      e.log = [Event.request [97, 0] 1, Event.sendto (dataPacket 1 [1, 2, 3]) peerA] :=
  (timeout_stops_session bootOk (some 1) [] [stepOf [1, 2, 3] (rrqPacket [97] octet)]
    [stepOf [1, 2, 3] (ackPacket 1)] { read := recvTimeout, env := servingEnv [1, 2, 3] }
    _ rfl rfl rfl (by decide) (by decide) rfl
    (Or.inr ⟨[97, 0], fit SEGSIZE [1, 2, 3], rfl, rfl, by decide, by decide, by decide⟩)
    ⟨_, _, rfl, Or.inr rfl⟩).2.2.2

set_option maxRecDepth 1000000 in
/-- The other way a read delivers zero bytes, in a session that waits for a Request: the
deadline of the read has elapsed. The entry point returns 0 with an empty log, the local
port still being 69. -/
theorem deadline_before_request :
    ∃ e, dtask_tftp bootOk (some 1) [{ read := recvDeadline, env := servingEnv [1, 2, 3] }]
      = Session.returned e ∧ e.rc = 0 ∧ e.log = [] ∧
      e.released.localaddr.sin_port = PORT_TFTP :=
  ⟨_, rfl, by decide, by decide, by decide⟩

set_option maxRecDepth 1000000 in
/-- C17 as written fails: the Request for "a" is accepted, the session switches to its
private endpoint (the port of the peer, 50000), and then the read times out. The entry
point returns 0 through `ABORT`; the state it releases still has the local port 50000, not
69: `tftpSocketRestart` is not called on this path and the socket is closed instead. -/
theorem failed_exit_keeps_private_port :
    ∃ e, dtask_tftp bootOk (some 1)
        [stepOf [1, 2, 3] (rrqPacket [97] octet),
          { read := recvTimeout, env := servingEnv [1, 2, 3] }]
      = Session.returned e ∧ e.rc = 0 ∧ e.released.localaddr.sin_port = 50000 ∧
      e.closed = true ∧ PORT_TFTP = 69 :=
  ⟨_, rfl, by decide, by decide, by decide, by decide⟩

/-- C17, amended: for a session whose initialisation succeeded, the exit path taken when
the loop ends with Completed calls `tftpSocketRestart`, so the state released has the local
port 69 (the entry point returns 1 with the socket left open if the new `bind` succeeds,
and 0 with the socket closed if it fails); on the exit path taken when the loop ends with
Failed the entry point returns 0, the state released is the state the loop left, local
port included, and the socket is closed if it is valid. -/
theorem dtask_tftp_exit_port (boot : Boot) (s : Option Nat) (pb : List Nat)
    (steps : List Step)
    (hreg : boot.registered = true) (halloc : boot.mmAllocTftp = true)
    (hpb : boot.mmAllocPacket = some pb) (hsnd : 0 ≤ boot.setsockoptSnd)
    (hrcv : 0 ≤ boot.setsockoptRcv) :
    (∀ w, mainLoop (initWorld s pb) steps = Outcome.completed w →
      ∃ e, dtask_tftp boot s steps = Session.returned e ∧
        e.released.localaddr.sin_port = PORT_TFTP ∧
        e.rc = (if boot.restartBind < 0 then 0 else 1) ∧
        e.closed = (if boot.restartBind < 0 then decide (w.tftp.Sock ≠ none) else false)) ∧
    (∀ w, mainLoop (initWorld s pb) steps = Outcome.aborted w →
      ∃ e, dtask_tftp boot s steps = Session.returned e ∧ e.rc = 0 ∧
        e.released = w.tftp ∧ e.closed = decide (w.tftp.Sock ≠ none)) := by
  constructor
  · intro w hw
    rw [dtask_tftp_booted boot s pb _ hreg halloc hpb hsnd hrcv, hw]
    by_cases hbind : boot.restartBind < 0
    · refine ⟨atABORT { w with tftp := (tftpSocketRestart boot.restartBind w.tftp).2 }, ?_, rfl,
        ?_, ?_⟩
      · simp [tftpSocketRestart, hbind, TFTPERROR_SOCKET]
      · simp [hbind, atABORT, atLEAVE]
      · simp [hbind, atABORT, atLEAVE, tftpSocketRestart]
    · refine ⟨atLEAVE 1 false { w with tftp := (tftpSocketRestart boot.restartBind w.tftp).2 },
        ?_, rfl, ?_, ?_⟩
      · simp [tftpSocketRestart, hbind]
      · simp [hbind, atLEAVE]
      · simp [hbind, atLEAVE]
  · intro w hw
    rw [dtask_tftp_booted boot s pb _ hreg halloc hpb hsnd hrcv, hw]
    exact ⟨atABORT w, rfl, rfl, rfl, rfl⟩

set_option maxRecDepth 1000000 in
/-- The amended C17 on a complete transfer of three bytes: the Request and the
acknowledgment of block 1 end the loop with Completed, and the state released has the
local port 69 again. -/
theorem dtask_tftp_exit_port_witness :
    ∃ e, dtask_tftp bootOk (some 1)
        [stepOf [1, 2, 3] (rrqPacket [97] octet), stepOf [1, 2, 3] (ackPacket 1)]
      = Session.returned e ∧ e.released.localaddr.sin_port = PORT_TFTP ∧ e.rc = 1 ∧
      e.closed = false :=
  ((dtask_tftp_exit_port bootOk (some 1) []
    [stepOf [1, 2, 3] (rrqPacket [97] octet), stepOf [1, 2, 3] (ackPacket 1)]
    rfl rfl rfl (by decide) (by decide)).1 _ rfl).imp
    (fun _ h => ⟨h.1, h.2.1, h.2.2.1, h.2.2.2⟩)

/-! ## Mismatched acknowledgments in a transfer -/

/-- A read whose first attempt, made before the deadline, delivers a datagram. -/
theorem tftpReadPacket_live (TimeStart : Nat) (a : Attempt) (more : List Attempt)
    (bytes : List Nat) (src : sockaddr_in) (t : TFTP)
    (hlive : ¬ (TimeStart + TFTP_SOCK_TIMEOUT) % 4294967296 ≤ a.now)
    (hrecv : a.recv = RecvResult.datagram bytes src) :
    tftpReadPacket TimeStart (a :: more) t = some (0, { t with
      PacketBuffer := writeAt t.PacketBuffer 0 (bytes.take DATA_SIZE)
      peeraddr := src
      Length := (bytes.take DATA_SIZE).length }) := by
  simp [tftpReadPacket, hlive, hrecv]

/-- One iteration on an Acknowledgment for a block `k` other than the one awaited, with
budget left after the decrement and a working transport: the block most recently sent is
sent again, to the sender of the Acknowledgment, and only the packet buffer, the packet
length, the peer address, the budget and the log change. -/
theorem mismatch_step_resend (w : World) (st : Step) (a : Attempt) (more : List Attempt)
    (k : Nat) (src : sockaddr_in) (name buf : List Nat)
    (hatt : st.read.attempts = a :: more)
    (hlive : ¬ (st.read.TimeStart + TFTP_SOCK_TIMEOUT) % 4294967296 ≤ a.now)
    (hrecv : a.recv = RecvResult.datagram (ackPacket k) src) (hk : k < 65536)
    (hT : Transferring w.tftp name buf)
    (hmis : (w.tftp.NextBlock : Int) - 1 ≠ (k : Int))
    (hm : w.tftp.MaxSyncError ≠ 1)
    (hs : st.env.sendto (dataPacket (lastSent w.tftp) (buf.take w.tftp.BufferSize))
      = ((dataPacket (lastSent w.tftp) (buf.take w.tftp.BufferSize)).length : Int)) :
    mainLoop w [st] = Outcome.running
      { tftp := { w.tftp with
          PacketBuffer := writeAt
            (recvLoop (writeAt w.tftp.PacketBuffer 0 (ackPacket k)) st.env.queued) 0
            (be16 DATA ++ be16 (lastSent w.tftp) ++ buf.take w.tftp.BufferSize)
          Length := 0
          peeraddr := src
          MaxSyncError := w.tftp.MaxSyncError - 1 }
        log := w.log ++ [Event.sendto
          (dataPacket (lastSent w.tftp) (buf.take w.tftp.BufferSize)) src] } := by
  obtain ⟨hname, hbuf, hbl, hsize, hblock⟩ := hT
  rcases w with ⟨⟨szFileName, Buffer, BufferSize, Sock, PacketBuffer, Length, NextBlock,
    MaxSyncError, localaddr, peeraddr⟩, log⟩
  simp only at hname hbuf hsize hblock hmis hm hs
  subst hname hbuf
  have hread := tftpReadPacket_live st.read.TimeStart a more (ackPacket k) src
    { szFileName := Ptr.live name, Buffer := Ptr.live buf, BufferSize := BufferSize,
      Sock := Sock, PacketBuffer := PacketBuffer, Length := Length,
      NextBlock := NextBlock, MaxSyncError := MaxSyncError, localaddr := localaddr,
      peeraddr := peeraddr } hlive hrecv
  rw [← hatt, take_ackPacket, length_ackPacket] at hread
  have hT : Transferring
      ({ szFileName := Ptr.live name, Buffer := Ptr.live buf, BufferSize := BufferSize,
         Sock := Sock, PacketBuffer := writeAt PacketBuffer 0 (ackPacket k), Length := 4,
         NextBlock := NextBlock, MaxSyncError := MaxSyncError, localaddr := localaddr,
         peeraddr := src } : TFTP) name buf :=
    ⟨rfl, rfl, hbl, hsize, hblock⟩
  have hre := caseACK_resend st.env
    { tftp :=
        { szFileName := Ptr.live name, Buffer := Ptr.live buf, BufferSize := BufferSize,
          Sock := Sock, PacketBuffer := writeAt PacketBuffer 0 (ackPacket k), Length := 4,
          NextBlock := NextBlock, MaxSyncError := MaxSyncError, localaddr := localaddr,
          peeraddr := src },
      log := log } name buf hT
    (by simp only; rw [rd16_writeAt_ack_block _ _ hk]; exact hmis)
    hm hs
  rw [← tftpProcessPacket_ack st.env
    { tftp :=
        { szFileName := Ptr.live name, Buffer := Ptr.live buf, BufferSize := BufferSize,
          Sock := Sock, PacketBuffer := writeAt PacketBuffer 0 (ackPacket k), Length := 4,
          NextBlock := NextBlock, MaxSyncError := MaxSyncError, localaddr := localaddr,
          peeraddr := src },
      log := log } (by simp) (rd16_writeAt_ack_op _ _)] at hre
  rw [mainLoop_single_at
    { tftp :=
        { szFileName := Ptr.live name, Buffer := Ptr.live buf, BufferSize := BufferSize,
          Sock := Sock, PacketBuffer := PacketBuffer, Length := Length,
          NextBlock := NextBlock, MaxSyncError := MaxSyncError, localaddr := localaddr,
          peeraddr := peeraddr },
      log := log } st _ _ _ _ hread rfl hre, if_neg (by decide), if_neg (by decide)]
  rfl

/-- One iteration on an Acknowledgment for a block other than the one awaited when the
budget is 1: the decrement reaches 0, nothing is sent and the session fails. -/
theorem mismatch_step_exhausted (w : World) (st : Step) (a : Attempt) (more : List Attempt)
    (k : Nat) (src : sockaddr_in) (name buf : List Nat)
    (hatt : st.read.attempts = a :: more)
    (hlive : ¬ (st.read.TimeStart + TFTP_SOCK_TIMEOUT) % 4294967296 ≤ a.now)
    (hrecv : a.recv = RecvResult.datagram (ackPacket k) src) (hk : k < 65536)
    (hT : Transferring w.tftp name buf)
    (hmis : (w.tftp.NextBlock : Int) - 1 ≠ (k : Int))
    (hm : w.tftp.MaxSyncError = 1) :
    ∃ w', mainLoop w [st] = Outcome.aborted w' ∧ w'.log = w.log ∧
      w'.tftp.MaxSyncError = 0 := by
  obtain ⟨hname, hbuf, hbl, hsize, hblock⟩ := hT
  rcases w with ⟨⟨szFileName, Buffer, BufferSize, Sock, PacketBuffer, Length, NextBlock,
    MaxSyncError, localaddr, peeraddr⟩, log⟩
  simp only at hname hbuf hsize hblock hmis hm
  subst hname hbuf hm
  have hread := tftpReadPacket_live st.read.TimeStart a more (ackPacket k) src
    { szFileName := Ptr.live name, Buffer := Ptr.live buf, BufferSize := BufferSize,
      Sock := Sock, PacketBuffer := PacketBuffer, Length := Length,
      NextBlock := NextBlock, MaxSyncError := 1, localaddr := localaddr,
      peeraddr := peeraddr } hlive hrecv
  rw [← hatt, take_ackPacket, length_ackPacket] at hread
  have hT : Transferring
      ({ szFileName := Ptr.live name, Buffer := Ptr.live buf, BufferSize := BufferSize,
         Sock := Sock, PacketBuffer := writeAt PacketBuffer 0 (ackPacket k), Length := 4,
         NextBlock := NextBlock, MaxSyncError := 1, localaddr := localaddr,
         peeraddr := src } : TFTP) name buf :=
    ⟨rfl, rfl, hbl, hsize, hblock⟩
  have hre := caseACK_exhausted st.env
    { tftp :=
        { szFileName := Ptr.live name, Buffer := Ptr.live buf, BufferSize := BufferSize,
          Sock := Sock, PacketBuffer := writeAt PacketBuffer 0 (ackPacket k), Length := 4,
          NextBlock := NextBlock, MaxSyncError := 1, localaddr := localaddr,
          peeraddr := src },
      log := log } name buf hT
    (by simp only; rw [rd16_writeAt_ack_block _ _ hk]; exact hmis)
    rfl
  rw [← tftpProcessPacket_ack st.env
    { tftp :=
        { szFileName := Ptr.live name, Buffer := Ptr.live buf, BufferSize := BufferSize,
          Sock := Sock, PacketBuffer := writeAt PacketBuffer 0 (ackPacket k), Length := 4,
          NextBlock := NextBlock, MaxSyncError := 1, localaddr := localaddr,
          peeraddr := src },
      log := log } (by simp) (rd16_writeAt_ack_op _ _)] at hre
  rw [mainLoop_single_at
    { tftp :=
        { szFileName := Ptr.live name, Buffer := Ptr.live buf, BufferSize := BufferSize,
          Sock := Sock, PacketBuffer := PacketBuffer, Length := Length,
          NextBlock := NextBlock, MaxSyncError := 1, localaddr := localaddr,
          peeraddr := peeraddr },
      log := log } st _ _ _ _ hread rfl hre, if_pos (by decide)]
  exact ⟨_, rfl, rfl, rfl⟩

/-- A run of `n` mismatched Acknowledgments in a transfer whose budget is not positive or
is larger than `n`: the session keeps running, each of them makes it send the block most
recently sent once more, and the budget goes down by `n`. -/
theorem mismatch_run (name buf : List Nat) :
    ∀ (steps : List Step) (w : World), Transferring w.tftp name buf →
      (∀ st ∈ steps, isMismatchStep w.tftp.NextBlock st) →
      (w.tftp.MaxSyncError ≤ 0 ∨ (steps.length : Int) < w.tftp.MaxSyncError) →
      ∃ w', mainLoop w steps = Outcome.running w' ∧ Transferring w'.tftp name buf ∧
        w'.tftp.NextBlock = w.tftp.NextBlock ∧ w'.tftp.BufferSize = w.tftp.BufferSize ∧
        w'.tftp.MaxSyncError = w.tftp.MaxSyncError - (steps.length : Int) ∧
        sentPackets w'.log = sentPackets w.log ++ List.replicate steps.length
          (dataPacket (lastSent w.tftp) (buf.take w.tftp.BufferSize)) := by
  intro steps
  induction steps with
  | nil =>
    intro w hT _ _
    exact ⟨w, rfl, hT, rfl, rfl, by simp, by simp⟩
  | cons st rest ih =>
    intro w hT hall hm
    obtain ⟨a, more, k, src, hatt, hlive, hrecv, hk, hmis, hsend⟩ := hall st (by simp)
    have hm1 : w.tftp.MaxSyncError ≠ 1 := by
      rcases hm with h | h
      · omega
      · simp only [List.length_cons, Nat.cast_add, Nat.cast_one] at h; omega
    obtain ⟨w1, hstep, hT1, hnb1, hbs1, hms1, hlog1⟩ :
        ∃ w1, mainLoop w [st] = Outcome.running w1 ∧ Transferring w1.tftp name buf ∧
          w1.tftp.NextBlock = w.tftp.NextBlock ∧ w1.tftp.BufferSize = w.tftp.BufferSize ∧
          w1.tftp.MaxSyncError = w.tftp.MaxSyncError - 1 ∧
          w1.log = w.log ++ [Event.sendto
            (dataPacket (lastSent w.tftp) (buf.take w.tftp.BufferSize)) src] :=
      ⟨_, mismatch_step_resend w st a more k src name buf hatt hlive hrecv hk hT hmis
        hm1 (hsend _), ⟨hT.hname, hT.hbuf, hT.hlen, hT.hsize, hT.hblock⟩, rfl, rfl, rfl, rfl⟩
    rw [mainLoop_cons, hstep]
    simp only
    have hls : lastSent w1.tftp = lastSent w.tftp := by unfold lastSent; rw [hnb1]
    obtain ⟨w', h1, h2, h3, h4, h5, h6⟩ := ih w1 hT1
      (fun x hx => by rw [hnb1]; exact hall x (by simp [hx]))
      (by
        rcases hm with h | h
        · left; omega
        · right; simp only [List.length_cons, Nat.cast_add, Nat.cast_one] at h
          omega)
    refine ⟨w', h1, h2, by rw [h3, hnb1], by rw [h4, hbs1], ?_, ?_⟩
    · rw [h5, hms1]; simp only [List.length_cons, Nat.cast_add, Nat.cast_one]; omega
    · rw [h6, hlog1, sentPackets_append, hls, hbs1]
      simp only [sentPackets, List.length_cons, List.replicate_succ, List.append_assoc,
        List.singleton_append]

set_option maxRecDepth 1000000 in
/-- C14 as written fails: a 600-byte resource is requested, block 1 is acknowledged (which
sets the budget to 4) and block 2 is sent; then four Acknowledgments for block 0 arrive.
The session fails at the fourth one, and block 2 was sent again three times, not four: the
log holds block 1 and four copies of block 2, the first of which is the original. -/
theorem four_mismatches_three_resends :
    ∃ w2 w, mainLoop (initWorld (some 1) [])
        [stepOf (List.replicate 600 7) (rrqPacket [97] octet),
         stepOf (List.replicate 600 7) (ackPacket 1)] = Outcome.running w2 ∧
      w2.tftp.MaxSyncError = 4 ∧
      mainLoop w2 (List.replicate 4 (stepOf (List.replicate 600 7) (ackPacket 0)))
        = Outcome.aborted w ∧
      sentPackets w.log = dataPacket 1 (List.replicate 512 7) ::
        List.replicate 4 (dataPacket 2 (List.replicate 88 7)) := by
  refine ⟨_, _, rfl, ?_, rfl, ?_⟩ <;> decide

/-- C14, amended: in a transfer whose budget is the full `MAX_SYNC_TRIES` = 4, a run of
consecutive mismatched Acknowledgments makes the session resend the block most recently
sent exactly three times (N - 1): after the first three the session is still running, with
three resends in the log and the budget at 1, and the fourth makes the session fail
without sending anything. -/
theorem full_budget_three_resends (name buf : List Nat) (w : World) (steps : List Step)
    (last : Step) (hT : Transferring w.tftp name buf)
    (hm : w.tftp.MaxSyncError = MAX_SYNC_TRIES) (hlen : steps.length = 3)
    (hall : ∀ st ∈ steps ++ [last], isMismatchStep w.tftp.NextBlock st) :
    (∃ w3, mainLoop w steps = Outcome.running w3 ∧ w3.tftp.MaxSyncError = 1 ∧
      sentPackets w3.log = sentPackets w.log ++ List.replicate 3
        (dataPacket (lastSent w.tftp) (buf.take w.tftp.BufferSize))) ∧
    ∃ w4, mainLoop w (steps ++ [last]) = Outcome.aborted w4 ∧
      sentPackets w4.log = sentPackets w.log ++ List.replicate 3
        (dataPacket (lastSent w.tftp) (buf.take w.tftp.BufferSize)) := by
  obtain ⟨w3, h1, h2, h3, h4, h5, h6⟩ := mismatch_run name buf steps w hT
    (fun st hst => hall st (by simp [hst]))
    (Or.inr (by rw [hm, hlen]; decide))
  have hm3 : w3.tftp.MaxSyncError = 1 := by rw [h5, hm, hlen]; decide
  rw [hlen] at h6
  refine ⟨⟨w3, h1, hm3, h6⟩, ?_⟩
  obtain ⟨a, more, k, src, hatt, hlive, hrecv, hk, hmis, _⟩ := hall last (by simp)
  obtain ⟨w4, h7, h8, _⟩ := mismatch_step_exhausted w3 last a more k src name buf hatt hlive
    hrecv hk h2 (by rw [h3]; exact hmis) hm3
  refine ⟨w4, ?_, by rw [h8, h6]⟩
  rw [mainLoop_append, h1]
  exact h7

set_option maxRecDepth 1000000 in
/-- The amended C14 on the sample transfer, which awaits the acknowledgment of block 2
with a full budget: three Acknowledgments for block 0 make it send block 2 three more
times, and the fourth ends the session with the same packets in the log. -/
theorem full_budget_three_resends_witness :
    ∃ w4, mainLoop (transferWith [])
        (List.replicate 3 (stepOf [] (ackPacket 0)) ++ [stepOf [] (ackPacket 0)])
      = Outcome.aborted w4 ∧
      sentPackets w4.log = sentPackets (transferWith []).log ++
        List.replicate 3 (dataPacket 2 [1, 2, 3]) :=
  (full_budget_three_resends [97, 0] (fit SEGSIZE [1, 2, 3]) (transferWith [])
    (List.replicate 3 (stepOf [] (ackPacket 0))) (stepOf [] (ackPacket 0))
    ⟨rfl, rfl, by decide, by decide, by decide⟩ rfl rfl
    (fun st hst => by
      have hst' : st = stepOf [] (ackPacket 0) := by
        simp only [List.replicate, List.cons_append, List.nil_append, List.mem_cons,
          List.mem_singleton, List.not_mem_nil, or_false, or_self] at hst
        exact hst
      subst hst'
      exact ⟨_, _, 0, peerA, rfl, by decide, rfl, by decide, by decide, fun p => rfl⟩)).2

/-! ## What one call changes: the cleanup, the builders, the sender -/

/-- The cleanup keeps the return code and changes the two block pointers only, neither of
which is live afterwards. -/
theorem abortCleanup_inv (rc : Int) (w : World) (r : Int × World)
    (h : abortCleanup rc w = some r) :
    r.1 = rc ∧ ∃ n b, r.2 = { w with tftp := { w.tftp with szFileName := n, Buffer := b } } ∧
      (∀ x, n ≠ Ptr.live x) ∧ (∀ x, b ≠ Ptr.live x) := by
  unfold abortCleanup at h
  cases hn : w.tftp.szFileName with
  | dangling => rw [hn] at h; simp [release] at h
  | null =>
    cases hb : w.tftp.Buffer with
    | dangling => rw [hn, hb] at h; simp [release] at h
    | null =>
      rw [hn, hb] at h; simp only [release, Option.some.injEq] at h
      subst h
      exact ⟨rfl, _, _, rfl, fun x hx => Ptr.noConfusion hx, fun x hx => Ptr.noConfusion hx⟩
    | live bs =>
      rw [hn, hb] at h; simp only [release, Option.some.injEq] at h
      subst h
      exact ⟨rfl, _, _, rfl, fun x hx => Ptr.noConfusion hx, fun x hx => Ptr.noConfusion hx⟩
  | live ns =>
    cases hb : w.tftp.Buffer with
    | dangling => rw [hn, hb] at h; simp [release] at h
    | null =>
      rw [hn, hb] at h; simp only [release, Option.some.injEq] at h
      subst h
      exact ⟨rfl, _, _, rfl, fun x hx => Ptr.noConfusion hx, fun x hx => Ptr.noConfusion hx⟩
    | live bs =>
      rw [hn, hb] at h; simp only [release, Option.some.injEq] at h
      subst h
      exact ⟨rfl, _, _, rfl, fun x hx => Ptr.noConfusion hx, fun x hx => Ptr.noConfusion hx⟩

theorem readBytes_length (p : Ptr) (n : Nat) (data : List Nat)
    (h : readBytes p n = some data) : data.length = n := by
  cases n with
  | zero =>
    cases p <;> simp only [readBytes, Option.some.injEq] at h <;> subst h <;> rfl
  | succ m =>
    cases p with
    | null => simp [readBytes] at h
    | dangling => simp [readBytes] at h
    | live bs =>
      simp only [readBytes] at h
      split_ifs at h with hle
      cases h
      simp only [List.length_take]
      omega

/-- The Data builder either leaves the state alone (block length over `SEGSIZE`) or stores
header and payload in the packet buffer and sets the packet length. -/
theorem tftpDataBuild_inv (t t' : TFTP) (h : tftpDataBuild t = some t') :
    (SEGSIZE < t.BufferSize ∧ t' = t) ∨
    (t.BufferSize ≤ SEGSIZE ∧ ∃ data, readBytes t.Buffer t.BufferSize = some data ∧
      data.length = t.BufferSize ∧
      t' = { t with
        PacketBuffer := writeAt t.PacketBuffer 0 (be16 DATA ++ be16 t.NextBlock ++ data)
        Length := TFTP_HEADER + t.BufferSize }) := by
  unfold tftpDataBuild at h
  by_cases hsz : t.BufferSize > SEGSIZE
  · rw [if_pos hsz] at h
    exact Or.inl ⟨hsz, (Option.some.inj h).symm⟩
  · rw [if_neg hsz] at h
    right
    cases hrd : readBytes t.Buffer t.BufferSize with
    | none => rw [hrd] at h; cases h
    | some data =>
      rw [hrd] at h
      refine ⟨Nat.le_of_not_lt hsz, data, rfl, ?_, (Option.some.inj h).symm⟩
      exact readBytes_length _ _ _ hrd

theorem length_writeAt_zero (pb data : List Nat) (h : data.length ≤ pb.length) :
    (writeAt pb 0 data).length = pb.length := by
  simp only [writeAt, List.take_zero, List.nil_append, Nat.zero_add, List.length_append,
    List.length_drop]
  omega

theorem recvLoop_length (q : List (List Nat)) :
    ∀ pb : List Nat, pb.length = DATA_SIZE → (recvLoop pb q).length = DATA_SIZE := by
  induction q with
  | nil => intro pb h; exact h
  | cons d ds ih =>
    intro pb h
    unfold recvLoop
    split_ifs
    · apply ih
      rw [length_writeAt_zero _ _ (by rw [h, List.length_take]; exact Nat.min_le_left _ _)]
      exact h
    · exact h

theorem packet_length_le (t : TFTP) : (packet t).length ≤ t.PacketBuffer.length := by
  simp only [packet, List.length_take]
  exact Nat.min_le_right _ _

theorem lastPacket_sendto (log : List Event) (p : List Nat) (d : sockaddr_in) :
    lastPacket (log ++ [Event.sendto p d]) = some p := by
  simp [lastPacket, sentPackets_append, sentPackets]

theorem lastPacket_request_sendto (log : List Event) (n : List Nat) (b : Nat) (p : List Nat)
    (d : sockaddr_in) :
    lastPacket (log ++ [Event.request n b, Event.sendto p d]) = some p := by
  simp [lastPacket, sentPackets_append, sentPackets]

/-- Sending leaves the session state alone and appends the packet to the log. -/
theorem tftpSend_inv (env : Env) (w : World) :
    (tftpSend env w).2 =
      { w with log := w.log ++ [Event.sendto (packet w.tftp) w.tftp.peeraddr] } ∧
    ((tftpSend env w).1 = 0 ∨ (tftpSend env w).1 < 0) := by
  refine ⟨rfl, ?_⟩
  simp only [tftpSend]
  split_ifs
  · right; decide
  · left; rfl

theorem bounded_sendto (w : World) (t : TFTP) (d : sockaddr_in) (hB : Bounded w)
    (ht : t.PacketBuffer.length = DATA_SIZE) :
    Bounded { tftp := t, log := w.log ++ [Event.sendto (packet t) d] } := by
  refine ⟨ht, ?_⟩
  intro p hp
  simp only [sentPackets_append, sentPackets, List.mem_append, List.mem_singleton] at hp
  rcases hp with hp | hp
  · exact hB.2 p hp
  · rw [hp, ← ht]; exact packet_length_le t

theorem bounded_request (w : World) (t : TFTP) (n : List Nat) (b : Nat) (hB : Bounded w)
    (ht : t.PacketBuffer.length = DATA_SIZE) :
    Bounded { tftp := t, log := w.log ++ [Event.request n b] } := by
  refine ⟨ht, ?_⟩
  intro p hp
  simp only [sentPackets_append, sentPackets, List.append_nil] at hp
  exact hB.2 p hp

/-- The Data builder keeps the size of the packet buffer. -/
theorem tftpDataBuild_length (t t' : TFTP) (h : tftpDataBuild t = some t')
    (ht : t.PacketBuffer.length = DATA_SIZE) : t'.PacketBuffer.length = DATA_SIZE := by
  rcases tftpDataBuild_inv t t' h with ⟨_, h1⟩ | ⟨hsz, data, _, hlen, h1⟩
  · rw [h1]; exact ht
  · rw [h1]
    simp only
    rw [length_writeAt_zero, ht]
    rw [ht]
    simp only [List.length_append, be16, List.length_cons, List.length_nil, hlen, DATA_SIZE,
      TFTP_HEADER]
    simp only [SEGSIZE] at hsz ⊢
    omega

/-- The Error builder keeps the size of the packet buffer. -/
theorem tftpErrorBuild_length (t : TFTP) (e : Int) (ht : t.PacketBuffer.length = DATA_SIZE) :
    (tftpErrorBuild t e).PacketBuffer.length = DATA_SIZE := by
  simp only [tftpErrorBuild]
  rw [length_writeAt_zero, ht]
  rw [ht]
  simp [be16, DATA_SIZE, SEGSIZE, TFTP_HEADER]

/-- A read changes the packet buffer, the packet length and the peer address only, and
keeps the size of the packet buffer. -/
theorem tftpReadPacket_inv (TimeStart : Nat) :
    ∀ (attempts : List Attempt) (t : TFTP) (r : Int × TFTP),
      tftpReadPacket TimeStart attempts t = some r →
      ∃ pb len peer, r.2 = { t with PacketBuffer := pb, Length := len, peeraddr := peer } ∧
        (t.PacketBuffer.length = DATA_SIZE → pb.length = DATA_SIZE) := by
  intro attempts
  induction attempts with
  | nil => intro t r h; simp [tftpReadPacket] at h
  | cons a rest ih =>
    intro t r h
    unfold tftpReadPacket at h
    split_ifs at h with hexp
    · cases h
      exact ⟨_, _, _, rfl, fun h => h⟩
    · cases hrecv : a.recv with
      | failure =>
        rw [hrecv] at h; cases h
        exact ⟨_, _, _, rfl, fun h => h⟩
      | wouldBlock =>
        rw [hrecv] at h; cases h
        exact ⟨_, _, _, rfl, fun h => h⟩
      | datagram bytes src =>
        rw [hrecv] at h
        simp only [ne_eq, not_true_eq_false, and_false, if_false, Option.some.injEq] at h
        subst h
        refine ⟨_, _, _, rfl, fun ht => ?_⟩
        rw [length_writeAt_zero _ _ (by rw [ht, List.length_take]; exact Nat.min_le_left _ _)]
        exact ht

/-- What `tftpReSync` does when it returns: the budget is one lower, the two blocks and
the block length are untouched, the packet buffer keeps its size and nothing longer than it
was sent; and if the return code is not negative it is 0, the block counter is restored
and the packet sent is again the block most recently sent. -/
theorem tftpReSync_inv (env : Env) (w : World) (r : Int × World)
    (h : tftpReSync env w = some r) (hB : Bounded w) (hS : InSync w) :
    r.2.tftp.MaxSyncError = w.tftp.MaxSyncError - 1 ∧
    r.2.tftp.szFileName = w.tftp.szFileName ∧ r.2.tftp.Buffer = w.tftp.Buffer ∧
    r.2.tftp.BufferSize = w.tftp.BufferSize ∧ Bounded r.2 ∧
    r.2.tftp.NextBlock < 65536 ∧
    (r.1 < 0 ∨ (r.1 = 0 ∧ r.2.tftp.NextBlock = w.tftp.NextBlock ∧ InSync r.2)) := by
  have hpb : (recvLoop w.tftp.PacketBuffer env.queued).length = DATA_SIZE :=
    recvLoop_length _ _ hB.1
  unfold tftpReSync at h
  simp only [tftpFlushPackets] at h
  split_ifs at h with hz
  · cases h
    exact ⟨rfl, rfl, rfl, rfl, ⟨hpb, hB.2⟩, hS.1,
      Or.inl (by show TFTPERROR_FAILED < 0; decide)⟩
  · generalize ht2 : ({ w.tftp with
        PacketBuffer := recvLoop w.tftp.PacketBuffer env.queued
        MaxSyncError := w.tftp.MaxSyncError - 1
        NextBlock := (w.tftp.NextBlock + 65535) % 65536 } : TFTP) = t2 at h
    cases hb : tftpDataBuild t2 with
    | none => rw [hb] at h; cases h
    | some t3 =>
      rw [hb] at h
      simp only at h
      have hlen3 : t3.PacketBuffer.length = DATA_SIZE :=
        tftpDataBuild_length t2 t3 hb (by rw [← ht2]; exact hpb)
      have hframe : t3.MaxSyncError = w.tftp.MaxSyncError - 1 ∧
          t3.szFileName = w.tftp.szFileName ∧ t3.Buffer = w.tftp.Buffer ∧
          t3.BufferSize = w.tftp.BufferSize ∧
          t3.NextBlock = (w.tftp.NextBlock + 65535) % 65536 := by
        rcases tftpDataBuild_inv t2 t3 hb with ⟨_, h1⟩ | ⟨_, data, _, _, h1⟩
        · rw [h1, ← ht2]; exact ⟨rfl, rfl, rfl, rfl, rfl⟩
        · rw [h1, ← ht2]; exact ⟨rfl, rfl, rfl, rfl, rfl⟩
      obtain ⟨hf1, hf2, hf3, hf4, hf5⟩ := hframe
      have hBs : Bounded (tftpSend env { w with tftp := t3 }).2 :=
        bounded_sendto w t3 _ hB hlen3
      split_ifs at h with hneg
      · cases h
        exact ⟨hf1, hf2, hf3, hf4, hBs, by show t3.NextBlock < 65536; omega, Or.inl hneg⟩
      · cases h
        have hnb : (t3.NextBlock + 1) % 65536 = w.tftp.NextBlock := by
          have := hS.1
          omega
        refine ⟨hf1, hf2, hf3, hf4, ⟨hlen3, hBs.2⟩, ?_, Or.inr ⟨?_, hnb, ?_, ?_⟩⟩
        · show (t3.NextBlock + 1) % 65536 < 65536
          omega
        · rcases (tftpSend_inv env { w with tftp := t3 }).2 with h0 | h0
          · exact h0
          · exact absurd h0 hneg
        · show (t3.NextBlock + 1) % 65536 < 65536
          omega
        · intro name buf hn hbf
          have hn' : w.tftp.szFileName = Ptr.live name := hf2.symm.trans hn
          have hbf' : w.tftp.Buffer = Ptr.live buf := hf3.symm.trans hbf
          obtain ⟨hl, hsz, _⟩ := hS.2 name buf hn' hbf'
          have hbuild := tftpDataBuild_live t2 buf (by rw [← ht2]; exact hbf')
            (by rw [← ht2]; exact hsz) (by rw [← ht2]; simp only; omega)
          rw [hb] at hbuild
          have ht3 := Option.some.inj hbuild
          have hpk : packet t3 = dataPacket t2.NextBlock (buf.take t2.BufferSize) := by
            rw [ht3]
            exact packet_dataBuild t2 _ (by
              rw [List.length_take, ← ht2]; simp only; omega)
          refine ⟨hl, by show t3.BufferSize ≤ SEGSIZE; rw [hf4]; exact hsz, ?_⟩
          have hnb2 : t2.NextBlock = (w.tftp.NextBlock + 65535) % 65536 := by rw [← ht2]
          have hbs2 : t2.BufferSize = w.tftp.BufferSize := by rw [← ht2]
          show lastPacket (w.log ++ [Event.sendto (packet t3) t3.peeraddr])
            = some (dataPacket (((t3.NextBlock + 1) % 65536 + 65535) % 65536)
                (buf.take t3.BufferSize))
          rw [lastPacket_sendto, hpk, hnb2, hbs2, hnb, hf4]

/-- A call that ends in the cleanup: the return code is the one given, the budget is
untouched, the bounds hold and no block is live any more. -/
theorem abort_leaf (rc : Int) (w : World) (r : Int × World)
    (h : abortCleanup rc w = some r) (hB : Bounded w) (hnb : w.tftp.NextBlock < 65536) :
    r.1 = rc ∧ r.2.tftp.MaxSyncError = w.tftp.MaxSyncError ∧ Bounded r.2 ∧ InSync r.2 := by
  obtain ⟨h1, n, b, h2, hn, _⟩ := abortCleanup_inv rc w r h
  rw [h2]
  exact ⟨h1, rfl, hB, hnb, fun name buf hname _ => absurd hname (hn name)⟩

/-- The bounds and the synchronisation do not depend on the packet length. -/
theorem insync_length (w : World) (len : Nat) (hB : Bounded w) (hS : InSync w) :
    Bounded { w with tftp := { w.tftp with Length := len } } ∧
      InSync { w with tftp := { w.tftp with Length := len } } :=
  ⟨hB, hS⟩

/-- What the `case ACK:` branch does on a mismatch when it returns. -/
theorem caseACK_mismatch_inv (env : Env) (w : World) (rc : Int) (w' : World)
    (h : caseACK env w = some (rc, w')) (hB : Bounded w) (hS : InSync w)
    (hmis : (w.tftp.NextBlock : Int) - 1 ≠ (rd16 w.tftp.PacketBuffer 2 : Int)) :
    w'.tftp.MaxSyncError = w.tftp.MaxSyncError - 1 ∧ Bounded w' ∧
      (rc < 0 ∨ (rc = 0 ∧ InSync w')) := by
  unfold caseACK at h
  simp only [if_pos hmis] at h
  cases hr : tftpReSync env w with
  | none => rw [hr] at h; cases h
  | some r =>
    rw [hr] at h
    simp only at h
    obtain ⟨f1, f2, f3, f4, f5, f6, f7⟩ := tftpReSync_inv env w r hr hB hS
    split_ifs at h with hneg
    · obtain ⟨g1, g2, g3, g4⟩ := abort_leaf _ _ _ h f5 f6
      simp only at g1 g2
      exact ⟨by rw [g2]; exact f1, g3, Or.inl (by rw [g1]; exact hneg)⟩
    · cases h
      rcases f7 with f7 | ⟨f7, _, f8⟩
      · exact absurd f7 hneg
      · exact ⟨f1, f5, Or.inr ⟨f7, f8⟩⟩

/-- What the `case ACK:` branch does on a match when it returns: the budget is the full
`MAX_SYNC_TRIES`, and the call fails, completes, or has sent the next block. -/
theorem caseACK_match_inv (env : Env) (w : World) (rc : Int) (w' : World)
    (h : caseACK env w = some (rc, w')) (hB : Bounded w) (hS : InSync w)
    (hmatch : (w.tftp.NextBlock : Int) - 1 = (rd16 w.tftp.PacketBuffer 2 : Int)) :
    w'.tftp.MaxSyncError = MAX_SYNC_TRIES ∧ Bounded w' ∧
      (rc < 0 ∨ rc = 1 ∨ (rc = 0 ∧ InSync w')) := by
  rcases w with ⟨⟨szFileName, Buffer, BufferSize, Sock, PacketBuffer, Length, NextBlock,
    MaxSyncError, localaddr, peeraddr⟩, log⟩
  simp only at hmatch
  unfold caseACK at h
  simp only [hmatch, ne_eq, not_true_eq_false, if_false] at h
  split_ifs at h with hlast
  · obtain ⟨g1, g2, g3, _⟩ := abort_leaf _ _ _ h hB hS.1
    exact ⟨g2, g3, Or.inr (Or.inl g1)⟩
  · cases szFileName with
    | null => cases h
    | dangling => cases h
    | live name =>
      cases Buffer with
      | null => cases h
      | dangling => cases h
      | live buf =>
        simp only at h
        generalize env.g_pfnRequest name buf BufferSize NextBlock = r at h
        generalize ht2 : (
          { szFileName := Ptr.live name, Buffer := Ptr.live (fit SEGSIZE r.buffer),
            BufferSize := r.bufferSize, Sock := Sock, PacketBuffer := PacketBuffer,
            Length := Length, NextBlock := NextBlock, MaxSyncError := MAX_SYNC_TRIES,
            localaddr := localaddr, peeraddr := peeraddr } : TFTP) = t2 at h
        have hpb2 : t2.PacketBuffer.length = DATA_SIZE := by rw [← ht2]; exact hB.1
        have hnb2 : t2.NextBlock = NextBlock := by rw [← ht2]
        have hm2 : t2.MaxSyncError = MAX_SYNC_TRIES := by rw [← ht2]
        have hBw2 : Bounded { tftp := t2, log := log ++ [Event.request name NextBlock] } :=
          bounded_request _ t2 _ _ hB hpb2
        split_ifs at h with herr hover
        · obtain ⟨g1, g2, g3, _⟩ := abort_leaf _ _ _ h hBw2
            (by show t2.NextBlock < 65536; rw [hnb2]; exact hS.1)
          exact ⟨g2.trans hm2, g3, Or.inl (lt_of_eq_of_lt g1 (by decide))⟩
        · have hsz : t2.BufferSize ≤ SEGSIZE := by rw [← ht2]; exact Nat.le_of_not_lt hover
          have hbuf2 : t2.Buffer = Ptr.live (fit SEGSIZE r.buffer) := by rw [← ht2]
          have hbuild := tftpDataBuild_live t2 (fit SEGSIZE r.buffer) hbuf2 hsz
            (by rw [fit_length]; exact hsz)
          rw [hbuild] at h
          simp only at h
          generalize ht4 : ({ t2 with
            PacketBuffer := writeAt t2.PacketBuffer 0
              (be16 DATA ++ be16 t2.NextBlock ++ (fit SEGSIZE r.buffer).take t2.BufferSize)
            Length := TFTP_HEADER + t2.BufferSize } : TFTP) = t4 at h
          have hpk : packet t4
              = dataPacket t2.NextBlock ((fit SEGSIZE r.buffer).take t2.BufferSize) := by
            rw [← ht4]
            exact packet_dataBuild t2 _ (by rw [List.length_take, fit_length]; omega)
          have hpb4 : t4.PacketBuffer.length = DATA_SIZE :=
            tftpDataBuild_length t2 t4 (by rw [hbuild, ht4]) hpb2
          have hBs : Bounded (tftpSend env
              { tftp := t4, log := log ++ [Event.request name NextBlock] }).2 :=
            bounded_sendto { tftp := t2, log := log ++ [Event.request name NextBlock] } t4 _ hBw2 hpb4
          have hnb4 : t4.NextBlock = NextBlock := by rw [← ht4]; exact hnb2
          have hm4 : t4.MaxSyncError = MAX_SYNC_TRIES := by rw [← ht4]; exact hm2
          split_ifs at h with hneg
          · obtain ⟨g1, g2, g3, _⟩ := abort_leaf _ _ _ h hBs
              (by show t4.NextBlock < 65536; rw [hnb4]; exact hS.1)
            exact ⟨g2.trans hm4, g3, Or.inl (lt_of_eq_of_lt g1 hneg)⟩
          · cases h
            have hrc : (tftpSend env
                { tftp := t4, log := log ++ [Event.request name NextBlock] }).1 = 0 := by
              rcases (tftpSend_inv env
                { tftp := t4, log := log ++ [Event.request name NextBlock] }).2
                with h0 | h0
              · exact h0
              · exact absurd h0 hneg
            refine ⟨hm4, ⟨hpb4, hBs.2⟩, Or.inr (Or.inr ⟨hrc, ?_, ?_⟩)⟩
            · show (t4.NextBlock + 1) % 65536 < 65536
              omega
            · intro name' buf' _ hbf
              have hbuf4 : t4.Buffer = Ptr.live (fit SEGSIZE r.buffer) := by
                rw [← ht4]; exact hbuf2
              have hbs4 : t4.BufferSize = t2.BufferSize := by rw [← ht4]
              have hbf' : t4.Buffer = Ptr.live buf' := hbf
              have hbe : fit SEGSIZE r.buffer = buf' := by
                rw [hbuf4] at hbf'
                exact Ptr.live.inj hbf'
              refine ⟨by rw [← hbe]; exact fit_length _ _,
                by show t4.BufferSize ≤ SEGSIZE; rw [hbs4]; exact hsz, ?_⟩
              show lastPacket (log ++ [Event.request name NextBlock] ++
                  [Event.sendto (packet t4) t4.peeraddr])
                = some (dataPacket (((t4.NextBlock + 1) % 65536 + 65535) % 65536)
                    (buf'.take t4.BufferSize))
              rw [lastPacket_sendto, hpk, hbs4, hbe, hnb4, hnb2]
              have hlt : NextBlock < 65536 := hS.1
              have e : ((NextBlock + 1) % 65536 + 65535) % 65536 = NextBlock := by
                omega
              rw [e]
        · obtain ⟨g1, g2, g3, _⟩ := abort_leaf _ _ _ h
            (bounded_sendto { tftp := t2, log := log ++ [Event.request name NextBlock] }
              (tftpErrorBuild t2 r.error) _ hBw2
              (tftpErrorBuild_length t2 _ hpb2))
            (by show t2.NextBlock < 65536; rw [hnb2]; exact hS.1)
          exact ⟨g2.trans hm2, g3, Or.inl (lt_of_eq_of_lt g1 (by decide))⟩

/-- The port switch changes the socket and the local address only, and returns 0 or a
negative code. -/
theorem tftpChangeListenPort_inv (env : Env) (t : TFTP) :
    (∃ s la, (tftpChangeListenPort env t).2 = { t with Sock := s, localaddr := la }) ∧
    ((tftpChangeListenPort env t).1 = 0 ∨ (tftpChangeListenPort env t).1 < 0) := by
  unfold tftpChangeListenPort
  simp only
  split_ifs
  · exact ⟨⟨_, _, rfl⟩, Or.inr (by show TFTPERROR_SOCKET < 0; decide)⟩
  · exact ⟨⟨_, _, rfl⟩, Or.inr (by show TFTPERROR_SOCKET < 0; decide)⟩
  · exact ⟨⟨_, _, rfl⟩, Or.inr (by show TFTPERROR_SOCKET < 0; decide)⟩
  · exact ⟨⟨_, _, rfl⟩, Or.inr (by show TFTPERROR_SOCKET < 0; decide)⟩
  · exact ⟨⟨_, _, rfl⟩, Or.inl rfl⟩

theorem tftpGetMode_error (pb : List Nat) (len : Nat) (rc : Int)
    (h : tftpGetMode pb len = Except.error rc) : rc = TFTPERROR_FAILED := by
  unfold tftpGetMode at h
  simp only at h
  split_ifs at h
  simp_all

/-- What the `case RRQ:` branch does when it returns: the budget is untouched, and the
call fails or has sent block 1. -/
theorem caseRRQ_inv (env : Env) (w : World) (rc : Int) (w' : World)
    (h : caseRRQ env w = some (rc, w')) (hB : Bounded w) (hS : InSync w) :
    w'.tftp.MaxSyncError = w.tftp.MaxSyncError ∧ Bounded w' ∧
      (rc < 0 ∨ (rc = 0 ∧ InSync w')) := by
  rcases w with ⟨⟨szFileName, Buffer, BufferSize, Sock, PacketBuffer, Length, NextBlock,
    MaxSyncError, localaddr, peeraddr⟩, log⟩
  have hBpb : PacketBuffer.length = DATA_SIZE := hB.1
  unfold caseRRQ at h
  simp only at h
  cases hg : tftpGetMode PacketBuffer Length with
  | error rc0 =>
    rw [hg] at h
    simp only at h
    obtain ⟨g1, g2, g3, _⟩ := abort_leaf _ _ _ h hB hS.1
    have hrc0 := tftpGetMode_error _ _ _ hg
    exact ⟨g2, g3, Or.inl (lt_of_eq_of_lt (g1.trans hrc0) (by decide))⟩
  | ok mode =>
    rw [hg] at h
    simp only at h
    split_ifs at h with hmode hname
    · obtain ⟨g1, g2, g3, _⟩ := abort_leaf _ _ _ h hB hS.1
      exact ⟨g2, g3, Or.inl (lt_of_eq_of_lt g1 (by decide))⟩
    · obtain ⟨g1, g2, g3, _⟩ := abort_leaf _ _ _ h ⟨hBpb, hB.2⟩ hS.1
      exact ⟨g2, g3, Or.inl (lt_of_eq_of_lt g1 (by decide))⟩
    · cases hf : env.mmAllocBuffer with
      | none =>
        rw [hf] at h
        simp only at h
        obtain ⟨g1, g2, g3, _⟩ := abort_leaf _ _ _ h ⟨hBpb, hB.2⟩ (by show 1 < 65536; omega)
        exact ⟨g2, g3, Or.inl (lt_of_eq_of_lt g1 (by decide))⟩
      | some fresh =>
        rw [hf] at h
        simp only at h
        generalize List.take ((strlen (List.drop 2 PacketBuffer) + 1) % 256)
          (List.drop 2 PacketBuffer) = name at h
        generalize env.g_pfnRequest name (fit SEGSIZE fresh) BufferSize 1 = r at h
        generalize ht2 : (
          { szFileName := Ptr.live name, Buffer := Ptr.live (fit SEGSIZE r.buffer),
            BufferSize := r.bufferSize, Sock := Sock, PacketBuffer := PacketBuffer,
            Length := Length, NextBlock := 1, MaxSyncError := MaxSyncError,
            localaddr := localaddr, peeraddr := peeraddr } : TFTP) = t2 at h
        have hpb2 : t2.PacketBuffer.length = DATA_SIZE := by rw [← ht2]; exact hBpb
        have hnb2 : t2.NextBlock = 1 := by rw [← ht2]
        have hm2 : t2.MaxSyncError = MaxSyncError := by rw [← ht2]
        have hbuf2 : t2.Buffer = Ptr.live (fit SEGSIZE r.buffer) := by rw [← ht2]
        have hbs2 : t2.BufferSize = r.bufferSize := by rw [← ht2]
        have hBw2 : Bounded { tftp := t2, log := log ++ [Event.request name 1] } :=
          bounded_request _ t2 _ _ hB hpb2
        obtain ⟨⟨s, la, hc2⟩, hc1⟩ := tftpChangeListenPort_inv env t2
        generalize tftpChangeListenPort env t2 = c at h hc1 hc2
        have hpbc : c.2.PacketBuffer.length = DATA_SIZE := by rw [hc2]; exact hpb2
        have hnbc : c.2.NextBlock = 1 := by rw [hc2]; exact hnb2
        have hmc : c.2.MaxSyncError = MaxSyncError := by rw [hc2]; exact hm2
        have hbufc : c.2.Buffer = Ptr.live (fit SEGSIZE r.buffer) := by rw [hc2]; exact hbuf2
        have hbsc : c.2.BufferSize = r.bufferSize := by rw [hc2]; exact hbs2
        have hBwc : Bounded { tftp := c.2, log := log ++ [Event.request name 1] } :=
          bounded_request _ c.2 _ _ hB hpbc
        split_ifs at h with herr hport hover
        · obtain ⟨g1, g2, g3, _⟩ := abort_leaf _ _ _ h
            (bounded_sendto { tftp := t2, log := log ++ [Event.request name 1] }
              (tftpErrorBuild t2 r.error) _ hBw2 (tftpErrorBuild_length t2 _ hpb2))
            (by show t2.NextBlock < 65536; rw [hnb2]; omega)
          exact ⟨g2.trans hm2, g3, Or.inl (lt_of_eq_of_lt g1 (by decide))⟩
        · obtain ⟨g1, g2, g3, _⟩ := abort_leaf _ _ _ h hBwc
            (by show c.2.NextBlock < 65536; rw [hnbc]; omega)
          exact ⟨g2.trans hmc, g3, Or.inl (lt_of_eq_of_lt g1 hport)⟩
        · obtain ⟨g1, g2, g3, _⟩ := abort_leaf _ _ _ h hBwc
            (by show c.2.NextBlock < 65536; rw [hnbc]; omega)
          exact ⟨g2.trans hmc, g3, Or.inl (lt_of_eq_of_lt g1 (by decide))⟩
        · have hsz : c.2.BufferSize ≤ SEGSIZE := Nat.le_of_not_lt hover
          have hbuild := tftpDataBuild_live c.2 (fit SEGSIZE r.buffer) hbufc hsz
            (by rw [fit_length]; exact hsz)
          rw [hbuild] at h
          simp only at h
          generalize ht4 : ({ c.2 with
            PacketBuffer := writeAt c.2.PacketBuffer 0
              (be16 DATA ++ be16 c.2.NextBlock ++ (fit SEGSIZE r.buffer).take c.2.BufferSize)
            Length := TFTP_HEADER + c.2.BufferSize } : TFTP) = t4 at h
          have hpk : packet t4
              = dataPacket c.2.NextBlock ((fit SEGSIZE r.buffer).take c.2.BufferSize) := by
            rw [← ht4]
            exact packet_dataBuild c.2 _ (by rw [List.length_take, fit_length]; omega)
          have hpb4 : t4.PacketBuffer.length = DATA_SIZE :=
            tftpDataBuild_length c.2 t4 (by rw [hbuild, ht4]) hpbc
          have hBs : Bounded (tftpSend env
              { tftp := t4, log := log ++ [Event.request name 1] }).2 :=
            bounded_sendto { tftp := c.2, log := log ++ [Event.request name 1] } t4 _ hBwc hpb4
          have hnb4 : t4.NextBlock = 1 := by rw [← ht4]; exact hnbc
          have hm4 : t4.MaxSyncError = MaxSyncError := by rw [← ht4]; exact hmc
          split_ifs at h with hneg
          · obtain ⟨g1, g2, g3, _⟩ := abort_leaf _ _ _ h hBs
              (by show t4.NextBlock < 65536; rw [hnb4]; omega)
            exact ⟨g2.trans hm4, g3, Or.inl (lt_of_eq_of_lt g1 hneg)⟩
          · cases h
            have hrc : (tftpSend env
                { tftp := t4, log := log ++ [Event.request name 1] }).1 = 0 := by
              rcases (tftpSend_inv env
                { tftp := t4, log := log ++ [Event.request name 1] }).2 with h0 | h0
              · exact h0
              · exact absurd h0 hneg
            refine ⟨hm4, ⟨hpb4, hBs.2⟩, Or.inr ⟨hrc, ?_, ?_⟩⟩
            · show (t4.NextBlock + 1) % 65536 < 65536
              omega
            · intro name' buf' _ hbf
              have hbuf4 : t4.Buffer = Ptr.live (fit SEGSIZE r.buffer) := by
                rw [← ht4]; exact hbufc
              have hbs4 : t4.BufferSize = c.2.BufferSize := by rw [← ht4]
              have hbf' : t4.Buffer = Ptr.live buf' := hbf
              have hbe : fit SEGSIZE r.buffer = buf' := by
                rw [hbuf4] at hbf'
                exact Ptr.live.inj hbf'
              refine ⟨by rw [← hbe]; exact fit_length _ _,
                by show t4.BufferSize ≤ SEGSIZE; rw [hbs4]; exact hsz, ?_⟩
              show lastPacket (log ++ [Event.request name 1] ++
                  [Event.sendto (packet t4) t4.peeraddr])
                = some (dataPacket (((t4.NextBlock + 1) % 65536 + 65535) % 65536)
                    (buf'.take t4.BufferSize))
              rw [lastPacket_sendto, hpk, hbs4, hbe, hnb4, hnbc]

/-- What one call of `tftpProcessPacket` does when it returns: the bounds are kept; the
call fails, completes, or leaves the session synchronised; and the budget is set to
`MAX_SYNC_TRIES` by a matching Acknowledgment, lowered by one by a mismatched one, and
untouched by anything else. -/
theorem tftpProcessPacket_inv (env : Env) (w : World) (rc : Int) (w' : World)
    (h : tftpProcessPacket env w = some (rc, w')) (hB : Bounded w) (hS : InSync w) :
    Bounded w' ∧ (rc < 0 ∨ rc = 1 ∨ (rc = 0 ∧ InSync w')) ∧
    w'.tftp.MaxSyncError =
      (if w.tftp.Length ≠ 0 ∧ rd16 w.tftp.PacketBuffer 0 = ACK then
        (if (w.tftp.NextBlock : Int) - 1 ≠ (rd16 w.tftp.PacketBuffer 2 : Int)
          then w.tftp.MaxSyncError - 1 else MAX_SYNC_TRIES)
       else w.tftp.MaxSyncError) := by
  unfold tftpProcessPacket at h
  by_cases hl : w.tftp.Length = 0
  · rw [if_pos hl] at h
    obtain ⟨g1, g2, g3, _⟩ := abort_leaf _ _ _ h hB hS.1
    refine ⟨g3, Or.inl (lt_of_eq_of_lt g1 (by decide)), ?_⟩
    rw [if_neg (fun hc => hc.1 hl)]
    exact g2
  · rw [if_neg hl] at h
    simp only at h
    by_cases hr : rd16 w.tftp.PacketBuffer 0 = RRQ
    · rw [if_pos hr] at h
      obtain ⟨g1, g2, g3⟩ := caseRRQ_inv env w rc w' h hB hS
      refine ⟨g2, ?_, ?_⟩
      · rcases g3 with g3 | g3
        · exact Or.inl g3
        · exact Or.inr (Or.inr g3)
      · rw [if_neg (fun hc => by rw [hr] at hc; exact absurd hc.2 (by decide))]
        exact g1
    · rw [if_neg hr] at h
      by_cases ha : rd16 w.tftp.PacketBuffer 0 = ACK
      · rw [if_pos ha] at h
        rw [if_pos ⟨hl, ha⟩]
        by_cases hmis : (w.tftp.NextBlock : Int) - 1 ≠ (rd16 w.tftp.PacketBuffer 2 : Int)
        · obtain ⟨g1, g2, g3⟩ := caseACK_mismatch_inv env w rc w' h hB hS hmis
          rw [if_pos hmis]
          refine ⟨g2, ?_, g1⟩
          rcases g3 with g3 | g3
          · exact Or.inl g3
          · exact Or.inr (Or.inr g3)
        · rw [if_neg hmis]
          obtain ⟨g1, g2, g3⟩ := caseACK_match_inv env w rc w' h hB hS (by simpa using hmis)
          exact ⟨g2, g3, g1⟩
      · rw [if_neg ha] at h
        obtain ⟨g1, g2, g3, g4⟩ := abort_leaf _ _ _ h hB hS.1
        refine ⟨g3, Or.inr (Or.inr ⟨g1, g4⟩), ?_⟩
        rw [if_neg (fun hc => ha hc.2)]
        exact g2

/-- One iteration of the main loop keeps the bounds, whatever its outcome, and keeps the
session synchronised if the loop goes on. -/
theorem mainLoop_step_inv (w : World) (st : Step) (w' : World)
    (h : (mainLoop w [st]).world? = some w') (hB : Bounded w) (hS : InSync w) :
    Bounded w' ∧ (mainLoop w [st] = Outcome.running w' → InSync w') := by
  simp only [mainLoop] at h ⊢
  cases hread : tftpReadPacket st.read.TimeStart st.read.attempts w.tftp with
  | none => simp only [hread, Outcome.world?] at h; cases h
  | some r =>
    simp only [hread] at h ⊢
    obtain ⟨pb, len, peer, hr2, hpb⟩ := tftpReadPacket_inv _ _ _ _ hread
    have hB1 : Bounded { w with tftp := r.2 } := by
      refine ⟨?_, hB.2⟩
      rw [hr2]
      exact hpb hB.1
    have hS1 : InSync { w with tftp := r.2 } := by
      rw [hr2]
      exact hS
    split_ifs at h ⊢ with hneg
    · cases h
      exact ⟨hB1, fun hc => by cases hc⟩
    · cases hp : tftpProcessPacket st.env { w with tftp := r.2 } with
      | none => simp only [hp, Outcome.world?] at h; cases h
      | some p =>
        simp only [hp] at h ⊢
        obtain ⟨g1, g2, _⟩ := tftpProcessPacket_inv st.env _ p.1 p.2 hp hB1 hS1
        split_ifs at h ⊢ with hn h1
        · cases h
          exact ⟨g1, fun hc => by cases hc⟩
        · cases h
          exact ⟨g1, fun hc => by cases hc⟩
        · cases h
          refine ⟨g1, fun _ => ?_⟩
          rcases g2 with g2 | g2 | ⟨_, g2⟩
          · exact absurd g2 hn
          · exact absurd g2 h1
          · exact g2

theorem bounded_initWorld (s : Option Nat) (pb : List Nat) :
    Bounded (initWorld s pb) ∧ InSync (initWorld s pb) := by
  refine ⟨⟨fit_length _ _, fun p hp => by cases hp⟩, by show 0 < 65536; omega, ?_⟩
  intro name buf hn _
  cases hn

/-- Every run of the main loop keeps the bounds, whatever its outcome, and keeps the
session synchronised while the loop goes on. -/
theorem mainLoop_inv :
    ∀ (steps : List Step) (w w' : World), (mainLoop w steps).world? = some w' →
      Bounded w → InSync w →
      Bounded w' ∧ (mainLoop w steps = Outcome.running w' → InSync w') := by
  intro steps
  induction steps with
  | nil =>
    intro w w' h hB hS
    cases h
    exact ⟨hB, fun _ => hS⟩
  | cons st rest ih =>
    intro w w' h hB hS
    rw [mainLoop_cons] at h ⊢
    cases hone : mainLoop w [st] with
    | running w1 =>
      simp only [hone] at h ⊢
      obtain ⟨hB1, hS1⟩ := mainLoop_step_inv w st w1 (by rw [hone]; rfl) hB hS
      exact ih w1 w' h hB1 (hS1 hone)
    | aborted w1 =>
      simp only [hone] at h ⊢
      have e : w1 = w' := by simpa [Outcome.world?] using h
      subst e
      exact ⟨(mainLoop_step_inv w st w1 (by rw [hone]; rfl) hB hS).1, fun hc => by cases hc⟩
    | completed w1 =>
      simp only [hone] at h ⊢
      have e : w1 = w' := by simpa [Outcome.world?] using h
      subst e
      exact ⟨(mainLoop_step_inv w st w1 (by rw [hone]; rfl) hB hS).1, fun hc => by cases hc⟩
    | undefined =>
      simp only [hone, Outcome.world?] at h
      cases h

/-! ## Claims about resynchronisation, the budget and the packet size -/

/-- C13: a session that was started, has run some iterations and is in a transfer (name
block and content block live) reads, before the deadline, an Acknowledgment sent by `src`
for a block `k` other than the one awaited, with a budget that the decrement does not
bring to 0 and a `sendto` that sends the packet whole. Then the iteration sends exactly
one packet, byte for byte the packet most recently handed to `sendto`, which is the Data
packet of the block most recently sent; the provider is not called (the log grows by that
one send); the block counter, the name block, the content buffer and its valid length are
unchanged and the budget is lower by exactly one. -/
theorem mismatch_resends_last (s : Option Nat) (pb : List Nat) (pre : List Step)
    (st : Step) (w : World) (name buf : List Nat) (a : Attempt) (more : List Attempt)
    (k : Nat) (src : sockaddr_in)
    (hrun : mainLoop (initWorld s pb) pre = Outcome.running w)
    (hT : Transferring w.tftp name buf)
    (hatt : st.read.attempts = a :: more)
    (hlive : ¬ (st.read.TimeStart + TFTP_SOCK_TIMEOUT) % 4294967296 ≤ a.now)
    (hrecv : a.recv = RecvResult.datagram (ackPacket k) src) (hk : k < 65536)
    (hmis : (w.tftp.NextBlock : Int) - 1 ≠ (k : Int))
    (hm : w.tftp.MaxSyncError ≠ 1)
    (hsend : ∀ p, st.env.sendto p = (p.length : Int)) :
    ∃ p w', lastPacket w.log = some p ∧
      p = dataPacket (lastSent w.tftp) (buf.take w.tftp.BufferSize) ∧
      mainLoop w [st] = Outcome.running w' ∧
      w'.log = w.log ++ [Event.sendto p src] ∧
      w'.tftp.NextBlock = w.tftp.NextBlock ∧ w'.tftp.Buffer = w.tftp.Buffer ∧
      w'.tftp.BufferSize = w.tftp.BufferSize ∧ w'.tftp.szFileName = w.tftp.szFileName ∧
      w'.tftp.MaxSyncError = w.tftp.MaxSyncError - 1 := by
  obtain ⟨hB0, hS0⟩ := bounded_initWorld s pb
  obtain ⟨_, hS⟩ := mainLoop_inv pre (initWorld s pb) w (by rw [hrun]; rfl) hB0 hS0
  obtain ⟨_, _, hlast⟩ := (hS hrun).2 name buf hT.hname hT.hbuf
  exact ⟨_, _, hlast, rfl,
    mismatch_step_resend w st a more k src name buf hatt hlive hrecv hk hT hmis hm (hsend _),
    rfl, rfl, rfl, rfl, rfl, rfl⟩

set_option maxRecDepth 1000000 in
/-- The witness of C13: the Request for "a" (three bytes) is answered with block 1; an
Acknowledgment for block 0 arrives while the acknowledgment of block 1 is awaited. Block 1
is sent once more, the block counter stays at 2 and the budget goes from 0 to -1. -/
theorem mismatch_resends_last_witness :
    ∃ w p w', mainLoop (initWorld (some 1) []) [stepOf [1, 2, 3] (rrqPacket [97] octet)]
        = Outcome.running w ∧
      lastPacket w.log = some p ∧ p = dataPacket 1 [1, 2, 3] ∧
      mainLoop w [stepOf [1, 2, 3] (ackPacket 0)] = Outcome.running w' ∧
      w'.log = w.log ++ [Event.sendto p peerA] ∧
      w'.tftp.NextBlock = 2 ∧ w'.tftp.MaxSyncError = -1 := by
  obtain ⟨p, w', h1, h2, h3, h4, h5, _, _, _, h9⟩ :=
    mismatch_resends_last (some 1) [] [stepOf [1, 2, 3] (rrqPacket [97] octet)]
      (stepOf [1, 2, 3] (ackPacket 0)) _ [97, 0] (fit SEGSIZE [1, 2, 3])
      { now := 0, recv := RecvResult.datagram (ackPacket 0) peerA } [] 0 peerA rfl
      ⟨rfl, rfl, by decide, by decide, by decide⟩ rfl (by decide) rfl (by decide)
      (by decide) (by decide) (fun p => rfl)
  exact ⟨_, p, w', rfl, h1, h2.trans (by decide), h3, h4, h5.trans (by decide),
    h9.trans (by decide)⟩

/-- The budget under the test of the code: in a session that was started and has run some
iterations, one more iteration that reaches an outcome leaves the budget as follows. If
the read delivered a non-empty datagram whose opcode is Acknowledgment, the budget is
`MAX_SYNC_TRIES` = 4 when the test `NextBlock - 1 == ServerBlock` of the code passes,
whatever it was before, and one lower than before when the test fails. In every other
case (failed read, read of zero bytes, Request, any other opcode) the budget is what it
was before. The test is made in `int` on the two bytes at offset 2 of the packet buffer,
whether or not the datagram was long enough to fill them. -/
theorem budget_rule (s : Option Nat) (pb : List Nat) (pre : List Step) (st : Step)
    (w w' : World) (r : Int × TFTP)
    (hrun : mainLoop (initWorld s pb) pre = Outcome.running w)
    (hread : tftpReadPacket st.read.TimeStart st.read.attempts w.tftp = some r)
    (hstep : (mainLoop w [st]).world? = some w') :
    w'.tftp.MaxSyncError =
      (if 0 ≤ r.1 ∧ r.2.Length ≠ 0 ∧ rd16 r.2.PacketBuffer 0 = ACK then
        (if (w.tftp.NextBlock : Int) - 1 ≠ (rd16 r.2.PacketBuffer 2 : Int)
          then w.tftp.MaxSyncError - 1 else MAX_SYNC_TRIES)
       else w.tftp.MaxSyncError) ∧
    MAX_SYNC_TRIES = 4 := by
  refine ⟨?_, rfl⟩
  obtain ⟨hB0, hS0⟩ := bounded_initWorld s pb
  obtain ⟨hB, hS⟩ := mainLoop_inv pre (initWorld s pb) w (by rw [hrun]; rfl) hB0 hS0
  have hS := hS hrun
  obtain ⟨pb', len, peer, hr2, hpb⟩ := tftpReadPacket_inv _ _ _ _ hread
  have hB1 : Bounded { w with tftp := r.2 } := by
    refine ⟨?_, hB.2⟩
    rw [hr2]
    exact hpb hB.1
  have hS1 : InSync { w with tftp := r.2 } := by
    rw [hr2]
    exact hS
  have hnb : r.2.NextBlock = w.tftp.NextBlock := by rw [hr2]
  have hms : r.2.MaxSyncError = w.tftp.MaxSyncError := by rw [hr2]
  simp only [mainLoop, hread] at hstep
  split_ifs at hstep with hneg
  · have e : ({ w with tftp := r.2 } : World) = w' := by simpa [Outcome.world?] using hstep
    rw [if_neg (fun hc => absurd hc.1 (not_le.mpr hneg)), ← e]
    exact hms
  · cases hp : tftpProcessPacket st.env { w with tftp := r.2 } with
    | none => simp only [hp, Outcome.world?] at hstep; cases hstep
    | some p =>
      simp only [hp] at hstep
      have e : p.2 = w' := by
        split_ifs at hstep <;> simpa [Outcome.world?] using hstep
      obtain ⟨_, _, g⟩ := tftpProcessPacket_inv st.env _ p.1 p.2 hp hB1 hS1
      rw [← e, g]
      show (if r.2.Length ≠ 0 ∧ rd16 r.2.PacketBuffer 0 = ACK then
          (if (r.2.NextBlock : Int) - 1 ≠ (rd16 r.2.PacketBuffer 2 : Int)
            then r.2.MaxSyncError - 1 else MAX_SYNC_TRIES)
          else r.2.MaxSyncError) = _
      rw [hnb, hms]
      by_cases hc : r.2.Length ≠ 0 ∧ rd16 r.2.PacketBuffer 0 = ACK
      · rw [if_pos hc, if_pos (show 0 ≤ r.1 ∧ r.2.Length ≠ 0 ∧ rd16 r.2.PacketBuffer 0 = ACK
          from ⟨not_lt.mp hneg, hc⟩)]
      · rw [if_neg hc, if_neg (show ¬ (0 ≤ r.1 ∧ r.2.Length ≠ 0 ∧ rd16 r.2.PacketBuffer 0 = ACK)
          from fun h => hc h.2)]

set_option maxRecDepth 1000000 in
/-- The budget on a 600-byte transfer: after the Request the budget is 0; the
Acknowledgment of block 1 passes the test of the code and sets it to 4. -/
theorem budget_rule_witness :
    ∃ w w', mainLoop (initWorld (some 1) [])
        [stepOf (List.replicate 600 7) (rrqPacket [97] octet)] = Outcome.running w ∧
      w.tftp.MaxSyncError = 0 ∧
      (mainLoop w [stepOf (List.replicate 600 7) (ackPacket 1)]).world? = some w' ∧
      w'.tftp.MaxSyncError = 4 := by
  have h := budget_rule (some 1) [] [stepOf (List.replicate 600 7) (rrqPacket [97] octet)]
    (stepOf (List.replicate 600 7) (ackPacket 1)) _ _ _ rfl rfl rfl
  exact ⟨_, _, rfl, by decide, rfl, h.1.trans (by decide)⟩

/-- C16: (1) on the first fetch, made for an octet Request with both allocations
succeeding, a provider that reports success with a block length over `SEGSIZE` = 512 makes
the call fail, and the log grows by the provider call only: no Data packet is sent for
block 1. (2) On a later fetch, made for the matching Acknowledgment of a full block in a
transfer, the same holds for the block asked. (3) Hence in every session, whatever the
datagrams, the timing and the answers of the environment, every packet handed to `sendto`
up to any outcome has at most `DATA_SIZE` = 516 bytes, so at most 512 bytes after the
4-byte header. -/
theorem data_packets_bounded :
    (∀ (env : Env) (w : World) (fresh : List Nat) (r : ProviderResult),
      w.tftp.Length ≠ 0 → rd16 w.tftp.PacketBuffer 0 = RRQ →
      tftpGetMode w.tftp.PacketBuffer w.tftp.Length = Except.ok tTFTPMode.TFTP_MODE_OCTET →
      env.mmAllocName = true → env.mmAllocBuffer = some fresh →
      env.g_pfnRequest (storedName w.tftp.PacketBuffer) (fit SEGSIZE fresh) w.tftp.BufferSize 1
        = r →
      r.error = TFTP_ERR_NONE → SEGSIZE < r.bufferSize →
      ∃ rc w', tftpProcessPacket env w = some (rc, w') ∧ rc < 0 ∧
        w'.log = w.log ++ [Event.request (storedName w.tftp.PacketBuffer) 1]) ∧
    (∀ (env : Env) (w : World) (name buf : List Nat),
      Transferring w.tftp name buf →
      w.tftp.Length ≠ 0 → rd16 w.tftp.PacketBuffer 0 = ACK →
      (w.tftp.NextBlock : Int) - 1 = (rd16 w.tftp.PacketBuffer 2 : Int) →
      w.tftp.BufferSize = SEGSIZE →
      (env.g_pfnRequest name buf w.tftp.BufferSize w.tftp.NextBlock).error = TFTP_ERR_NONE →
      SEGSIZE < (env.g_pfnRequest name buf w.tftp.BufferSize w.tftp.NextBlock).bufferSize →
      ∃ rc w', tftpProcessPacket env w = some (rc, w') ∧ rc < 0 ∧
        w'.log = w.log ++ [Event.request name w.tftp.NextBlock]) ∧
    (∀ (s : Option Nat) (pb : List Nat) (steps : List Step) (w' : World),
      (mainLoop (initWorld s pb) steps).world? = some w' →
      ∀ p ∈ sentPackets w'.log, p.length ≤ DATA_SIZE ∧ (p.drop TFTP_HEADER).length ≤ SEGSIZE) ∧
    DATA_SIZE = 516 ∧ SEGSIZE = 512 := by
  refine ⟨?_, ?_, ?_, rfl, rfl⟩
  · intro env w fresh r hl hop hmode hname hfresh hr herr hsz
    rw [tftpProcessPacket_rrq env w hl hop]
    by_cases hport : portOk env
    · obtain ⟨w', h1, h2⟩ := caseRRQ_oversize env w fresh r hmode hname hfresh hr herr hport
        (Nat.not_le.mpr hsz)
      exact ⟨_, w', h1, by decide, h2⟩
    · obtain ⟨w', h1, h2⟩ := caseRRQ_port_fail env w fresh r hmode hname hfresh hr herr hport
      exact ⟨_, w', h1, by decide, h2⟩
  · intro env w name buf hT hl hop hmatch hfull herr hsz
    rw [tftpProcessPacket_ack env w hl hop]
    obtain ⟨w', h1, h2⟩ := caseACK_oversize env w name buf hT hmatch
      (by rw [hfull]; exact Nat.lt_irrefl _) herr (Nat.not_le.mpr hsz)
    exact ⟨_, w', h1, by decide, h2⟩
  · intro s pb steps w' h p hp
    obtain ⟨hB0, hS0⟩ := bounded_initWorld s pb
    obtain ⟨hB, _⟩ := mainLoop_inv steps (initWorld s pb) w' h hB0 hS0
    have h1 := hB.2 p hp
    refine ⟨h1, ?_⟩
    rw [List.length_drop]
    simp only [DATA_SIZE, TFTP_HEADER] at h1 ⊢
    omega
set_option maxRecDepth 1000000 in
/-- The two ends of C16 on concrete inputs: a provider reporting 600 bytes for the first
block of "a" makes the call fail with only the provider call in the log, and the Data
packet sent in a session serving three bytes is within the bounds. -/
theorem data_packets_bounded_witness :
    (∃ rc w', tftpProcessPacket oversizeEnv (freshWith (rrqPacket [97] octet)) = some (rc, w') ∧
      rc < 0 ∧ w'.log = [Event.request [97, 0] 1]) ∧
    ((dataPacket 1 [1, 2, 3]).length ≤ DATA_SIZE ∧
      ((dataPacket 1 [1, 2, 3]).drop TFTP_HEADER).length ≤ SEGSIZE) :=
  ⟨data_packets_bounded.1 oversizeEnv (freshWith (rrqPacket [97] octet)) [] _
      (by decide) (by decide) rfl rfl rfl rfl rfl (by decide),
   data_packets_bounded.2.2.1 (some 1) []
      [stepOf [1, 2, 3] (rrqPacket [97] octet)] _ rfl (dataPacket 1 [1, 2, 3]) (by decide)⟩

/-! ## The budget and the Acknowledgment of the block most recently sent -/

/-- The budget around the wrap of the block counter: after `n = 65534` acknowledged blocks
the budget is the full `MAX_SYNC_TRIES`, block `n + 1 = 65535` is the packet most recently
sent, and the iteration that reads the Acknowledgment of that block leaves the budget
at 3. -/
theorem wrap_budget (env : Env) (name content : List Nat) (s : Option Nat)
    (pb : List Nat) (n : Nat) (hn : n = 65534) (hS : Serves env content)
    (hL : 65534 * 512 ≤ content.length)
    (hname : ∀ c ∈ name, c ≠ 0) (hfit : (rrqPacket name octet).length ≤ DATA_SIZE) :
    ∃ w1 w w',
      mainLoop (initWorld s pb) [{ read := recvFrom (rrqPacket name octet), env := env }]
        = Outcome.running w1 ∧
      ackingClient env n w1 = Outcome.running w ∧
      w.tftp.MaxSyncError = MAX_SYNC_TRIES ∧
      lastPacket w.log = some (dataPacket (n + 1) (chunk content (n + 1))) ∧
      mainLoop w [{ read := recvFrom (ackPacket (n + 1)), env := env }] = Outcome.running w' ∧
      w'.log = w.log ++ [Event.sendto (dataPacket (n + 1) (chunk content (n + 1))) peerA] ∧
      w'.tftp.MaxSyncError = 3 := by
  have hseg : SEGSIZE = 512 := rfl
  obtain ⟨w1, stored, h1, hSent1, _⟩ := request_step_sent env content name s pb hS hname hfit
  obtain ⟨w, hw, hSw, hmw⟩ := client_run env stored content hS n 1 w1 (le_refl 1) hSent1
    (fun k hk1 hk2 => chunk_full content k (by rw [hseg]; omega) hk1) (by omega)
  rw [show 1 + n = n + 1 by omega] at hSw
  have hlast : lastPacket w.log = some (dataPacket (n + 1) (chunk content (n + 1))) := by
    rw [hSw.hlog, lastPacket_transferLog]
  obtain ⟨w', hstep, hlog', hm'⟩ := ack_step_wrapped env stored content (n + 1) w hS (by omega)
    hSw (hmw (by omega))
  exact ⟨w1, w, w', h1, hw, hmw (by omega), hlast, hstep, hlog', hm'.1⟩

set_option maxRecDepth 1000000 in
/-- C15 (defect of the code): the budget is not set back to 4 by every Acknowledgment of
the block most recently sent, and it is set back by a datagram that acknowledges nothing.
(1) A resource of `65534 * 512 + 3` bytes is served to a client that acknowledges every
Data packet with that packet's block number. After 65534 acknowledgments the budget is 4
and the packet most recently sent is Data block 65535; the Acknowledgment carrying
exactly that number does not make the budget 4: it lowers it to 3 and the block is sent
again (the 16-bit counter has wrapped to 0 and the test, made in `int`, sees -1; the
defect of C4). (2) In a transfer of 600 bytes, block 2 is awaited and one mismatched
Acknowledgment has lowered the budget to 3; the two-byte datagram `00 04`, which carries
no block number, then sets the budget back to 4 and completes the transfer: the block
number is read from the bytes the Data packet left in the packet buffer. -/
theorem budget_reset_defects :
    (∃ w1 w w',
      mainLoop (initWorld (some 1) [])
        [{ read := recvFrom (rrqPacket [97] octet), env := servingEnv bigContent }]
        = Outcome.running w1 ∧
      ackingClient (servingEnv bigContent) 65534 w1 = Outcome.running w ∧
      w.tftp.MaxSyncError = 4 ∧
      lastPacket w.log = some (dataPacket 65535 (chunk bigContent 65535)) ∧
      mainLoop w [{ read := recvFrom (ackPacket 65535), env := servingEnv bigContent }]
        = Outcome.running w' ∧
      w'.log = w.log ++ [Event.sendto (dataPacket 65535 (chunk bigContent 65535)) peerA] ∧
      w'.tftp.MaxSyncError = 3) ∧
    (∃ w3 w4,
      mainLoop (initWorld (some 1) [])
        [stepOf (List.replicate 600 7) (rrqPacket [97] octet),
         stepOf (List.replicate 600 7) (ackPacket 1),
         stepOf (List.replicate 600 7) (ackPacket 0)] = Outcome.running w3 ∧
      w3.tftp.MaxSyncError = 3 ∧ w3.tftp.NextBlock = 3 ∧
      mainLoop w3 [stepOf (List.replicate 600 7) [0, 4]] = Outcome.completed w4 ∧
      w4.tftp.MaxSyncError = 4 ∧ w4.log = w3.log) := by
  have hlen : bigContent.length = 33553411 := List.length_replicate _ _
  refine ⟨?_, ?_⟩
  · exact wrap_budget (servingEnv bigContent) [97] bigContent (some 1) [] 65534 rfl
      (serves_servingEnv _) (by rw [hlen]; decide) (by decide) (by decide)
  · refine ⟨_, _, rfl, ?_, ?_, rfl, ?_, ?_⟩ <;> decide

end Tftp
